import Mathlib

/-!
Verification of the `cs_k8s` Ansible module (plugins/modules/cs_k8s.py), which
reconciles a desired Kubernetes-cluster specification against an Apache
CloudStack cloud.

The development shallowly embeds the module's decision logic:

* `Params` mirrors the module parameters (`module.params` plus `check_mode`);
* `Value` mirrors the Python dictionaries that flow through the code (a record
  coming back from the API, or the immediate response of an asynchronous call);
  a field set to `none` models a key that is absent from the dictionary;
* `Env` models the external collaborators (API gateway client, job polling,
  and the generic resolvers living in `module_utils`): for every operation it
  supplies both the immediate response and the polled result;
* each method of `AnsibleCloudStackKubernetes` becomes a function in the
  `EStateM String St` monad, where `St` carries the instance caches
  (`self.k8s`, `self.version`, `self.service_offering`), the `changed` flag of
  `self.result`, and a trace of the API queries issued;
* `mainM` embeds the dispatch and final error-state check of `main()`;
* `Remote`/`envOfRemote`/`applyCall` give a faithful small-step semantics of
  the cloud itself, used to run the module twice in succession for the
  idempotence property.

`fail_json` and Python runtime errors (`KeyError` on a missing dictionary key,
`AttributeError` when `.lower()` is called on `None`) are both embedded as
`throw` with distinguishable messages; `EStateM` keeps the state (hence the
trace and the `changed` flag) on failure, exactly as the process state at the
moment the Python process exits.
-/

/-- Python's `str.lower()`: lowercase every character (structurally
recursive, so concrete scenarios evaluate inside the kernel). -/
def strLower (s : String) : String :=
  String.mk (s.data.map Char.toLower)

/-- The desired lifecycle, module option `state` with
`choices=[present, enabled, disabled, absent]`. -/
inductive Lifecycle where
  | present
  | enabled
  | disabled
  | absent
  deriving DecidableEq, Repr

/-- The `docker_registry` sub-options dictionary (url, username, password). -/
structure DockerRegistry where
  url : Option String
  username : Option String
  password : Option String
  deriving DecidableEq, Repr

/-- The module parameters as seen by the code: `module.params` together with
`module.check_mode`.  `name` and `zone` are `required=True` in the argument
spec, hence plain strings.  `paramId` stands for `module.params.get('id')`
read by `get_k8s`; the argument spec of `main()` declares no `id` option, so
in every real invocation this value is `None` — it is kept as a field so the
lookup logic of `get_k8s` can be stated in full. -/
structure Params where
  name : String
  zone : String
  description : Option String
  service_offering : Option String
  version : Option String
  size : Option Int
  control_nodes : Option Int
  root_disk : Option Int
  docker_registry : Option DockerRegistry
  load_balancer : Option String
  ssh_key : Option String
  state : Lifecycle
  poll_async : Bool
  check_mode : Bool
  paramId : Option String
  deriving DecidableEq, Repr

/-- A Python dictionary flowing through the module as the current `k8s` value:
either a cluster record returned by `listKubernetesClusters`/`poll_job`, or
the immediate response of an asynchronous call.  A `none` field models an
absent key. -/
structure Value where
  id : Option String := none
  name : Option String := none
  kubernetesversionid : Option String := none
  serviceofferingid : Option String := none
  size : Option Int := none
  state : Option String := none
  config : Option String := none
  jobid : Option String := none
  deriving DecidableEq, Repr

/-- An entry of a remote catalog (`listKubernetesSupportedVersions` /
`listServiceOfferings`): the module only reads `id` and `name`. -/
structure CatalogEntry where
  id : String
  name : String
  deriving DecidableEq, Repr

/-- The argument dictionary built by `_create_k8s` for
`createKubernetesCluster`, field for field. -/
structure CreateArgs where
  account : Option String
  controlnodes : Option Int
  description : Option String
  dockerregistrypassword : Option String
  dockerregistryurl : Option String
  dockerregistryusername : Option String
  domainid : Option String
  externalloadbalanceripaddress : Option String
  keypair : Option String
  kubernetesversionid : String
  name : String
  networkid : Option String
  noderootdisksize : Option Int
  projectid : Option String
  serviceofferingid : String
  size : Option Int
  zoneid : Option String
  deriving DecidableEq, Repr

/-- The argument dictionary built by `_update_k8s` and diffed against the
current record. -/
structure UpdateArgs where
  id : String
  kubernetesversionid : String
  serviceofferingid : String
  size : Option Int
  deriving DecidableEq, Repr

/-- One API query issued by the module, with its arguments.  The first four
are read-only; the last six mutate the cloud. -/
inductive Call where
  | listClusters (idFilter nameFilter : Option String)
  | listVersions
  | listOfferings
  | getConfig (id : String)
  | create (args : CreateArgs)
  | upgrade (id versionId : String)
  | scale (id offeringId : String) (size : Option Int)
  | start (id : String)
  | stop (id : String)
  | delete (id : String)
  deriving DecidableEq, Repr

/-- Whether a call mutates the remote cloud (create, upgrade, scale, start,
stop, delete — as opposed to catalog/cluster/config reads). -/
def Call.isMutating : Call → Bool
  | .create _ => true
  | .upgrade _ _ => true
  | .scale _ _ _ => true
  | .start _ => true
  | .stop _ => true
  | .delete _ => true
  | _ => false

/-- The per-invocation instance state of `AnsibleCloudStackKubernetes`:
`self.k8s`, `self.version`, `self.service_offering`, `self.result['changed']`,
the `result['version']`/`result['service_offering']` bookkeeping, and the
trace of API queries issued so far. -/
structure St where
  k8sCache : Option Value := none
  versionCache : Option CatalogEntry := none
  offeringCache : Option CatalogEntry := none
  changed : Bool := false
  resultVersion : Option String := none
  resultOffering : Option String := none
  trace : List Call := []
  deriving DecidableEq, Repr

/-- The monad of the embedding: explicit instance state, failure messages for
`fail_json` and Python runtime errors.  `EStateM` keeps the state on failure,
so the trace and `changed` flag at the moment of an abort remain observable. -/
abbrev M (α : Type) := EStateM String St α

/-- The external collaborators: the API gateway client together with the job
polling primitive and the generic `module_utils` resolvers.  For every
asynchronous operation the environment supplies both the immediate response
(`...Resp`, the job handle the code sees when `poll_async` is off) and the
result of `poll_job` on that response (`...Polled`).  `listClusters` returns
the first record matching the given `id`/`name` filters, or `none` for the
falsy `{}` response.  `getConfig` returns the `configdata` payload of
`getKubernetesClusterConfig` when the response carries a `clusterconfig` key.
`accountId`/`domainId`/`projectId`/`networkId`/`zoneId` stand for the
`get_account`/`get_domain`/`get_project`/`get_network`/`get_zone` resolvers of
the generic `AnsibleCloudStack` base class (module_utils, outside this
module's source). -/
structure Env where
  listClusters : Option String → Option String → Option Value
  listVersions : List CatalogEntry
  listOfferings : List CatalogEntry
  createResp : CreateArgs → Value
  createPolled : CreateArgs → Value
  upgradeResp : String → String → Value
  upgradePolled : String → String → Value
  scaleResp : String → String → Option Int → Value
  scalePolled : String → String → Option Int → Value
  startResp : String → Value
  startPolled : String → Value
  stopResp : String → Value
  stopPolled : String → Value
  deleteResp : String → Value
  deletePolled : String → Value
  getConfig : String → Option String
  accountId : Option String
  domainId : Option String
  projectId : Option String
  networkId : Option String
  zoneId : Option String

/-- Append a query to the trace. -/
def pushCall (c : Call) : M Unit :=
  modify fun st => { st with trace := st.trace ++ [c] }

/-- `self.fail_json(msg=...)` / a Python runtime error: abort the invocation,
keeping the state. -/
def failJson {α : Type} (msg : String) : M α :=
  throw msg

/-- `fail_json` message for an entirely empty version catalog. -/
def versionsEmptyMsg : String :=
  "No Kubernetes versions available. Please create a version first"

/-- `fail_json` message for a version name/id matching no catalog entry. -/
def versionNotFoundMsg (ver : String) : String :=
  "version " ++ ver ++ " not found"

/-- `fail_json` message for an entirely empty service-offering catalog. -/
def offeringsEmptyMsg : String :=
  "No service offerings available. Please create a service offering first"

/-- `fail_json` message for an offering name/id matching no catalog entry. -/
def offeringNotFoundMsg (so : String) : String :=
  "service offering " ++ so ++ " not found"

/-- The predicate `get_version` matches catalog entries with: the lowercased
requested value equals the lowercased entry name or the raw entry id. -/
def matchesRef (req : String) (e : CatalogEntry) : Bool :=
  strLower req == strLower e.name || strLower req == e.id

/-- `get_version` (cs_k8s.py lines 374-390): memoized; queries
`listKubernetesSupportedVersions`; a falsy (empty) response is the distinct
"No Kubernetes versions available" failure; otherwise the first entry whose
lowercased name or raw id equals the lowercased requested version is cached
and returned; no match is the "version not found" failure.  When the `version`
parameter is `None` and the catalog is non-empty, the first loop iteration
evaluates `None.lower()`: an `AttributeError`, embedded as a throw. -/
def getVersion (env : Env) (p : Params) : M CatalogEntry := do
  let st ← get
  match st.versionCache with
  | some v => pure v
  | none => do
    pushCall Call.listVersions
    if env.listVersions.isEmpty then
      failJson versionsEmptyMsg
    else
      match p.version with
      | none => failJson "AttributeError: NoneType object has no attribute lower"
      | some ver =>
        match env.listVersions.find? (matchesRef ver) with
        | some v => do
          modify fun st => { st with versionCache := some v, resultVersion := some v.name }
          pure v
        | none => failJson (versionNotFoundMsg ver)

/-- `get_service_offering` (cs_k8s.py lines 392-408): same shape as
`get_version` over `listServiceOfferings`. -/
def getServiceOffering (env : Env) (p : Params) : M CatalogEntry := do
  let st ← get
  match st.offeringCache with
  | some o => pure o
  | none => do
    pushCall Call.listOfferings
    if env.listOfferings.isEmpty then
      failJson offeringsEmptyMsg
    else
      match p.service_offering with
      | none => failJson "AttributeError: NoneType object has no attribute lower"
      | some so =>
        match env.listOfferings.find? (matchesRef so) with
        | some o => do
          modify fun st => { st with offeringCache := some o, resultOffering := some o.name }
          pure o
        | none => failJson (offeringNotFoundMsg so)

/-- `get_k8s` (cs_k8s.py lines 410-427): memoized cluster lookup.  When an
`id` parameter is present, `args = {'id': uuid}` and the cluster is queried;
a hit is cached and returned.  Otherwise — including the case where the id
query came back empty — `args['name']` is set (note: `args` keeps the `'id'`
entry it already holds) and a second query is issued. -/
def getK8s (env : Env) (p : Params) : M (Option Value) := do
  let st ← get
  match st.k8sCache with
  | some v => pure (some v)
  | none =>
    match p.paramId with
    | some uuid => do
      pushCall (Call.listClusters (some uuid) none)
      match env.listClusters (some uuid) none with
      | some rec1 => do
        modify fun st => { st with k8sCache := some rec1 }
        pure (some rec1)
      | none => do
        pushCall (Call.listClusters (some uuid) (some p.name))
        match env.listClusters (some uuid) (some p.name) with
        | some rec2 => do
          modify fun st => { st with k8sCache := some rec2 }
          pure (some rec2)
        | none => pure none
    | none => do
      pushCall (Call.listClusters none (some p.name))
      match env.listClusters none (some p.name) with
      | some rec1 => do
        modify fun st => { st with k8sCache := some rec1 }
        pure (some rec1)
      | none => pure none

/-- The keys that `_update_k8s` passes as `only_keys` to `has_changed`. -/
inductive UpdKey where
  | kversionid
  | sofferingid
  | size
  deriving DecidableEq, Repr

/-- Modelled from the spec: `has_changed` lives in `module_utils/cloudstack`
(the generic `AnsibleCloudStack` base class), which is not part of the source
under verification.  Per spec §4.3, field comparison is exact equality of the
resolved desired value against the record's corresponding field, restricted
to the given key group; a field absent from the desired spec (`None`) is
excluded from comparison (never treated as "clear this value"), and a key the
current record does not carry is likewise not compared. -/
def hasChanged (args : UpdateArgs) (v : Value) (keys : List UpdKey) : Bool :=
  keys.any fun k =>
    match k with
    | UpdKey.kversionid =>
      match v.kubernetesversionid with
      | some w => w != args.kubernetesversionid
      | none => false
    | UpdKey.sofferingid =>
      match v.serviceofferingid with
      | some w => w != args.serviceofferingid
      | none => false
    | UpdKey.size =>
      match args.size, v.size with
      | some n, some m => n != m
      | _, _ => false

/-- `k8s['id']` / `k8s['state']` on a dictionary: a missing key is a Python
`KeyError`, aborting the process. -/
def getItem {α : Type} (field : String) (o : Option α) : M α :=
  match o with
  | some a => pure a
  | none => failJson ("KeyError: " ++ field)

/-- The argument dictionary `_create_k8s` builds for
`createKubernetesCluster`, in evaluation order of the Python dict literal,
with the docker-registry block replaced by an all-`None` dictionary when
omitted. -/
def createArgsFor (env : Env) (p : Params) (ver off : CatalogEntry) : CreateArgs :=
  let dr := p.docker_registry.getD { url := none, username := none, password := none }
  { account := env.accountId
    controlnodes := p.control_nodes
    description := p.description
    dockerregistrypassword := dr.password
    dockerregistryurl := dr.url
    dockerregistryusername := dr.username
    domainid := env.domainId
    externalloadbalanceripaddress := p.load_balancer
    keypair := p.ssh_key
    kubernetesversionid := ver.id
    name := p.name
    networkid := env.networkId
    noderootdisksize := p.root_disk
    projectid := env.projectId
    serviceofferingid := off.id
    size := p.size
    zoneid := env.zoneId }

/-- `_create_k8s` (cs_k8s.py lines 442-490): validates the create-required
parameters, substitutes an all-`None` `docker_registry` dictionary when the
block is omitted, builds the `createKubernetesCluster` arguments (resolving
the version and then the service offering), sets `changed`, and — outside
check mode — issues the create and polls it when `poll_async` is set.
`fail_on_missing_params` checks `description`, `name`, `service_offering`,
`size`, `version`, `zone`; `name` and `zone` are required strings of the
argument spec and cannot be missing here. -/
def createK8s (env : Env) (p : Params) : M (Option Value) := do
  if p.description.isNone || p.service_offering.isNone || p.size.isNone || p.version.isNone then
    failJson "missing required arguments: description, service_offering, size, version"
  else
  let ver ← getVersion env p
  let off ← getServiceOffering env p
  let args : CreateArgs := createArgsFor env p ver off
  modify fun st => { st with changed := true }
  if p.check_mode then
    pure none
  else do
    pushCall (Call.create args)
    let resp := env.createResp args
    let k8s := if p.poll_async then env.createPolled args else resp
    pure (some k8s)

/-- The version group of `_update_k8s` (cs_k8s.py lines 502-514): when
`has_changed` on `kubernetesversionid` reports a difference against the
working record, set `changed` and — outside check mode — issue the upgrade
scoped to id+version and replace the working record with the (optionally
polled) result. -/
def versionGroup (env : Env) (p : Params) (args : UpdateArgs) (k8s0 : Value) : M Value :=
  if hasChanged args k8s0 [UpdKey.kversionid] then do
    modify fun st => { st with changed := true }
    if p.check_mode then
      pure k8s0
    else do
      pushCall (Call.upgrade args.id args.kubernetesversionid)
      let resp := env.upgradeResp args.id args.kubernetesversionid
      pure (if p.poll_async then env.upgradePolled args.id args.kubernetesversionid else resp)
  else
    pure k8s0

/-- The scale group of `_update_k8s` (cs_k8s.py lines 516-529): when
`has_changed` on `serviceofferingid`/`size` reports a difference against the
working record (post-upgrade when the version group fired), set `changed` and
— outside check mode — issue the scale carrying the resolved offering id and
the desired size, and replace the working record with the (optionally polled)
result. -/
def scaleGroup (env : Env) (p : Params) (args : UpdateArgs) (k8s1 : Value) : M Value :=
  if hasChanged args k8s1 [UpdKey.sofferingid, UpdKey.size] then do
    modify fun st => { st with changed := true }
    if p.check_mode then
      pure k8s1
    else do
      pushCall (Call.scale args.id args.serviceofferingid args.size)
      let resp := env.scaleResp args.id args.serviceofferingid args.size
      pure (if p.poll_async then env.scalePolled args.id args.serviceofferingid args.size else resp)
  else
    pure k8s1

/-- `_update_k8s` (cs_k8s.py lines 492-531): rebuilds the diff arguments from
the cached record, then evaluates the version group and the scale group in
order.  Each group sets `changed` when `has_changed` reports a difference on
its own keys, and — outside check mode — issues its call and replaces the
working record with the (optionally polled) result, so the scale group diffs
against whatever the upgrade returned. -/
def updateK8s (env : Env) (p : Params) : M (Option Value) := do
  let k8sOpt ← getK8s env p
  match k8sOpt with
  | none => failJson "TypeError: NoneType object is not subscriptable"
  | some k8s0 => do
    let cid ← getItem "id" k8s0.id
    let ver ← getVersion env p
    let off ← getServiceOffering env p
    let args : UpdateArgs := {
      id := cid
      kubernetesversionid := ver.id
      serviceofferingid := off.id
      size := p.size }
    let k8s1 ← versionGroup env p args k8s0
    let k8s2 ← scaleGroup env p args k8s1
    pure (some k8s2)

/-- `_k8s_config` (cs_k8s.py lines 581-589): when the current record lacks a
`config` key, issue one `getKubernetesClusterConfig` query; attach the
`configdata` payload (and refresh the cache) only when the response carries a
`clusterconfig` key, otherwise return the record unchanged. -/
def k8sConfig (env : Env) (p : Params) : M (Option Value) := do
  let k8sOpt ← getK8s env p
  match k8sOpt with
  | some v =>
    if v.config.isNone then do
      let cid ← getItem "id" v.id
      pushCall (Call.getConfig cid)
      match env.getConfig cid with
      | some cfg => do
        let v2 := { v with config := some cfg }
        modify fun st => { st with k8sCache := some v2 }
        pure (some v2)
      | none => pure (some v)
    else
      pure (some v)
  | none => pure none

/-- The update-or-create dispatch of `present_k8s`: a create never runs when
a record already exists. -/
def ensureStep (env : Env) (p : Params) (k8s0 : Option Value) : M (Option Value) :=
  match k8s0 with
  | some _ => updateK8s env p
  | none => createK8s env p

/-- `present_k8s` (cs_k8s.py lines 429-440): update when a record exists,
create otherwise; when the step yielded a truthy value, refresh the cache and
attach the cluster config. -/
def presentK8s (env : Env) (p : Params) : M (Option Value) := do
  let k8s0 ← getK8s env p
  let k8s1 ← ensureStep env p k8s0
  match k8s1 with
  | some v => do
    modify fun st => { st with k8sCache := some v }
    k8sConfig env p
  | none => pure none

/-- `start_k8s` (cs_k8s.py lines 533-548): on an existing record, a state
already `starting`/`running` (case-insensitively) is returned as is; a state
`stopped`/`stopping` sets `changed` and — outside check mode — issues one
start, polled when requested; any other state falls through unchanged. -/
def startK8s (env : Env) (p : Params) : M (Option Value) := do
  let k8sOpt ← getK8s env p
  match k8sOpt with
  | some v => do
    let s ← getItem "state" v.state
    if ["starting", "running"].contains (strLower s) then
      pure (some v)
    else if ["stopped", "stopping"].contains (strLower s) then do
      modify fun st => { st with changed := true }
      if p.check_mode then
        pure (some v)
      else do
        let cid ← getItem "id" v.id
        pushCall (Call.start cid)
        let resp := env.startResp cid
        pure (some (if p.poll_async then env.startPolled cid else resp))
    else
      pure (some v)
  | none => pure none

/-- `stop_k8s` (cs_k8s.py lines 550-565): dual of `start_k8s` — a state
already `stopping`/`stopped` is returned as is; a state `starting`/`running`
sets `changed` and — outside check mode — issues one stop, polled when
requested; any other state falls through unchanged. -/
def stopK8s (env : Env) (p : Params) : M (Option Value) := do
  let k8sOpt ← getK8s env p
  match k8sOpt with
  | some v => do
    let s ← getItem "state" v.state
    if ["stopping", "stopped"].contains (strLower s) then
      pure (some v)
    else if ["starting", "running"].contains (strLower s) then do
      modify fun st => { st with changed := true }
      if p.check_mode then
        pure (some v)
      else do
        let cid ← getItem "id" v.id
        pushCall (Call.stop cid)
        let resp := env.stopResp cid
        pure (some (if p.poll_async then env.stopPolled cid else resp))
    else
      pure (some v)
  | none => pure none

/-- `absent_k8s` (cs_k8s.py lines 567-579): when a record exists, set
`changed` and — outside check mode — issue one delete, polled when
requested. -/
def absentK8s (env : Env) (p : Params) : M (Option Value) := do
  let k8sOpt ← getK8s env p
  match k8sOpt with
  | some v => do
    modify fun st => { st with changed := true }
    if p.check_mode then
      pure (some v)
    else do
      let cid ← getItem "id" v.id
      pushCall (Call.delete cid)
      let resp := env.deleteResp cid
      pure (some (if p.poll_async then env.deletePolled cid else resp))
  | none => pure none

/-- The error message of the final state check of `main()`. -/
def errorStateMsg (name : String) : String :=
  "Kubernetes cluster named " ++ name ++ " in error state."

/-- The final check of `main()` (cs_k8s.py lines 654-655): `if k8s and 'state'
in k8s and k8s['state'].lower() == 'error'` — fail naming the cluster. -/
def finalStateCheck (p : Params) (k8s : Option Value) : M (Option Value) :=
  match k8s with
  | some v =>
    match v.state with
    | some s =>
      if strLower s == "error" then failJson (errorStateMsg p.name) else pure k8s
    | none => pure k8s
  | none => pure k8s

/-- The reconciliation steps of `main()` (cs_k8s.py lines 643-652), before the
final state check: the `AnsibleModule` `required_if` gate (state `present`
requires `description`, `service_offering`, `size`, `version`), then the
lifecycle dispatch — `absent` runs only `absent_k8s`; every other lifecycle
runs `present_k8s` (its return value discarded) followed by `stop_k8s` for
`disabled` and `start_k8s` otherwise. -/
def stepsM (env : Env) (p : Params) : M (Option Value) := do
  if p.state = Lifecycle.present &&
      (p.description.isNone || p.service_offering.isNone || p.size.isNone || p.version.isNone) then
    failJson "missing required arguments for state=present"
  else
  if p.state = Lifecycle.absent then
    absentK8s env p
  else do
    let _ ← presentK8s env p
    if p.state = Lifecycle.disabled then
      stopK8s env p
    else
      startK8s env p

/-- `main()` (cs_k8s.py lines 592-658): the reconciliation steps followed by
the final error-state check. -/
def mainM (env : Env) (p : Params) : M (Option Value) := do
  let k8s ← stepsM env p
  finalStateCheck p k8s

/-- One full module invocation from a fresh instance state. -/
def runK8sModule (env : Env) (p : Params) : EStateM.Result String St (Option Value) :=
  mainM env p |>.run {}

/-- The instance state an invocation ends in (kept by `EStateM` also on
failure). -/
def finalSt {α : Type} : EStateM.Result String St α → St
  | EStateM.Result.ok _ st => st
  | EStateM.Result.error _ st => st

/-- The mutating calls an invocation issued, in order. -/
def mutatingCalls {α : Type} (r : EStateM.Result String St α) : List Call :=
  (finalSt r).trace.filter Call.isMutating

/-- A cluster as the cloud stores it: a full record (every field the module
reads is present).  `config` models whether `listKubernetesClusters` returns a
`config` key for it. -/
structure Record where
  id : String
  name : String
  kubernetesversionid : String
  serviceofferingid : String
  size : Int
  state : String
  config : Option String
  deriving DecidableEq, Repr

/-- The dictionary `listKubernetesClusters` / `poll_job` hands the module for
a stored cluster. -/
def Record.toValue (c : Record) : Value :=
  { id := some c.id
    name := some c.name
    kubernetesversionid := some c.kubernetesversionid
    serviceofferingid := some c.serviceofferingid
    size := some c.size
    state := some c.state
    config := c.config }

/-- The cloud state: the stored clusters, the two catalogs, the per-cluster
config payload, the id the next created cluster receives, and the identifiers
the generic `module_utils` resolvers produce. -/
structure Remote where
  clusters : List Record
  versions : List CatalogEntry
  offerings : List CatalogEntry
  configData : String → Option String
  nextId : String
  accountId : Option String
  domainId : Option String
  projectId : Option String
  networkId : Option String
  zoneId : Option String

/-- Conjunction of the `listKubernetesClusters` filters: a supplied `id` or
`name` parameter must match exactly. -/
def matchesFilters (idFilter nameFilter : Option String) (c : Record) : Bool :=
  (match idFilter with
   | some i => c.id == i
   | none => true) &&
  (match nameFilter with
   | some n => c.name == n
   | none => true)

/-- The first stored cluster matching the filters. -/
def findCluster (r : Remote) (idFilter nameFilter : Option String) : Option Record :=
  (r.clusters.filter (matchesFilters idFilter nameFilter)).head?

/-- The record a freshly created cluster gets: the attributes of the create
arguments and state `Running` (a cluster leaves a successful create running),
with no config generated yet. -/
def createdRecord (r : Remote) (args : CreateArgs) : Record :=
  { id := r.nextId
    name := args.name
    kubernetesversionid := args.kubernetesversionid
    serviceofferingid := args.serviceofferingid
    size := args.size.getD 0
    state := "Running"
    config := none }

/-- The effect of `upgradeKubernetesCluster` on a stored cluster. -/
def upgradedRecord (vid : String) (c : Record) : Record :=
  { c with kubernetesversionid := vid }

/-- The effect of `scaleKubernetesCluster` on a stored cluster: the offering
is replaced; the size only when the call carried one (`None` parameters are
dropped by the API client). -/
def scaledRecord (oid : String) (sz : Option Int) (c : Record) : Record :=
  { c with serviceofferingid := oid, size := sz.getD c.size }

/-- The immediate response of an asynchronous command: the job id and the
resource id, but no state, attributes or config. -/
def jobValue (id : String) : Value :=
  { id := some id, jobid := some "job-0" }

/-- The API gateway behaviour a given cloud state induces for one invocation:
polled mutating calls hand back the post-operation record; `poll_job` on a
delete returns the job response unchanged (its `jobresult` carries no
`kubernetescluster` key). -/
def envOfRemote (r : Remote) : Env :=
  { listClusters := fun idF nameF => (findCluster r idF nameF).map Record.toValue
    listVersions := r.versions
    listOfferings := r.offerings
    createResp := fun _ => jobValue r.nextId
    createPolled := fun args => (createdRecord r args).toValue
    upgradeResp := fun cid _ => jobValue cid
    upgradePolled := fun cid vid =>
      match findCluster r (some cid) none with
      | some c => (upgradedRecord vid c).toValue
      | none => jobValue cid
    scaleResp := fun cid _ _ => jobValue cid
    scalePolled := fun cid oid sz =>
      match findCluster r (some cid) none with
      | some c => (scaledRecord oid sz c).toValue
      | none => jobValue cid
    startResp := fun cid => jobValue cid
    startPolled := fun cid =>
      match findCluster r (some cid) none with
      | some c => ({ c with state := "Running" } : Record).toValue
      | none => jobValue cid
    stopResp := fun cid => jobValue cid
    stopPolled := fun cid =>
      match findCluster r (some cid) none with
      | some c => ({ c with state := "Stopped" } : Record).toValue
      | none => jobValue cid
    deleteResp := fun cid => jobValue cid
    deletePolled := fun cid => jobValue cid
    getConfig := r.configData
    accountId := r.accountId
    domainId := r.domainId
    projectId := r.projectId
    networkId := r.networkId
    zoneId := r.zoneId }

/-- The effect of one issued call on the cloud state once its job has run to
completion.  Read queries leave the cloud unchanged. -/
def applyCall (r : Remote) (c : Call) : Remote :=
  match c with
  | Call.create args => { r with clusters := r.clusters ++ [createdRecord r args] }
  | Call.upgrade cid vid =>
    { r with clusters := r.clusters.map fun c => if c.id == cid then upgradedRecord vid c else c }
  | Call.scale cid oid sz =>
    { r with clusters := r.clusters.map fun c => if c.id == cid then scaledRecord oid sz c else c }
  | Call.start cid =>
    { r with clusters := r.clusters.map fun c => if c.id == cid then { c with state := "Running" } else c }
  | Call.stop cid =>
    { r with clusters := r.clusters.map fun c => if c.id == cid then { c with state := "Stopped" } else c }
  | Call.delete cid => { r with clusters := r.clusters.filter fun c => c.id != cid }
  | _ => r

/-- The cloud state after every call of a trace has run to completion. -/
def applyTrace (r : Remote) (t : List Call) : Remote :=
  t.foldl applyCall r

/-- The cloud state a first invocation of the module leaves behind, once all
the jobs it launched have completed and absent any third-party drift. -/
def remoteAfterRun (p : Params) (r : Remote) : Remote :=
  applyTrace r (finalSt (runK8sModule (envOfRemote r) p)).trace

/-- The second of two back-to-back invocations with the same parameters: the
first runs against `r`, the second against the cloud state the first left
behind. -/
def secondRun (p : Params) (r : Remote) : EStateM.Result String St (Option Value) :=
  runK8sModule (envOfRemote (remoteAfterRun p r)) p

/-- The error message of a finished invocation, when it failed. -/
def resMsg {α : Type} : EStateM.Result String St α → Option String
  | EStateM.Result.error e _ => some e
  | EStateM.Result.ok _ _ => none

/-- The fresh instance state an invocation starts from. -/
def initSt : St := {}

/-! ### Concrete fixtures used by witnesses and counterexamples -/

/-- A base environment: empty cloud, empty catalogs, generic responses. -/
def baseEnv : Env :=
  { listClusters := fun _ _ => none
    listVersions := []
    listOfferings := []
    createResp := fun _ => jobValue "c0"
    createPolled := fun _ => jobValue "c0"
    upgradeResp := fun cid _ => jobValue cid
    upgradePolled := fun cid _ => jobValue cid
    scaleResp := fun cid _ _ => jobValue cid
    scalePolled := fun cid _ _ => jobValue cid
    startResp := fun cid => jobValue cid
    startPolled := fun cid => jobValue cid
    stopResp := fun cid => jobValue cid
    stopPolled := fun cid => jobValue cid
    deleteResp := fun cid => jobValue cid
    deletePolled := fun cid => jobValue cid
    getConfig := fun _ => none
    accountId := none
    domainId := none
    projectId := none
    networkId := none
    zoneId := some "zone-1" }

/-- Base parameters for concrete scenarios. -/
def baseParams : Params :=
  { name := "k8s-cluster-01"
    zone := "ch-zrh-ix-01"
    description := some "Kubernetes cluster"
    service_offering := some "CH23"
    version := some "v1.27.3"
    size := some 4
    control_nodes := none
    root_disk := none
    docker_registry := none
    load_balancer := none
    ssh_key := none
    state := Lifecycle.present
    poll_async := true
    check_mode := false
    paramId := none }

/-- A version catalog with two entries. -/
def sampleVersions : List CatalogEntry :=
  [{ id := "vid1", name := "v1.27.3" }, { id := "vid2", name := "v1.28.0" }]

/-- An offering catalog with two entries. -/
def sampleOfferings : List CatalogEntry :=
  [{ id := "oid1", name := "CH23" }, { id := "oid2", name := "CH24" }]

/-- An existing running cluster matching `baseParams`. -/
def sampleRecord : Record :=
  { id := "c1"
    name := "k8s-cluster-01"
    kubernetesversionid := "vid1"
    serviceofferingid := "oid1"
    size := 4
    state := "Running"
    config := some "cfg" }

/-- Base cloud state: catalogs populated, no cluster. -/
def baseRemote : Remote :=
  { clusters := []
    versions := sampleVersions
    offerings := sampleOfferings
    configData := fun _ => some "cfg"
    nextId := "c-new"
    accountId := none
    domainId := none
    projectId := none
    networkId := none
    zoneId := some "zone-1" }

/-- Parameters requesting references absent from the sample catalogs. -/
def unknownRefParams : Params :=
  { baseParams with version := some "v9.99.9", service_offering := some "HUGE" }

/-- An environment with the sample catalogs but no clusters. -/
def catalogEnv : Env :=
  { baseEnv with listVersions := sampleVersions, listOfferings := sampleOfferings }

/-- The `Value` of `sampleRecord` (state `Running`). -/
def runningValue : Value := sampleRecord.toValue

/-- The `Value` of `sampleRecord` stopped. -/
def stoppedValue : Value := ({ sampleRecord with state := "Stopped" } : Record).toValue

/-- An instance state holding a cached running record. -/
def stRunning : St := { initSt with k8sCache := some runningValue }

/-- An instance state holding a cached stopped record. -/
def stStopped : St := { initSt with k8sCache := some stoppedValue }

/-- `sampleRecord` in the `Error` state. -/
def errRecord : Record := { sampleRecord with state := "Error" }

/-- A cloud whose only cluster is in the `Error` state. -/
def errRemote : Remote := { baseRemote with clusters := [errRecord] }

/-- The instance state the reconciliation steps of `baseParams` against
`errRemote` end in (the record was found, both resolutions hit their cached
entries, nothing diverged, no mutating call). -/
def errStepsSt : St :=
  { k8sCache := some errRecord.toValue
    versionCache := some { id := "vid1", name := "v1.27.3" }
    offeringCache := some { id := "oid1", name := "CH23" }
    changed := false
    resultVersion := some "v1.27.3"
    resultOffering := some "CH23"
    trace := [Call.listClusters none (some "k8s-cluster-01"), Call.listVersions,
              Call.listOfferings] }

def oneClusterRemote : Remote := { baseRemote with clusters := [sampleRecord] }

def unpolledDeleteParams : Params :=
  { baseParams with state := Lifecycle.absent, poll_async := false }

def unpolledDeleteSt : St :=
  { k8sCache := some sampleRecord.toValue
    versionCache := none
    offeringCache := none
    changed := true
    resultVersion := none
    resultOffering := none
    trace := [Call.listClusters none (some "k8s-cluster-01"), Call.delete "c1"] }

/-- `baseParams` requesting a newer version (only the version diverges from
`sampleRecord`). -/
def upgOnlyParams : Params := { baseParams with version := some "v1.28.0" }

/-- `baseParams` requesting another offering (only the scale group diverges
from `sampleRecord`). -/
def scaleOnlyParams : Params := { baseParams with service_offering := some "CH24" }

/-- `baseParams` with both the version and the offering diverging from
`sampleRecord`. -/
def bothDiffParams : Params :=
  { baseParams with version := some "v1.28.0", service_offering := some "CH24" }

/-- `m` only appends calls satisfying `allowed` to the trace, whatever state
it starts from and whether it succeeds or aborts. -/
def OnlyPushes {α : Type} (m : M α) (allowed : Call → Bool) : Prop :=
  ∀ st : St, ∃ t : List Call,
    (finalSt (m st)).trace = st.trace ++ t ∧ t.all allowed = true

/-- Whether a call is a `createKubernetesCluster` call. -/
def Call.isCreate : Call → Bool
  | .create _ => true
  | _ => false

/-- The `listKubernetesClusters` queries `get_k8s` issues when nothing is
found: one by id and one by id+name when an id parameter is present, one by
name otherwise. -/
def lookupTrace (p : Params) : List Call :=
  match p.paramId with
  | some u => [Call.listClusters (some u) none, Call.listClusters (some u) (some p.name)]
  | none => [Call.listClusters none (some p.name)]

/-- `baseParams` in check mode. -/
def chkParams : Params := { baseParams with check_mode := true }

/-- `bothDiffParams` in check mode. -/
def chkBothParams : Params := { bothDiffParams with check_mode := true }

/-- `baseParams` with lifecycle `absent`. -/
def absParams : Params := { baseParams with state := Lifecycle.absent }

/-- `bothDiffParams` with polling disabled: the module keeps the raw job
handles instead of the polled records. -/
def pollOffParams : Params := { bothDiffParams with poll_async := false }

/-! ### End of definitions -/

/-! ### Reduction lemmas for the state monad -/

theorem M.run_eq {α : Type} (x : M α) (s : St) : x.run s = x s := rfl

theorem M.bind_apply {α β : Type} (x : M α) (f : α → M β) (s : St) :
    (x >>= f) s =
      match x s with
      | EStateM.Result.ok a s' => f a s'
      | EStateM.Result.error e s' => EStateM.Result.error e s' := by
  show EStateM.bind x f s = _
  unfold EStateM.bind
  cases x s <;> rfl

theorem M.pure_apply {α : Type} (a : α) (s : St) :
    (pure a : M α) s = EStateM.Result.ok a s := rfl

theorem M.get_apply (s : St) : (get : M St) s = EStateM.Result.ok s s := rfl

theorem M.modify_apply (f : St → St) (s : St) :
    (modify f : M Unit) s = EStateM.Result.ok () (f s) := rfl

theorem M.throw_apply {α : Type} (e : String) (s : St) :
    (throw e : M α) s = EStateM.Result.error e s := rfl

theorem M.failJson_apply {α : Type} (e : String) (s : St) :
    (failJson e : M α) s = EStateM.Result.error e s := rfl

theorem M.pushCall_apply (c : Call) (s : St) :
    pushCall c s = EStateM.Result.ok () { s with trace := s.trace ++ [c] } := rfl

theorem M.map_apply {α β : Type} (f : α → β) (x : M α) (s : St) :
    (f <$> x) s =
      match x s with
      | EStateM.Result.ok a s' => EStateM.Result.ok (f a) s'
      | EStateM.Result.error e s' => EStateM.Result.error e s' := by
  show EStateM.map f x s = _
  unfold EStateM.map
  cases x s <;> rfl

/-- Abbreviation for all of the above, used to symbolically run the monad. -/
theorem M.seq_apply {α β : Type} (x : M α) (y : M β) (s : St) :
    (x *> y) s =
      match x s with
      | EStateM.Result.ok _ s' => y s'
      | EStateM.Result.error e s' => EStateM.Result.error e s' := by
  show EStateM.seqRight x (fun _ => y) s = _
  unfold EStateM.seqRight
  cases x s <;> rfl

/-! ### C7 — the two resolver failures are distinct -/

/-- C7: for the version and service-offering resolvers, an entirely empty
catalog fails with the distinct "nothing configured" message, while a
populated catalog in which neither the lowercased name nor the raw id of any
entry matches the request fails with the "not found" message naming the
missing reference; the two messages are distinguishable. -/
theorem c7_resolver_failure_taxonomy (env : Env) (p : Params) (ver so : String) :
    (env.listVersions = [] →
      resMsg ((getVersion env p).run {}) = some versionsEmptyMsg)
    ∧ (env.listVersions ≠ [] → p.version = some ver →
        env.listVersions.find? (matchesRef ver) = none →
        resMsg ((getVersion env p).run {}) = some (versionNotFoundMsg ver))
    ∧ (env.listOfferings = [] →
      resMsg ((getServiceOffering env p).run {}) = some offeringsEmptyMsg)
    ∧ (env.listOfferings ≠ [] → p.service_offering = some so →
        env.listOfferings.find? (matchesRef so) = none →
        resMsg ((getServiceOffering env p).run {}) = some (offeringNotFoundMsg so))
    ∧ versionsEmptyMsg ≠ versionNotFoundMsg ver
    ∧ offeringsEmptyMsg ≠ offeringNotFoundMsg so := by
  refine ⟨?_, ?_, ?_, ?_, ?_, ?_⟩
  · intro h
    simp only [getVersion, M.run_eq, M.bind_apply, M.get_apply, M.pushCall_apply,
      M.failJson_apply, M.pure_apply, M.modify_apply, h]
    rfl
  · intro h hv hf
    simp only [getVersion, M.run_eq, M.bind_apply, M.get_apply, M.pushCall_apply,
      M.failJson_apply, M.pure_apply, M.modify_apply, hv, hf, List.isEmpty_iff, h]
    simp [M.failJson_apply, resMsg]
  · intro h
    simp only [getServiceOffering, M.run_eq, M.bind_apply, M.get_apply, M.pushCall_apply,
      M.failJson_apply, M.pure_apply, M.modify_apply, h]
    rfl
  · intro h hv hf
    simp only [getServiceOffering, M.run_eq, M.bind_apply, M.get_apply, M.pushCall_apply,
      M.failJson_apply, M.pure_apply, M.modify_apply, hv, hf, List.isEmpty_iff, h]
    simp [M.failJson_apply, resMsg]
  · intro h
    have h2 := congrArg String.data h
    simp [versionsEmptyMsg, versionNotFoundMsg, String.data_append] at h2
  · intro h
    have h2 := congrArg String.data h
    simp [offeringsEmptyMsg, offeringNotFoundMsg, String.data_append] at h2

theorem c7_resolver_failure_taxonomy_witness :
    resMsg ((getVersion baseEnv unknownRefParams).run {}) = some versionsEmptyMsg
    ∧ resMsg ((getVersion catalogEnv unknownRefParams).run {}) =
        some (versionNotFoundMsg "v9.99.9")
    ∧ resMsg ((getServiceOffering baseEnv unknownRefParams).run {}) = some offeringsEmptyMsg
    ∧ resMsg ((getServiceOffering catalogEnv unknownRefParams).run {}) =
        some (offeringNotFoundMsg "HUGE")
    ∧ versionsEmptyMsg ≠ versionNotFoundMsg "v9.99.9"
    ∧ offeringsEmptyMsg ≠ offeringNotFoundMsg "HUGE" := by
  obtain ⟨h1, h2, h3, h4, h5, h6⟩ :=
    c7_resolver_failure_taxonomy catalogEnv unknownRefParams "v9.99.9" "HUGE"
  obtain ⟨g1, _, g3, _, _, _⟩ :=
    c7_resolver_failure_taxonomy baseEnv unknownRefParams "v9.99.9" "HUGE"
  exact ⟨g1 rfl, h2 (by decide) rfl (by decide), g3 rfl,
    h4 (by decide) rfl (by decide), h5, h6⟩

/-! ### C6 — cluster lookup: direct id lookup and its fall-back -/

/-- C6 (amended): if an identifier is supplied it is looked up directly and a
hit is returned without any further query; when that lookup yields nothing the
reader still issues a second lookup, carrying the name alongside the retained
identifier filter (the `args` dictionary keeps its `id` entry); a pure
name-only lookup happens exactly when no identifier was supplied. -/
theorem c6_lookup_fallback (env : Env) (p : Params) (uuid : String) :
    (p.paramId = some uuid → ∀ rec1, env.listClusters (some uuid) none = some rec1 →
      (getK8s env p).run {} = EStateM.Result.ok (some rec1)
        { initSt with
          k8sCache := some rec1
          trace := [Call.listClusters (some uuid) none] })
    ∧ (p.paramId = some uuid → env.listClusters (some uuid) none = none →
        env.listClusters (some uuid) (some p.name) = none →
        (getK8s env p).run {} = EStateM.Result.ok none
          { initSt with
            trace := [Call.listClusters (some uuid) none,
                      Call.listClusters (some uuid) (some p.name)] })
    ∧ (p.paramId = some uuid → env.listClusters (some uuid) none = none →
        ∀ rec2, env.listClusters (some uuid) (some p.name) = some rec2 →
        (getK8s env p).run {} = EStateM.Result.ok (some rec2)
          { initSt with
            k8sCache := some rec2
            trace := [Call.listClusters (some uuid) none,
                      Call.listClusters (some uuid) (some p.name)] })
    ∧ (p.paramId = none →
        (finalSt ((getK8s env p).run {})).trace = [Call.listClusters none (some p.name)]) := by
  refine ⟨?_, ?_, ?_, ?_⟩
  · intro h rec1 h1
    simp only [getK8s, M.run_eq, M.bind_apply, M.get_apply, M.pushCall_apply,
      M.pure_apply, M.modify_apply, h, h1]
    rfl
  · intro h h1 h2
    simp only [getK8s, M.run_eq, M.bind_apply, M.get_apply, M.pushCall_apply,
      M.pure_apply, M.modify_apply, h, h1, h2]
    rfl
  · intro h h1 rec2 h2
    simp only [getK8s, M.run_eq, M.bind_apply, M.get_apply, M.pushCall_apply,
      M.pure_apply, M.modify_apply, h, h1, h2]
    rfl
  · intro h
    cases h3 : env.listClusters none (some p.name) with
    | none =>
      simp only [getK8s, M.run_eq, M.bind_apply, M.get_apply, M.pushCall_apply,
        M.pure_apply, M.modify_apply, h, h3]
      rfl
    | some rec1 =>
      simp only [getK8s, M.run_eq, M.bind_apply, M.get_apply, M.pushCall_apply,
        M.pure_apply, M.modify_apply, h, h3]
      rfl

theorem c6_lookup_fallback_witness :
    (getK8s catalogEnv { baseParams with paramId := some "u1" }).run {} =
      EStateM.Result.ok none
        { initSt with
          trace := [Call.listClusters (some "u1") none,
                    Call.listClusters (some "u1") (some "k8s-cluster-01")] } :=
  (c6_lookup_fallback catalogEnv { baseParams with paramId := some "u1" } "u1").2.1
    rfl rfl rfl

/-- C6 counterexample: with the identifier `u1` supplied and its direct lookup
yielding nothing, the reader does issue a further `listKubernetesClusters`
query that carries the cluster name — contradicting the claim that in this
situation no name-based lookup occurs. -/
theorem c6_lookup_fallback_cex :
    baseEnv.listClusters (some "u1") none = none
    ∧ (finalSt ((getK8s baseEnv { baseParams with paramId := some "u1" }).run {})).trace =
      [Call.listClusters (some "u1") none,
       Call.listClusters (some "u1") (some "k8s-cluster-01")] :=
  ⟨rfl, rfl⟩

/-! ### C3 — start/stop decision table -/

/-- C3: on an existing record, the start/stop decision is a pure function of
the desired lifecycle and the lowercased state string: for the `enabled`
target, `starting`/`running` are no-ops, `stopped`/`stopping` issue exactly
one start call, anything else is left untouched; for the `disabled` target,
`stopping`/`stopped` are no-ops, `starting`/`running` issue exactly one stop
call, anything else is left untouched; and — with the `present`-required
fields populated — a `present` invocation is identical to an `enabled` one. -/
theorem c3_start_stop_decision_table (env : Env) (p : Params) (st : St) (v : Value)
    (s i : String)
    (hc : st.k8sCache = some v) (hs : v.state = some s) (hi : v.id = some i)
    (hcm : p.check_mode = false) :
    (["starting", "running"].contains (strLower s) = true →
      (startK8s env p).run st = EStateM.Result.ok (some v) st)
    ∧ (["stopped", "stopping"].contains (strLower s) = true →
      (startK8s env p).run st =
        EStateM.Result.ok (some (if p.poll_async then env.startPolled i else env.startResp i))
          { st with changed := true, trace := st.trace ++ [Call.start i] })
    ∧ (["starting", "running"].contains (strLower s) = false →
      ["stopped", "stopping"].contains (strLower s) = false →
      (startK8s env p).run st = EStateM.Result.ok (some v) st)
    ∧ (["stopping", "stopped"].contains (strLower s) = true →
      (stopK8s env p).run st = EStateM.Result.ok (some v) st)
    ∧ (["starting", "running"].contains (strLower s) = true →
      (stopK8s env p).run st =
        EStateM.Result.ok (some (if p.poll_async then env.stopPolled i else env.stopResp i))
          { st with changed := true, trace := st.trace ++ [Call.stop i] })
    ∧ (["stopping", "stopped"].contains (strLower s) = false →
      ["starting", "running"].contains (strLower s) = false →
      (stopK8s env p).run st = EStateM.Result.ok (some v) st)
    ∧ (p.description ≠ none → p.service_offering ≠ none → p.size ≠ none → p.version ≠ none →
      mainM env { p with state := Lifecycle.present } =
        mainM env { p with state := Lifecycle.enabled }) := by
  refine ⟨?_, ?_, ?_, ?_, ?_, ?_, ?_⟩
  · intro h
    simp only [startK8s, getK8s, M.run_eq, M.bind_apply, M.get_apply, M.pushCall_apply,
      M.pure_apply, M.modify_apply, hc, hs, hi, h, getItem, hcm]
    simp [M.pure_apply]
  · intro h
    have hd : strLower s = "stopped" ∨ strLower s = "stopping" := by simpa using h
    have h2 : ["starting", "running"].contains (strLower s) = false := by
      rcases hd with e | e <;> rw [e] <;> decide
    simp only [startK8s, getK8s, M.run_eq, M.bind_apply, M.get_apply, M.pushCall_apply,
      M.pure_apply, M.modify_apply, hc, hs, hi, h, h2, getItem, hcm]
    simp [M.pure_apply, M.modify_apply, M.pushCall_apply, M.bind_apply, M.map_apply, hc]
  · intro h1 h2
    simp only [startK8s, getK8s, M.run_eq, M.bind_apply, M.get_apply, M.pushCall_apply,
      M.pure_apply, M.modify_apply, hc, hs, hi, h1, h2, getItem, hcm]
    simp [M.pure_apply]
  · intro h
    simp only [stopK8s, getK8s, M.run_eq, M.bind_apply, M.get_apply, M.pushCall_apply,
      M.pure_apply, M.modify_apply, hc, hs, hi, h, getItem, hcm]
    simp [M.pure_apply]
  · intro h
    have hd : strLower s = "starting" ∨ strLower s = "running" := by simpa using h
    have h2 : ["stopping", "stopped"].contains (strLower s) = false := by
      rcases hd with e | e <;> rw [e] <;> decide
    simp only [stopK8s, getK8s, M.run_eq, M.bind_apply, M.get_apply, M.pushCall_apply,
      M.pure_apply, M.modify_apply, hc, hs, hi, h, h2, getItem, hcm]
    simp [M.pure_apply, M.modify_apply, M.pushCall_apply, M.bind_apply, M.map_apply, hc]
  · intro h1 h2
    simp only [stopK8s, getK8s, M.run_eq, M.bind_apply, M.get_apply, M.pushCall_apply,
      M.pure_apply, M.modify_apply, hc, hs, hi, h1, h2, getItem, hcm]
    simp [M.pure_apply]
  · intro hd hso hsz hv
    have e1 : presentK8s env { p with state := Lifecycle.present } =
        presentK8s env { p with state := Lifecycle.enabled } := rfl
    have e2 : startK8s env { p with state := Lifecycle.present } =
        startK8s env { p with state := Lifecycle.enabled } := rfl
    have e3 : finalStateCheck { p with state := Lifecycle.present } =
        finalStateCheck { p with state := Lifecycle.enabled } := rfl
    have d1 : p.description.isNone = false := by
      cases hx : p.description with
      | none => exact absurd hx hd
      | some d => rfl
    have d2 : p.service_offering.isNone = false := by
      cases hx : p.service_offering with
      | none => exact absurd hx hso
      | some d => rfl
    have d3 : p.size.isNone = false := by
      cases hx : p.size with
      | none => exact absurd hx hsz
      | some d => rfl
    have d4 : p.version.isNone = false := by
      cases hx : p.version with
      | none => exact absurd hx hv
      | some d => rfl
    funext st0
    simp only [mainM, stepsM, d1, d2, d3, d4, e1, e2, e3]
    simp

theorem c3_start_stop_decision_table_witness :
    (startK8s catalogEnv baseParams).run stRunning =
      EStateM.Result.ok (some runningValue) stRunning
    ∧ (startK8s catalogEnv baseParams).run stStopped =
      EStateM.Result.ok
        (some (if baseParams.poll_async then catalogEnv.startPolled "c1"
               else catalogEnv.startResp "c1"))
        { stStopped with changed := true, trace := stStopped.trace ++ [Call.start "c1"] }
    ∧ (stopK8s catalogEnv baseParams).run stRunning =
      EStateM.Result.ok
        (some (if baseParams.poll_async then catalogEnv.stopPolled "c1"
               else catalogEnv.stopResp "c1"))
        { stRunning with changed := true, trace := stRunning.trace ++ [Call.stop "c1"] }
    ∧ mainM catalogEnv { baseParams with state := Lifecycle.present } =
      mainM catalogEnv { baseParams with state := Lifecycle.enabled } := by
  obtain ⟨t1, -, -, -, t5, -, t7⟩ :=
    c3_start_stop_decision_table catalogEnv baseParams stRunning runningValue
      "Running" "c1" rfl rfl rfl rfl
  obtain ⟨-, t2, -, -, -, -, -⟩ :=
    c3_start_stop_decision_table catalogEnv baseParams stStopped stoppedValue
      "Stopped" "c1" rfl rfl rfl rfl
  exact ⟨t1 (by decide), t2 (by decide), t5 (by decide),
    t7 (by decide) (by decide) (by decide) (by decide)⟩

/-! ### C4 — a final record in state error fails the invocation -/

/-- C4: whatever the reconciliation steps did (changed or unchanged, any
instance state `st`), if the value they end with carries a state string that
lowercases to `error`, the invocation fails fatally with a message that
names the cluster. -/
theorem c4_error_state_fatal (env : Env) (p : Params) (v : Value) (es : String) (st : St)
    (hrun : (stepsM env p).run initSt = EStateM.Result.ok (some v) st)
    (hst : v.state = some es) (he : strLower es = "error") :
    runK8sModule env p = EStateM.Result.error (errorStateMsg p.name) st
    ∧ p.name.data <:+: (errorStateMsg p.name).data := by
  constructor
  · have hrun2 : stepsM env p {} = EStateM.Result.ok (some v) st := hrun
    show (mainM env p).run {} = _
    simp only [mainM, M.run_eq, M.bind_apply, hrun2]
    simp only [finalStateCheck, hst, he]
    simp [M.failJson_apply]
  · exact ⟨"Kubernetes cluster named ".data, " in error state.".data, by
      simp [errorStateMsg, String.data_append]⟩

theorem c4_error_state_fatal_witness :
    runK8sModule (envOfRemote errRemote) baseParams =
      EStateM.Result.error (errorStateMsg "k8s-cluster-01") errStepsSt :=
  (c4_error_state_fatal (envOfRemote errRemote) baseParams errRecord.toValue "Error"
    errStepsSt rfl rfl rfl).1

/-! ### C10 — the fatal check needs a non-empty value with a state key -/

/-- C10: the final error check evaluates only on a non-`None` value that
actually carries a `state` key: whenever the reconciliation steps end with
`None` or with a dictionary lacking `state` (an unpolled job response, a
check-mode create), the invocation succeeds with that value unchanged; and
conversely, the check can only fail on a value that is `some` dictionary
whose `state` key lowercases to `error`. -/
theorem c10_final_check_guard (env : Env) (p : Params) (o : Option Value) (st : St)
    (hrun : (stepsM env p).run initSt = EStateM.Result.ok o st)
    (hno : o = none ∨ ∃ v, o = some v ∧ v.state = none) :
    runK8sModule env p = EStateM.Result.ok o st
    ∧ (∀ (o2 : Option Value) (st2 st3 : St) (e : String),
        finalStateCheck p o2 st2 = EStateM.Result.error e st3 →
        ∃ v s, o2 = some v ∧ v.state = some s ∧ strLower s = "error"
          ∧ e = errorStateMsg p.name ∧ st3 = st2) := by
  constructor
  · have hrun2 : stepsM env p {} = EStateM.Result.ok o st := hrun
    show (mainM env p).run {} = _
    simp only [mainM, M.run_eq, M.bind_apply, hrun2]
    rcases hno with h | ⟨v, rfl, hv⟩
    · subst h
      simp [finalStateCheck, M.pure_apply]
    · simp [finalStateCheck, hv, M.pure_apply]
  · intro o2 st2 st3 e hchk
    match o2, hchk with
    | none, hchk => simp [finalStateCheck, M.pure_apply] at hchk
    | some v, hchk =>
      match hv : v.state, hchk with
      | none, hchk =>
        rw [finalStateCheck] at hchk
        rw [hv] at hchk
        simp [M.pure_apply] at hchk
      | some s, hchk =>
        rw [finalStateCheck, hv] at hchk
        by_cases he : (strLower s == "error") = true
        · simp only [he, if_true, M.failJson_apply, EStateM.Result.error.injEq] at hchk
          exact ⟨v, s, rfl, hv, by simpa using he, hchk.1.symm, hchk.2.symm⟩
        · simp only [Bool.not_eq_true] at he
          simp [he, M.pure_apply] at hchk

theorem c10_final_check_guard_witness :
    runK8sModule (envOfRemote oneClusterRemote) unpolledDeleteParams =
      EStateM.Result.ok (some (jobValue "c1")) unpolledDeleteSt :=
  (c10_final_check_guard (envOfRemote oneClusterRemote) unpolledDeleteParams
    (some (jobValue "c1")) unpolledDeleteSt rfl (Or.inr ⟨jobValue "c1", rfl, rfl⟩)).1

/-- Symbolic execution of `_update_k8s` on a cached full record with both
references resolving and check mode off, polling on: the version group and
then the scale group each fire on their own `has_changed` guard, the working
record being replaced by the upgrade result before the scale guard reads
it. -/
theorem updateK8s_run_characterization (env : Env) (p : Params) (st : St) (rec : Record)
    (vn so : String) (ve oe : CatalogEntry)
    (hc : st.k8sCache = some rec.toValue)
    (hvc : st.versionCache = none) (hoc : st.offeringCache = none)
    (hpv : p.version = some vn)
    (hfv : env.listVersions.find? (matchesRef vn) = some ve)
    (hps : p.service_offering = some so)
    (hfo : env.listOfferings.find? (matchesRef so) = some oe)
    (hcm : p.check_mode = false) (hpoll : p.poll_async = true) :
    (updateK8s env p).run st =
      (let args : UpdateArgs := ⟨rec.id, ve.id, oe.id, p.size⟩
       let g1 := hasChanged args rec.toValue [UpdKey.kversionid]
       let k8s1 := if g1 then env.upgradePolled rec.id ve.id else rec.toValue
       let g2 := hasChanged args k8s1 [UpdKey.sofferingid, UpdKey.size]
       let k8s2 := if g2 then env.scalePolled rec.id oe.id p.size else k8s1
       EStateM.Result.ok (some k8s2)
        { st with
          versionCache := some ve
          offeringCache := some oe
          resultVersion := some ve.name
          resultOffering := some oe.name
          changed := st.changed || g1 || g2
          trace := st.trace ++ [Call.listVersions, Call.listOfferings]
            ++ (if g1 then [Call.upgrade rec.id ve.id] else [])
            ++ (if g2 then [Call.scale rec.id oe.id p.size] else []) }) := by
  have hne : env.listVersions.isEmpty = false := by
    cases hl : env.listVersions with
    | nil => rw [hl] at hfv; simp at hfv
    | cons a l => rfl
  have hne2 : env.listOfferings.isEmpty = false := by
    cases hl : env.listOfferings with
    | nil => rw [hl] at hfo; simp at hfo
    | cons a l => rfl
  have hid : (Record.toValue rec).id = some rec.id := rfl
  simp only [updateK8s, versionGroup, scaleGroup, getK8s, getVersion, getServiceOffering,
    getItem, M.run_eq, M.bind_apply, M.get_apply, M.pushCall_apply, M.pure_apply,
    M.modify_apply, M.failJson_apply, M.map_apply, hc, hvc, hoc, hpv, hfv, hps, hfo,
    hcm, hpoll, hne, hne2, hid]
  by_cases hg1 : hasChanged ⟨rec.id, ve.id, oe.id, p.size⟩ rec.toValue [UpdKey.kversionid] = true
  · by_cases hg2 : hasChanged ⟨rec.id, ve.id, oe.id, p.size⟩ (env.upgradePolled rec.id ve.id)
        [UpdKey.sofferingid, UpdKey.size] = true
    · simp [hg1, hg2, M.bind_apply, M.pure_apply, M.modify_apply,
        M.pushCall_apply, M.map_apply]
    · simp [hg1, hg2, M.bind_apply, M.pure_apply, M.modify_apply,
        M.pushCall_apply, M.map_apply]
  · by_cases hg2 : hasChanged ⟨rec.id, ve.id, oe.id, p.size⟩ rec.toValue
        [UpdKey.sofferingid, UpdKey.size] = true
    · simp [hg1, hg2, M.bind_apply, M.pure_apply, M.modify_apply,
        M.pushCall_apply, M.map_apply]
    · simp [hg1, hg2, M.bind_apply, M.pure_apply, M.modify_apply,
        M.pushCall_apply, M.map_apply]

/-! ### C2 — independent version and scale groups in the update step -/

/-- `has_changed` on the version group against a full record compares the
resolved version id exactly. -/
theorem hasChanged_version_key (a : UpdateArgs) (rec : Record) :
    hasChanged a rec.toValue [UpdKey.kversionid] =
      (rec.kubernetesversionid != a.kubernetesversionid) := by
  simp [hasChanged, Record.toValue]

/-- `has_changed` on the scale group against a full record compares the
resolved offering id and, when the desired size is set, the size. -/
theorem hasChanged_scale_keys (a : UpdateArgs) (rec : Record) :
    hasChanged a rec.toValue [UpdKey.sofferingid, UpdKey.size] =
      ((rec.serviceofferingid != a.serviceofferingid) ||
        (match a.size with
         | some n => n != rec.size
         | none => false)) := by
  simp only [hasChanged, Record.toValue, List.any_cons, List.any_nil, Bool.or_false]
  cases a.size <;> rfl

/-- C2: against a stored record, (a) a diverging version with matching
offering/size issues exactly one upgrade and no scale; (b) a matching version
with diverging offering or size issues exactly one scale and no upgrade;
(c) both diverging issue the upgrade and then the scale, in that order; and
(d) for any gateway behaviour, once the version group fired, the scale guard
is evaluated against the record returned by the upgrade call, not the
pre-upgrade record. -/
theorem c2_update_groups (r : Remote) (p : Params) (st : St) (rec : Record)
    (vn so : String) (ve oe : CatalogEntry)
    (hc : st.k8sCache = some rec.toValue)
    (hvc : st.versionCache = none) (hoc : st.offeringCache = none)
    (htr : st.trace = [])
    (hpv : p.version = some vn)
    (hfv : r.versions.find? (matchesRef vn) = some ve)
    (hps : p.service_offering = some so)
    (hfo : r.offerings.find? (matchesRef so) = some oe)
    (hfind : findCluster r (some rec.id) none = some rec)
    (hcm : p.check_mode = false) (hpoll : p.poll_async = true) :
    (ve.id ≠ rec.kubernetesversionid → oe.id = rec.serviceofferingid →
      (p.size = none ∨ p.size = some rec.size) →
      mutatingCalls ((updateK8s (envOfRemote r) p).run st) = [Call.upgrade rec.id ve.id])
    ∧ (ve.id = rec.kubernetesversionid →
      (oe.id ≠ rec.serviceofferingid ∨ (∃ n, p.size = some n ∧ n ≠ rec.size)) →
      mutatingCalls ((updateK8s (envOfRemote r) p).run st) = [Call.scale rec.id oe.id p.size])
    ∧ (ve.id ≠ rec.kubernetesversionid →
      (oe.id ≠ rec.serviceofferingid ∨ (∃ n, p.size = some n ∧ n ≠ rec.size)) →
      mutatingCalls ((updateK8s (envOfRemote r) p).run st) =
        [Call.upgrade rec.id ve.id, Call.scale rec.id oe.id p.size])
    ∧ (∀ env2 : Env, env2.listVersions = r.versions → env2.listOfferings = r.offerings →
        ve.id ≠ rec.kubernetesversionid →
        mutatingCalls ((updateK8s env2 p).run st) =
          Call.upgrade rec.id ve.id ::
            (if hasChanged ⟨rec.id, ve.id, oe.id, p.size⟩ (env2.upgradePolled rec.id ve.id)
                [UpdKey.sofferingid, UpdKey.size]
             then [Call.scale rec.id oe.id p.size] else [])) := by
  have hup : (envOfRemote r).upgradePolled rec.id ve.id = (upgradedRecord ve.id rec).toValue := by
    simp [envOfRemote, hfind]
  refine ⟨?_, ?_, ?_, ?_⟩
  · intro h1 h2 h3
    rw [updateK8s_run_characterization (envOfRemote r) p st rec vn so ve oe hc hvc hoc hpv hfv
      hps hfo hcm hpoll]
    have g1 : hasChanged ⟨rec.id, ve.id, oe.id, p.size⟩ rec.toValue [UpdKey.kversionid] = true := by
      rw [hasChanged_version_key]
      simp [bne_iff_ne, Ne.symm h1]
    have g2 : hasChanged ⟨rec.id, ve.id, oe.id, p.size⟩ (upgradedRecord ve.id rec).toValue
        [UpdKey.sofferingid, UpdKey.size] = false := by
      rw [hasChanged_scale_keys]
      rcases h3 with h3 | h3 <;>
        simp [upgradedRecord, h3, h2.symm]
    simp only [g1, if_true, hup, g2, if_false, mutatingCalls, finalSt, htr]
    simp [Call.isMutating, g1, g2, hup]
  · intro h1 h2
    rw [updateK8s_run_characterization (envOfRemote r) p st rec vn so ve oe hc hvc hoc hpv hfv
      hps hfo hcm hpoll]
    have g1 : hasChanged ⟨rec.id, ve.id, oe.id, p.size⟩ rec.toValue [UpdKey.kversionid] = false := by
      rw [hasChanged_version_key]
      simp [h1.symm]
    have g2 : hasChanged ⟨rec.id, ve.id, oe.id, p.size⟩ rec.toValue
        [UpdKey.sofferingid, UpdKey.size] = true := by
      rw [hasChanged_scale_keys]
      rcases h2 with h2 | ⟨n, hn, hne⟩
      · simp [bne_iff_ne, Ne.symm h2]
      · simp [hn, bne_iff_ne, hne]
    simp only [g1, if_false, g2, if_true, mutatingCalls, finalSt, htr]
    simp [Call.isMutating, g1, g2]
  · intro h1 h2
    rw [updateK8s_run_characterization (envOfRemote r) p st rec vn so ve oe hc hvc hoc hpv hfv
      hps hfo hcm hpoll]
    have g1 : hasChanged ⟨rec.id, ve.id, oe.id, p.size⟩ rec.toValue [UpdKey.kversionid] = true := by
      rw [hasChanged_version_key]
      simp [bne_iff_ne, Ne.symm h1]
    have g2 : hasChanged ⟨rec.id, ve.id, oe.id, p.size⟩ (upgradedRecord ve.id rec).toValue
        [UpdKey.sofferingid, UpdKey.size] = true := by
      rw [hasChanged_scale_keys]
      rcases h2 with h2 | ⟨n, hn, hne⟩
      · simp [upgradedRecord, bne_iff_ne, Ne.symm h2]
      · simp [upgradedRecord, hn, bne_iff_ne, hne]
    simp only [g1, if_true, hup, g2, mutatingCalls, finalSt, htr]
    simp [Call.isMutating, g1, g2, hup]
  · intro env2 hv2 ho2 h1
    rw [updateK8s_run_characterization env2 p st rec vn so ve oe hc hvc hoc hpv (hv2 ▸ hfv)
      hps (ho2 ▸ hfo) hcm hpoll]
    have g1 : hasChanged ⟨rec.id, ve.id, oe.id, p.size⟩ rec.toValue [UpdKey.kversionid] = true := by
      rw [hasChanged_version_key]
      simp [bne_iff_ne, Ne.symm h1]
    by_cases g2 : hasChanged ⟨rec.id, ve.id, oe.id, p.size⟩ (env2.upgradePolled rec.id ve.id)
        [UpdKey.sofferingid, UpdKey.size] = true
    · simp only [g1, if_true, g2, mutatingCalls, finalSt, htr]
      simp [Call.isMutating, g1, g2]
    · simp only [Bool.not_eq_true] at g2
      simp only [g1, if_true, g2, mutatingCalls, finalSt, htr]
      simp [Call.isMutating, g1, g2]

theorem c2_update_groups_witness :
    mutatingCalls ((updateK8s (envOfRemote oneClusterRemote) upgOnlyParams).run stRunning) =
      [Call.upgrade "c1" "vid2"]
    ∧ mutatingCalls ((updateK8s (envOfRemote oneClusterRemote) scaleOnlyParams).run stRunning) =
      [Call.scale "c1" "oid2" (some 4)]
    ∧ mutatingCalls ((updateK8s (envOfRemote oneClusterRemote) bothDiffParams).run stRunning) =
      [Call.upgrade "c1" "vid2", Call.scale "c1" "oid2" (some 4)]
    ∧ mutatingCalls ((updateK8s (envOfRemote oneClusterRemote) bothDiffParams).run stRunning) =
      Call.upgrade "c1" "vid2" ::
        (if hasChanged ⟨"c1", "vid2", "oid2", some 4⟩
            ((envOfRemote oneClusterRemote).upgradePolled "c1" "vid2")
            [UpdKey.sofferingid, UpdKey.size]
         then [Call.scale "c1" "oid2" (some 4)] else []) := by
  obtain ⟨a1, -, -, -⟩ :=
    c2_update_groups oneClusterRemote upgOnlyParams stRunning sampleRecord
      "v1.28.0" "CH23" { id := "vid2", name := "v1.28.0" } { id := "oid1", name := "CH23" }
      rfl rfl rfl rfl rfl rfl rfl rfl rfl rfl rfl
  obtain ⟨-, b2, -, -⟩ :=
    c2_update_groups oneClusterRemote scaleOnlyParams stRunning sampleRecord
      "v1.27.3" "CH24" { id := "vid1", name := "v1.27.3" } { id := "oid2", name := "CH24" }
      rfl rfl rfl rfl rfl rfl rfl rfl rfl rfl rfl
  obtain ⟨-, -, d3, d4⟩ :=
    c2_update_groups oneClusterRemote bothDiffParams stRunning sampleRecord
      "v1.28.0" "CH24" { id := "vid2", name := "v1.28.0" } { id := "oid2", name := "CH24" }
      rfl rfl rfl rfl rfl rfl rfl rfl rfl rfl rfl
  exact ⟨a1 (by decide) rfl (Or.inr rfl),
    b2 rfl (Or.inl (by decide)),
    d3 (by decide) (Or.inl (by decide)),
    d4 (envOfRemote oneClusterRemote) rfl rfl (by decide)⟩

/-! ### Trace discipline: which calls each method can push -/

theorem onlyPushes_bind {α β : Type} {x : M α} {f : α → M β} {allowed : Call → Bool}
    (hx : OnlyPushes x allowed) (hf : ∀ a, OnlyPushes (f a) allowed) :
    OnlyPushes (x >>= f) allowed := by
  intro st
  cases hres : x st with
  | ok a st' =>
    obtain ⟨t1, ht1, ha1⟩ := hx st
    rw [hres] at ht1
    obtain ⟨t2, ht2, ha2⟩ := hf a st'
    refine ⟨t1 ++ t2, ?_, ?_⟩
    · rw [M.bind_apply, hres]
      show (finalSt (f a st')).trace = _
      rw [ht2]
      simp only [finalSt] at ht1
      rw [ht1, List.append_assoc]
    · simp only [List.all_append, ha1, ha2, Bool.and_self]
  | error e st' =>
    obtain ⟨t1, ht1, ha1⟩ := hx st
    rw [hres] at ht1
    refine ⟨t1, ?_, ha1⟩
    rw [M.bind_apply, hres]
    simpa [finalSt] using ht1

theorem onlyPushes_pure {α : Type} (a : α) (allowed : Call → Bool) :
    OnlyPushes (pure a : M α) allowed := by
  intro st
  exact ⟨[], by simp [M.pure_apply, finalSt], rfl⟩

theorem onlyPushes_throw {α : Type} (e : String) (allowed : Call → Bool) :
    OnlyPushes (failJson e : M α) allowed := by
  intro st
  exact ⟨[], by simp [M.failJson_apply, finalSt], rfl⟩

theorem onlyPushes_get (allowed : Call → Bool) : OnlyPushes (get : M St) allowed := by
  intro st
  exact ⟨[], by simp [M.get_apply, finalSt], rfl⟩

theorem onlyPushes_modify (f : St → St) (allowed : Call → Bool)
    (hf : ∀ st, (f st).trace = st.trace) :
    OnlyPushes (modify f : M Unit) allowed := by
  intro st
  exact ⟨[], by simp [M.modify_apply, finalSt, hf], rfl⟩

theorem onlyPushes_pushCall (c : Call) (allowed : Call → Bool) (hc : allowed c = true) :
    OnlyPushes (pushCall c) allowed := by
  intro st
  exact ⟨[c], by simp [M.pushCall_apply, finalSt], by simp [hc]⟩

theorem onlyPushes_getItem {α : Type} (fld : String) (o : Option α) (allowed : Call → Bool) :
    OnlyPushes (getItem fld o) allowed := by
  cases o with
  | some a => exact onlyPushes_pure a allowed
  | none => exact onlyPushes_throw _ allowed

theorem onlyPushes_ite {α : Type} {c : Prop} [Decidable c] {x y : M α} {allowed : Call → Bool}
    (hx : OnlyPushes x allowed) (hy : OnlyPushes y allowed) :
    OnlyPushes (if c then x else y) allowed := by
  by_cases h : c <;> simp [h, hx, hy]

theorem onlyPushes_getVersion (env : Env) (p : Params) (allowed : Call → Bool)
    (h : allowed Call.listVersions = true) :
    OnlyPushes (getVersion env p) allowed := by
  unfold getVersion
  refine onlyPushes_bind (onlyPushes_get _) ?_
  intro a
  cases hv : a.versionCache with
  | some v => simp only [hv]; exact onlyPushes_pure _ _
  | none =>
    simp only [hv]
    refine onlyPushes_bind (onlyPushes_pushCall _ _ h) ?_
    intro b
    refine onlyPushes_ite (onlyPushes_throw _ _) ?_
    cases hpv : p.version with
    | none => simp only [hpv]; exact onlyPushes_throw _ _
    | some ver =>
      simp only [hpv]
      cases hf : env.listVersions.find? (matchesRef ver) with
      | some v =>
        simp only [hf]
        exact onlyPushes_bind (onlyPushes_modify _ _ (fun st => rfl))
          (fun c => onlyPushes_pure _ _)
      | none => simp only [hf]; exact onlyPushes_throw _ _

theorem onlyPushes_getServiceOffering (env : Env) (p : Params) (allowed : Call → Bool)
    (h : allowed Call.listOfferings = true) :
    OnlyPushes (getServiceOffering env p) allowed := by
  unfold getServiceOffering
  refine onlyPushes_bind (onlyPushes_get _) ?_
  intro a
  cases hv : a.offeringCache with
  | some v => simp only [hv]; exact onlyPushes_pure _ _
  | none =>
    simp only [hv]
    refine onlyPushes_bind (onlyPushes_pushCall _ _ h) ?_
    intro b
    refine onlyPushes_ite (onlyPushes_throw _ _) ?_
    cases hpv : p.service_offering with
    | none => simp only [hpv]; exact onlyPushes_throw _ _
    | some so =>
      simp only [hpv]
      cases hf : env.listOfferings.find? (matchesRef so) with
      | some v =>
        simp only [hf]
        exact onlyPushes_bind (onlyPushes_modify _ _ (fun st => rfl))
          (fun c => onlyPushes_pure _ _)
      | none => simp only [hf]; exact onlyPushes_throw _ _

theorem onlyPushes_getK8s (env : Env) (p : Params) (allowed : Call → Bool)
    (h : ∀ a b, allowed (Call.listClusters a b) = true) :
    OnlyPushes (getK8s env p) allowed := by
  unfold getK8s
  refine onlyPushes_bind (onlyPushes_get _) ?_
  intro a
  cases hv : a.k8sCache with
  | some v => simp only [hv]; exact onlyPushes_pure _ _
  | none =>
    simp only [hv]
    cases hp : p.paramId with
    | some uuid =>
      simp only [hp]
      refine onlyPushes_bind (onlyPushes_pushCall _ _ (h _ _)) ?_
      intro b
      cases h1 : env.listClusters (some uuid) none with
      | some rec1 =>
        simp only [h1]
        exact onlyPushes_bind (onlyPushes_modify _ _ (fun st => rfl))
          (fun c => onlyPushes_pure _ _)
      | none =>
        simp only [h1]
        refine onlyPushes_bind (onlyPushes_pushCall _ _ (h _ _)) ?_
        intro c
        cases h2 : env.listClusters (some uuid) (some p.name) with
        | some rec2 =>
          simp only [h2]
          exact onlyPushes_bind (onlyPushes_modify _ _ (fun st => rfl))
            (fun d => onlyPushes_pure _ _)
        | none => simp only [h2]; exact onlyPushes_pure _ _
    | none =>
      simp only [hp]
      refine onlyPushes_bind (onlyPushes_pushCall _ _ (h _ _)) ?_
      intro b
      cases h1 : env.listClusters none (some p.name) with
      | some rec1 =>
        simp only [h1]
        exact onlyPushes_bind (onlyPushes_modify _ _ (fun st => rfl))
          (fun c => onlyPushes_pure _ _)
      | none => simp only [h1]; exact onlyPushes_pure _ _

theorem onlyPushes_k8sConfig (env : Env) (p : Params) (allowed : Call → Bool)
    (h : ∀ a b, allowed (Call.listClusters a b) = true)
    (hg : ∀ i, allowed (Call.getConfig i) = true) :
    OnlyPushes (k8sConfig env p) allowed := by
  unfold k8sConfig
  refine onlyPushes_bind (onlyPushes_getK8s env p allowed h) ?_
  intro a
  cases a with
  | none => exact onlyPushes_pure _ _
  | some v =>
    refine onlyPushes_ite ?_ (onlyPushes_pure _ _)
    refine onlyPushes_bind (onlyPushes_getItem _ _ _) ?_
    intro cid
    refine onlyPushes_bind (onlyPushes_pushCall _ _ (hg _)) ?_
    intro b
    cases hc : env.getConfig cid with
    | some cfg =>
      simp only [hc]
      exact onlyPushes_bind (onlyPushes_modify _ _ (fun st => rfl))
        (fun c => onlyPushes_pure _ _)
    | none => simp only [hc]; exact onlyPushes_pure _ _

theorem onlyPushes_startK8s (env : Env) (p : Params) (allowed : Call → Bool)
    (h : ∀ a b, allowed (Call.listClusters a b) = true)
    (hs : p.check_mode = true ∨ ∀ i, allowed (Call.start i) = true) :
    OnlyPushes (startK8s env p) allowed := by
  unfold startK8s
  refine onlyPushes_bind (onlyPushes_getK8s env p allowed h) ?_
  intro a
  cases a with
  | none => exact onlyPushes_pure _ _
  | some v =>
    refine onlyPushes_bind (onlyPushes_getItem _ _ _) ?_
    intro s
    refine onlyPushes_ite (onlyPushes_pure _ _) ?_
    refine onlyPushes_ite ?_ (onlyPushes_pure _ _)
    refine onlyPushes_bind (onlyPushes_modify _ _ (fun st => rfl)) ?_
    intro b
    rcases hs with hs | hs
    · rw [hs, if_pos rfl]
      exact onlyPushes_pure _ _
    · refine onlyPushes_ite (onlyPushes_pure _ _) ?_
      refine onlyPushes_bind (onlyPushes_getItem _ _ _) ?_
      intro cid
      exact onlyPushes_bind (onlyPushes_pushCall _ _ (hs _)) (fun c => onlyPushes_pure _ _)

theorem onlyPushes_stopK8s (env : Env) (p : Params) (allowed : Call → Bool)
    (h : ∀ a b, allowed (Call.listClusters a b) = true)
    (hs : p.check_mode = true ∨ ∀ i, allowed (Call.stop i) = true) :
    OnlyPushes (stopK8s env p) allowed := by
  unfold stopK8s
  refine onlyPushes_bind (onlyPushes_getK8s env p allowed h) ?_
  intro a
  cases a with
  | none => exact onlyPushes_pure _ _
  | some v =>
    refine onlyPushes_bind (onlyPushes_getItem _ _ _) ?_
    intro s
    refine onlyPushes_ite (onlyPushes_pure _ _) ?_
    refine onlyPushes_ite ?_ (onlyPushes_pure _ _)
    refine onlyPushes_bind (onlyPushes_modify _ _ (fun st => rfl)) ?_
    intro b
    rcases hs with hs | hs
    · rw [hs, if_pos rfl]
      exact onlyPushes_pure _ _
    · refine onlyPushes_ite (onlyPushes_pure _ _) ?_
      refine onlyPushes_bind (onlyPushes_getItem _ _ _) ?_
      intro cid
      exact onlyPushes_bind (onlyPushes_pushCall _ _ (hs _)) (fun c => onlyPushes_pure _ _)

theorem onlyPushes_absentK8s (env : Env) (p : Params) (allowed : Call → Bool)
    (h : ∀ a b, allowed (Call.listClusters a b) = true)
    (hs : p.check_mode = true ∨ ∀ i, allowed (Call.delete i) = true) :
    OnlyPushes (absentK8s env p) allowed := by
  unfold absentK8s
  refine onlyPushes_bind (onlyPushes_getK8s env p allowed h) ?_
  intro a
  cases a with
  | none => exact onlyPushes_pure _ _
  | some v =>
    refine onlyPushes_bind (onlyPushes_modify _ _ (fun st => rfl)) ?_
    intro b
    rcases hs with hs | hs
    · rw [hs, if_pos rfl]
      exact onlyPushes_pure _ _
    · refine onlyPushes_ite (onlyPushes_pure _ _) ?_
      refine onlyPushes_bind (onlyPushes_getItem _ _ _) ?_
      intro cid
      exact onlyPushes_bind (onlyPushes_pushCall _ _ (hs _)) (fun c => onlyPushes_pure _ _)

theorem onlyPushes_createK8s (env : Env) (p : Params) (allowed : Call → Bool)
    (hv : allowed Call.listVersions = true) (ho : allowed Call.listOfferings = true)
    (hs : p.check_mode = true ∨ ∀ args, allowed (Call.create args) = true) :
    OnlyPushes (createK8s env p) allowed := by
  unfold createK8s
  refine onlyPushes_ite (onlyPushes_throw _ _) ?_
  refine onlyPushes_bind (onlyPushes_getVersion env p allowed hv) ?_
  intro ver
  refine onlyPushes_bind (onlyPushes_getServiceOffering env p allowed ho) ?_
  intro off
  refine onlyPushes_bind (onlyPushes_modify _ _ (fun st => rfl)) ?_
  intro b
  rcases hs with hs | hs
  · rw [hs, if_pos rfl]
    exact onlyPushes_pure _ _
  · refine onlyPushes_ite (onlyPushes_pure _ _) ?_
    exact onlyPushes_bind (onlyPushes_pushCall _ _ (hs _)) (fun c => onlyPushes_pure _ _)

theorem onlyPushes_versionGroup (env : Env) (p : Params) (args : UpdateArgs) (k8s0 : Value)
    (allowed : Call → Bool)
    (hs : p.check_mode = true ∨ ∀ a b, allowed (Call.upgrade a b) = true) :
    OnlyPushes (versionGroup env p args k8s0) allowed := by
  unfold versionGroup
  refine onlyPushes_ite ?_ (onlyPushes_pure _ _)
  refine onlyPushes_bind (onlyPushes_modify _ _ (fun st => rfl)) ?_
  intro b
  rcases hs with hs | hs
  · rw [hs, if_pos rfl]
    exact onlyPushes_pure _ _
  · refine onlyPushes_ite (onlyPushes_pure _ _) ?_
    exact onlyPushes_bind (onlyPushes_pushCall _ _ (hs _ _)) (fun c => onlyPushes_pure _ _)

theorem onlyPushes_scaleGroup (env : Env) (p : Params) (args : UpdateArgs) (k8s1 : Value)
    (allowed : Call → Bool)
    (hs : p.check_mode = true ∨ ∀ a b c, allowed (Call.scale a b c) = true) :
    OnlyPushes (scaleGroup env p args k8s1) allowed := by
  unfold scaleGroup
  refine onlyPushes_ite ?_ (onlyPushes_pure _ _)
  refine onlyPushes_bind (onlyPushes_modify _ _ (fun st => rfl)) ?_
  intro b
  rcases hs with hs | hs
  · rw [hs, if_pos rfl]
    exact onlyPushes_pure _ _
  · refine onlyPushes_ite (onlyPushes_pure _ _) ?_
    exact onlyPushes_bind (onlyPushes_pushCall _ _ (hs _ _ _)) (fun c => onlyPushes_pure _ _)

theorem onlyPushes_updateK8s (env : Env) (p : Params) (allowed : Call → Bool)
    (h : ∀ a b, allowed (Call.listClusters a b) = true)
    (hv : allowed Call.listVersions = true) (ho : allowed Call.listOfferings = true)
    (hs : p.check_mode = true ∨
      ((∀ a b, allowed (Call.upgrade a b) = true) ∧
        (∀ a b c, allowed (Call.scale a b c) = true))) :
    OnlyPushes (updateK8s env p) allowed := by
  unfold updateK8s
  refine onlyPushes_bind (onlyPushes_getK8s env p allowed h) ?_
  intro a
  cases a with
  | none => exact onlyPushes_throw _ _
  | some k8s0 =>
    refine onlyPushes_bind (onlyPushes_getItem _ _ _) ?_
    intro cid
    refine onlyPushes_bind (onlyPushes_getVersion env p allowed hv) ?_
    intro ver
    refine onlyPushes_bind (onlyPushes_getServiceOffering env p allowed ho) ?_
    intro off
    refine onlyPushes_bind (onlyPushes_versionGroup env p _ _ allowed
      (hs.imp id fun hz => hz.1)) ?_
    intro k8s1
    refine onlyPushes_bind (onlyPushes_scaleGroup env p _ _ allowed
      (hs.imp id fun hz => hz.2)) ?_
    intro k8s2
    exact onlyPushes_pure _ _

theorem onlyPushes_ensureStep (env : Env) (p : Params) (k8s0 : Option Value)
    (allowed : Call → Bool)
    (h : ∀ a b, allowed (Call.listClusters a b) = true)
    (hv : allowed Call.listVersions = true) (ho : allowed Call.listOfferings = true)
    (hs : p.check_mode = true ∨
      ((∀ args, allowed (Call.create args) = true) ∧
        (∀ a b, allowed (Call.upgrade a b) = true) ∧
        (∀ a b c, allowed (Call.scale a b c) = true))) :
    OnlyPushes (ensureStep env p k8s0) allowed := by
  cases k8s0 with
  | some v =>
    exact onlyPushes_updateK8s env p allowed h hv ho (hs.imp id fun hz => ⟨hz.2.1, hz.2.2⟩)
  | none => exact onlyPushes_createK8s env p allowed hv ho (hs.imp id fun hz => hz.1)

theorem onlyPushes_presentK8s (env : Env) (p : Params) (allowed : Call → Bool)
    (h : ∀ a b, allowed (Call.listClusters a b) = true)
    (hv : allowed Call.listVersions = true) (ho : allowed Call.listOfferings = true)
    (hg : ∀ i, allowed (Call.getConfig i) = true)
    (hs : p.check_mode = true ∨
      ((∀ args, allowed (Call.create args) = true) ∧
        (∀ a b, allowed (Call.upgrade a b) = true) ∧
        (∀ a b c, allowed (Call.scale a b c) = true))) :
    OnlyPushes (presentK8s env p) allowed := by
  unfold presentK8s
  refine onlyPushes_bind (onlyPushes_getK8s env p allowed h) ?_
  intro a
  refine onlyPushes_bind (onlyPushes_ensureStep env p a allowed h hv ho hs) ?_
  intro k8s1
  cases k8s1 with
  | some v =>
    exact onlyPushes_bind (onlyPushes_modify _ _ (fun st => rfl))
      (fun b => onlyPushes_k8sConfig env p allowed h hg)
  | none => exact onlyPushes_pure _ _

theorem onlyPushes_finalStateCheck (p : Params) (o : Option Value) (allowed : Call → Bool) :
    OnlyPushes (finalStateCheck p o) allowed := by
  unfold finalStateCheck
  cases o with
  | none => exact onlyPushes_pure _ _
  | some v =>
    cases hv : v.state with
    | none => simp only [hv]; exact onlyPushes_pure _ _
    | some s =>
      simp only [hv]
      exact onlyPushes_ite (onlyPushes_throw _ _) (onlyPushes_pure _ _)

theorem onlyPushes_mainM (env : Env) (p : Params) (allowed : Call → Bool)
    (h : ∀ a b, allowed (Call.listClusters a b) = true)
    (hv : allowed Call.listVersions = true) (ho : allowed Call.listOfferings = true)
    (hg : ∀ i, allowed (Call.getConfig i) = true)
    (hs : p.check_mode = true ∨
      ((∀ args, allowed (Call.create args) = true) ∧
        (∀ a b, allowed (Call.upgrade a b) = true) ∧
        (∀ a b c, allowed (Call.scale a b c) = true) ∧
        (∀ i, allowed (Call.start i) = true) ∧
        (∀ i, allowed (Call.stop i) = true) ∧
        (∀ i, allowed (Call.delete i) = true))) :
    OnlyPushes (mainM env p) allowed := by
  unfold mainM stepsM
  refine onlyPushes_bind ?_ ?_
  · refine onlyPushes_ite (onlyPushes_throw _ _) ?_
    refine onlyPushes_ite (onlyPushes_absentK8s env p allowed h
      (hs.imp id fun hz => hz.2.2.2.2.2)) ?_
    refine onlyPushes_bind (onlyPushes_presentK8s env p allowed h hv ho hg
      (hs.imp id fun hz => ⟨hz.1, hz.2.1, hz.2.2.1⟩)) ?_
    intro b
    refine onlyPushes_ite (onlyPushes_stopK8s env p allowed h
      (hs.imp id fun hz => hz.2.2.2.2.1)) ?_
    exact onlyPushes_startK8s env p allowed h (hs.imp id fun hz => hz.2.2.2.1)
  · intro k8s
    exact onlyPushes_finalStateCheck p k8s allowed

/-! ### Characterizations of the create and update steps -/

/-- Symbolic execution of `_create_k8s` with all required parameters present
and both references resolving: `changed` is set, and outside check mode
exactly one create call with the full argument dictionary is issued. -/
theorem createK8s_run_characterization (env : Env) (p : Params) (st : St)
    (d so vn : String) (n : Int) (ve oe : CatalogEntry)
    (hd : p.description = some d) (hps : p.service_offering = some so)
    (hsz : p.size = some n) (hpv : p.version = some vn)
    (hvc : st.versionCache = none) (hoc : st.offeringCache = none)
    (hfv : env.listVersions.find? (matchesRef vn) = some ve)
    (hfo : env.listOfferings.find? (matchesRef so) = some oe) :
    (createK8s env p).run st =
      (let args := createArgsFor env p ve oe
       let stMid : St :=
        { st with
          versionCache := some ve
          offeringCache := some oe
          resultVersion := some ve.name
          resultOffering := some oe.name
          changed := true
          trace := st.trace ++ [Call.listVersions, Call.listOfferings] }
       if p.check_mode then
        EStateM.Result.ok none stMid
       else
        EStateM.Result.ok
          (some (if p.poll_async then env.createPolled args else env.createResp args))
          { stMid with trace := stMid.trace ++ [Call.create args] }) := by
  have hne : env.listVersions.isEmpty = false := by
    cases hl : env.listVersions with
    | nil => rw [hl] at hfv; simp at hfv
    | cons a l => rfl
  have hne2 : env.listOfferings.isEmpty = false := by
    cases hl : env.listOfferings with
    | nil => rw [hl] at hfo; simp at hfo
    | cons a l => rfl
  simp only [createK8s, getVersion, getServiceOffering, M.run_eq, M.bind_apply, M.get_apply,
    M.pushCall_apply, M.pure_apply, M.modify_apply, M.failJson_apply, M.map_apply,
    hd, hps, hsz, hpv, hvc, hoc, hfv, hfo, hne, hne2]
  by_cases hcm : p.check_mode = true
  · simp [hcm, M.pure_apply, M.bind_apply, M.get_apply, M.modify_apply, M.pushCall_apply,
      M.map_apply, hvc, hoc]
  · simp only [Bool.not_eq_true] at hcm
    simp [hcm, M.pure_apply, M.pushCall_apply, M.bind_apply, M.get_apply, M.modify_apply,
      M.map_apply, hvc, hoc, List.append_assoc]

/-- Symbolic execution of `_update_k8s` in check mode: both diff guards are
evaluated against the unchanged record, `changed` is set when either reports
a difference, and no call is issued. -/
theorem updateK8s_checkMode_characterization (env : Env) (p : Params) (st : St) (rec : Record)
    (vn so : String) (ve oe : CatalogEntry)
    (hc : st.k8sCache = some rec.toValue)
    (hvc : st.versionCache = none) (hoc : st.offeringCache = none)
    (hpv : p.version = some vn)
    (hfv : env.listVersions.find? (matchesRef vn) = some ve)
    (hps : p.service_offering = some so)
    (hfo : env.listOfferings.find? (matchesRef so) = some oe)
    (hcm : p.check_mode = true) :
    (updateK8s env p).run st =
      (let args : UpdateArgs := ⟨rec.id, ve.id, oe.id, p.size⟩
       let g1 := hasChanged args rec.toValue [UpdKey.kversionid]
       let g2 := hasChanged args rec.toValue [UpdKey.sofferingid, UpdKey.size]
       EStateM.Result.ok (some rec.toValue)
        { st with
          versionCache := some ve
          offeringCache := some oe
          resultVersion := some ve.name
          resultOffering := some oe.name
          changed := st.changed || g1 || g2
          trace := st.trace ++ [Call.listVersions, Call.listOfferings] }) := by
  have hne : env.listVersions.isEmpty = false := by
    cases hl : env.listVersions with
    | nil => rw [hl] at hfv; simp at hfv
    | cons a l => rfl
  have hne2 : env.listOfferings.isEmpty = false := by
    cases hl : env.listOfferings with
    | nil => rw [hl] at hfo; simp at hfo
    | cons a l => rfl
  have hid : (Record.toValue rec).id = some rec.id := rfl
  simp only [updateK8s, versionGroup, scaleGroup, getK8s, getVersion, getServiceOffering,
    getItem, M.run_eq, M.bind_apply, M.get_apply, M.pushCall_apply, M.pure_apply,
    M.modify_apply, M.failJson_apply, M.map_apply, hc, hvc, hoc, hpv, hfv, hps, hfo,
    hcm, hne, hne2, hid]
  by_cases hg1 : hasChanged ⟨rec.id, ve.id, oe.id, p.size⟩ rec.toValue [UpdKey.kversionid] = true
  · by_cases hg2 : hasChanged ⟨rec.id, ve.id, oe.id, p.size⟩ rec.toValue
        [UpdKey.sofferingid, UpdKey.size] = true
    · simp [hg1, hg2, M.bind_apply, M.pure_apply, M.modify_apply, M.pushCall_apply, M.map_apply]
    · simp [hg1, hg2, M.bind_apply, M.pure_apply, M.modify_apply, M.pushCall_apply, M.map_apply]
  · by_cases hg2 : hasChanged ⟨rec.id, ve.id, oe.id, p.size⟩ rec.toValue
        [UpdKey.sofferingid, UpdKey.size] = true
    · simp [hg1, hg2, M.bind_apply, M.pure_apply, M.modify_apply, M.pushCall_apply, M.map_apply]
    · simp [hg1, hg2, M.bind_apply, M.pure_apply, M.modify_apply, M.pushCall_apply, M.map_apply]

/-! ### C9 — check mode reports the divergence without issuing calls -/

/-- C9: with check mode on, a full invocation issues zero mutating calls,
whatever the cloud looks like; and each divergence branch still sets
`changed`: a missing record with valid create parameters, an update whose
version or scale guard reports a difference, a start on a stopped record, a
stop on a running record, and a delete of an existing record. -/
theorem c9_check_mode_dry_run (env : Env) (p : Params) (hcm : p.check_mode = true) :
    mutatingCalls (runK8sModule env p) = []
    ∧ (∀ (st : St) (d so vn : String) (n : Int) (ve oe : CatalogEntry),
        p.description = some d → p.service_offering = some so →
        p.size = some n → p.version = some vn →
        st.versionCache = none → st.offeringCache = none →
        env.listVersions.find? (matchesRef vn) = some ve →
        env.listOfferings.find? (matchesRef so) = some oe →
        (createK8s env p).run st =
          EStateM.Result.ok none
            { st with
              versionCache := some ve
              offeringCache := some oe
              resultVersion := some ve.name
              resultOffering := some oe.name
              changed := true
              trace := st.trace ++ [Call.listVersions, Call.listOfferings] })
    ∧ (∀ (st : St) (rec : Record) (vn so : String) (ve oe : CatalogEntry),
        st.k8sCache = some rec.toValue →
        st.versionCache = none → st.offeringCache = none →
        p.version = some vn → env.listVersions.find? (matchesRef vn) = some ve →
        p.service_offering = some so → env.listOfferings.find? (matchesRef so) = some oe →
        (updateK8s env p).run st =
          EStateM.Result.ok (some rec.toValue)
            { st with
              versionCache := some ve
              offeringCache := some oe
              resultVersion := some ve.name
              resultOffering := some oe.name
              changed := st.changed
                || hasChanged ⟨rec.id, ve.id, oe.id, p.size⟩ rec.toValue [UpdKey.kversionid]
                || hasChanged ⟨rec.id, ve.id, oe.id, p.size⟩ rec.toValue
                    [UpdKey.sofferingid, UpdKey.size]
              trace := st.trace ++ [Call.listVersions, Call.listOfferings] })
    ∧ (∀ (st : St) (v : Value) (s : String),
        st.k8sCache = some v → v.state = some s →
        ["stopped", "stopping"].contains (strLower s) = true →
        (startK8s env p).run st =
          EStateM.Result.ok (some v) { st with changed := true })
    ∧ (∀ (st : St) (v : Value) (s : String),
        st.k8sCache = some v → v.state = some s →
        ["starting", "running"].contains (strLower s) = true →
        (stopK8s env p).run st =
          EStateM.Result.ok (some v) { st with changed := true })
    ∧ (∀ (st : St) (v : Value),
        st.k8sCache = some v →
        (absentK8s env p).run st =
          EStateM.Result.ok (some v) { st with changed := true }) := by
  refine ⟨?_, ?_, ?_, ?_, ?_, ?_⟩
  · obtain ⟨t, ht, ha⟩ := onlyPushes_mainM env p (fun c => !c.isMutating)
      (fun a b => rfl) rfl rfl (fun i => rfl) (Or.inl hcm) {}
    have hmem : ∀ c ∈ t, ¬(Call.isMutating c = true) := by
      intro c hcmem
      have := List.all_eq_true.mp ha c hcmem
      simpa using this
    show (finalSt ((mainM env p).run {})).trace.filter Call.isMutating = []
    rw [M.run_eq, ht]
    have h0 : ({} : St).trace = [] := rfl
    rw [h0, List.nil_append]
    exact List.filter_eq_nil_iff.mpr hmem
  · intro st d so vn n ve oe hd hps hsz hpv hvc hoc hfv hfo
    rw [createK8s_run_characterization env p st d so vn n ve oe hd hps hsz hpv hvc hoc hfv hfo]
    simp [hcm]
  · intro st rec vn so ve oe hc hvc hoc hpv hfv hps hfo
    rw [updateK8s_checkMode_characterization env p st rec vn so ve oe hc hvc hoc hpv hfv
      hps hfo hcm]
  · intro st v s hc hs hlist
    have h2 : ["starting", "running"].contains (strLower s) = false := by
      have hd2 : strLower s = "stopped" ∨ strLower s = "stopping" := by simpa using hlist
      rcases hd2 with e | e <;> rw [e] <;> decide
    simp only [startK8s, getK8s, getItem, M.run_eq, M.bind_apply, M.get_apply,
      M.pushCall_apply, M.pure_apply, M.modify_apply, hc, hs, hlist, h2, hcm]
    simp [M.pure_apply, M.modify_apply, M.bind_apply, hc]
  · intro st v s hc hs hlist
    have h2 : ["stopping", "stopped"].contains (strLower s) = false := by
      have hd2 : strLower s = "starting" ∨ strLower s = "running" := by simpa using hlist
      rcases hd2 with e | e <;> rw [e] <;> decide
    simp only [stopK8s, getK8s, getItem, M.run_eq, M.bind_apply, M.get_apply,
      M.pushCall_apply, M.pure_apply, M.modify_apply, hc, hs, hlist, h2, hcm]
    simp [M.pure_apply, M.modify_apply, M.bind_apply, hc]
  · intro st v hc
    simp only [absentK8s, getK8s, getItem, M.run_eq, M.bind_apply, M.get_apply,
      M.pushCall_apply, M.pure_apply, M.modify_apply, hc, hcm]
    simp [M.pure_apply, M.modify_apply, M.bind_apply, hc]

/-- `get_k8s` when the cloud has no matching cluster: both lookup shapes come
back empty and nothing is cached. -/
theorem getK8s_none_run (env : Env) (p : Params) (st : St) (hc : st.k8sCache = none)
    (hnone : ∀ a b, env.listClusters a b = none) :
    getK8s env p st = EStateM.Result.ok none { st with trace := st.trace ++ lookupTrace p } := by
  cases hp : p.paramId with
  | some u =>
    simp only [getK8s, lookupTrace, M.bind_apply, M.get_apply, M.pushCall_apply,
      M.pure_apply, hc, hp, hnone]
    simp
  | none =>
    simp only [getK8s, lookupTrace, M.bind_apply, M.get_apply, M.pushCall_apply,
      M.pure_apply, hc, hp, hnone]

/-- A step that only pushes non-`f` calls leaves the `f`-filtered trace
unchanged. -/
theorem onlyPushes_filter {α : Type} (f : Call → Bool) {m : M α}
    (hop : OnlyPushes m (fun c => !f c)) (stX : St) :
    (finalSt (m stX)).trace.filter f = stX.trace.filter f := by
  obtain ⟨t, ht, ha⟩ := hop stX
  rw [ht, List.filter_append]
  have hnil : t.filter f = [] := by
    refine List.filter_eq_nil_iff.mpr ?_
    intro c hcmem
    have := List.all_eq_true.mp ha c hcmem
    simpa using this
  simp [hnil]

/-! ### C5 — exactly one create call, docker registry defaulted to null -/

/-- C5: for a `present` spec with all create-required fields populated, no
existing record, and both references resolving, the whole invocation issues
exactly one create call, carrying the full argument dictionary; when the
`docker_registry` block is omitted its three sub-fields are passed as null. -/
theorem c5_create_once (env : Env) (p : Params) (d so vn : String) (n : Int)
    (ve oe : CatalogEntry)
    (hst : p.state = Lifecycle.present)
    (hd : p.description = some d) (hps : p.service_offering = some so)
    (hsz : p.size = some n) (hpv : p.version = some vn)
    (hcm : p.check_mode = false)
    (hnone : ∀ a b, env.listClusters a b = none)
    (hfv : env.listVersions.find? (matchesRef vn) = some ve)
    (hfo : env.listOfferings.find? (matchesRef so) = some oe) :
    (finalSt (runK8sModule env p)).trace.filter Call.isCreate =
      [Call.create (createArgsFor env p ve oe)]
    ∧ (p.docker_registry = none →
        (createArgsFor env p ve oe).dockerregistryurl = none
        ∧ (createArgsFor env p ve oe).dockerregistryusername = none
        ∧ (createArgsFor env p ve oe).dockerregistrypassword = none) := by
  constructor
  · have hgate : (decide (p.state = Lifecycle.present) &&
        (p.description.isNone || p.service_offering.isNone || p.size.isNone
          || p.version.isNone)) = false := by
      simp [hd, hps, hsz, hpv]
    have habs : ¬(p.state = Lifecycle.absent) := by rw [hst]; intro hco; cases hco
    have hdis : ¬(p.state = Lifecycle.disabled) := by rw [hst]; intro hco; cases hco
    have hpresent : presentK8s env p {} =
        k8sConfig env p
          { k8sCache := some (if p.poll_async then env.createPolled (createArgsFor env p ve oe)
              else env.createResp (createArgsFor env p ve oe))
            versionCache := some ve
            offeringCache := some oe
            changed := true
            resultVersion := some ve.name
            resultOffering := some oe.name
            trace := lookupTrace p ++ [Call.listVersions, Call.listOfferings,
              Call.create (createArgsFor env p ve oe)] } := by
      simp only [presentK8s, M.bind_apply]
      rw [getK8s_none_run env p {} rfl hnone]
      simp only [ensureStep, List.nil_append]
      have hcreate := createK8s_run_characterization env p
        { k8sCache := none, versionCache := none, offeringCache := none, changed := false,
          resultVersion := none, resultOffering := none, trace := lookupTrace p }
        d so vn n ve oe hd hps hsz hpv rfl rfl hfv hfo
      rw [M.run_eq] at hcreate
      rw [hcreate]
      simp only [hcm, Bool.false_eq_true, if_false, M.bind_apply, M.modify_apply]
      simp [List.append_assoc]
    have hmain : (mainM env p).run {} =
        ((k8sConfig env p >>= fun _ => startK8s env p) >>= fun k8s => finalStateCheck p k8s)
          { k8sCache := some (if p.poll_async then env.createPolled (createArgsFor env p ve oe)
              else env.createResp (createArgsFor env p ve oe))
            versionCache := some ve
            offeringCache := some oe
            changed := true
            resultVersion := some ve.name
            resultOffering := some oe.name
            trace := lookupTrace p ++ [Call.listVersions, Call.listOfferings,
              Call.create (createArgsFor env p ve oe)] } := by
      rw [M.run_eq]
      simp only [mainM, stepsM, hgate, Bool.false_eq_true, if_false, habs, hdis,
        M.bind_apply, M.pure_apply]
      rw [hpresent]
    show (finalSt ((mainM env p).run {})).trace.filter Call.isCreate = _
    rw [hmain]
    have hop : OnlyPushes ((k8sConfig env p >>= fun _ => startK8s env p) >>=
        fun k8s => finalStateCheck p k8s) (fun c => !c.isCreate) := by
      refine onlyPushes_bind (onlyPushes_bind
        (onlyPushes_k8sConfig env p _ (fun a b => rfl) (fun i => rfl)) ?_) ?_
      · intro a
        exact onlyPushes_startK8s env p _ (fun a b => rfl) (Or.inr fun i => rfl)
      · intro k8s
        exact onlyPushes_finalStateCheck p k8s _
    rw [onlyPushes_filter Call.isCreate hop]
    have hlk : (lookupTrace p).filter Call.isCreate = [] := by
      cases hp : p.paramId <;> simp [lookupTrace, hp, Call.isCreate]
    simp [List.filter_append, hlk, Call.isCreate]
  · intro hdr
    simp [createArgsFor, hdr]

theorem c9_check_mode_dry_run_witness :
    mutatingCalls (runK8sModule (envOfRemote oneClusterRemote) chkBothParams) = []
    ∧ (createK8s catalogEnv chkParams).run initSt =
        EStateM.Result.ok none
          { initSt with
            versionCache := some { id := "vid1", name := "v1.27.3" }
            offeringCache := some { id := "oid1", name := "CH23" }
            resultVersion := some "v1.27.3"
            resultOffering := some "CH23"
            changed := true
            trace := [Call.listVersions, Call.listOfferings] }
    ∧ (updateK8s (envOfRemote oneClusterRemote) chkBothParams).run stRunning =
        EStateM.Result.ok (some sampleRecord.toValue)
          { stRunning with
            versionCache := some { id := "vid2", name := "v1.28.0" }
            offeringCache := some { id := "oid2", name := "CH24" }
            resultVersion := some "v1.28.0"
            resultOffering := some "CH24"
            changed := true
            trace := [Call.listVersions, Call.listOfferings] }
    ∧ (startK8s catalogEnv chkParams).run stStopped =
        EStateM.Result.ok (some stoppedValue) { stStopped with changed := true }
    ∧ (stopK8s catalogEnv chkParams).run stRunning =
        EStateM.Result.ok (some runningValue) { stRunning with changed := true }
    ∧ (absentK8s (envOfRemote oneClusterRemote) chkParams).run stRunning =
        EStateM.Result.ok (some runningValue) { stRunning with changed := true } := by
  obtain ⟨w1, -, w3, -, -, -⟩ :=
    c9_check_mode_dry_run (envOfRemote oneClusterRemote) chkBothParams rfl
  obtain ⟨-, w2, -, w4, w5, -⟩ := c9_check_mode_dry_run catalogEnv chkParams rfl
  obtain ⟨-, -, -, -, -, w6⟩ :=
    c9_check_mode_dry_run (envOfRemote oneClusterRemote) chkParams rfl
  refine ⟨w1, ?_, ?_, ?_, ?_, ?_⟩
  · exact w2 initSt "Kubernetes cluster" "CH23" "v1.27.3" 4
      { id := "vid1", name := "v1.27.3" } { id := "oid1", name := "CH23" }
      rfl rfl rfl rfl rfl rfl rfl rfl
  · exact w3 stRunning sampleRecord "v1.28.0" "CH24"
      { id := "vid2", name := "v1.28.0" } { id := "oid2", name := "CH24" }
      rfl rfl rfl rfl rfl rfl rfl
  · exact w4 stStopped stoppedValue "Stopped" rfl rfl (by decide)
  · exact w5 stRunning runningValue "Running" rfl rfl (by decide)
  · exact w6 stRunning runningValue rfl

theorem c5_create_once_witness :
    (finalSt (runK8sModule catalogEnv baseParams)).trace.filter Call.isCreate =
      [Call.create (createArgsFor catalogEnv baseParams
        { id := "vid1", name := "v1.27.3" } { id := "oid1", name := "CH23" })]
    ∧ (createArgsFor catalogEnv baseParams
        { id := "vid1", name := "v1.27.3" } { id := "oid1", name := "CH23" }).dockerregistryurl
          = none
    ∧ (createArgsFor catalogEnv baseParams
        { id := "vid1", name := "v1.27.3" } { id := "oid1", name := "CH23" }).dockerregistryusername
          = none
    ∧ (createArgsFor catalogEnv baseParams
        { id := "vid1", name := "v1.27.3" } { id := "oid1", name := "CH23" }).dockerregistrypassword
          = none := by
  obtain ⟨h1, h2⟩ := c5_create_once catalogEnv baseParams "Kubernetes cluster" "CH23"
    "v1.27.3" 4 { id := "vid1", name := "v1.27.3" } { id := "oid1", name := "CH23" }
    rfl rfl rfl rfl rfl rfl (fun a b => rfl) rfl rfl
  obtain ⟨d1, d2, d3⟩ := h2 rfl
  exact ⟨h1, d1, d2, d3⟩

/-! ### C8 — absent lifecycle runs only the delete step -/

/-- The final state check never touches the trace. -/
theorem finalStateCheck_trace (p : Params) (o : Option Value) (st : St) :
    (finalSt (finalStateCheck p o st)).trace = st.trace := by
  unfold finalStateCheck
  cases o with
  | none => rfl
  | some v =>
    cases hv : v.state with
    | none => simp [hv, M.pure_apply, finalSt]
    | some s =>
      simp only [hv]
      by_cases he : (strLower s == "error") = true
      · simp [he, M.failJson_apply, finalSt]
      · simp only [Bool.not_eq_true] at he
        simp [he, M.pure_apply, finalSt]

/-- C8: with lifecycle `absent`, when a record exists the whole invocation
issues exactly one delete (whose value is the polled result when polling is
requested) after the single lookup — no create, update, start/stop or config
fetch appears in the trace — and reports `changed`; when no record exists the
invocation ends with just the lookup, no mutating call, and `changed`
false. -/
theorem c8_absent_only_delete (env : Env) (p : Params)
    (hst : p.state = Lifecycle.absent) (hpid : p.paramId = none) :
    (∀ (rec : Value) (i : String),
      env.listClusters none (some p.name) = some rec → rec.id = some i →
      p.check_mode = false →
      (stepsM env p).run initSt =
        EStateM.Result.ok
          (some (if p.poll_async then env.deletePolled i else env.deleteResp i))
          { initSt with
            k8sCache := some rec
            changed := true
            trace := [Call.listClusters none (some p.name), Call.delete i] }
      ∧ (finalSt (runK8sModule env p)).trace =
          [Call.listClusters none (some p.name), Call.delete i]
      ∧ (finalSt (runK8sModule env p)).changed = true)
    ∧ (env.listClusters none (some p.name) = none →
        runK8sModule env p =
          EStateM.Result.ok none
            { initSt with trace := [Call.listClusters none (some p.name)] }) := by
  have habs : p.state = Lifecycle.absent := hst
  have hgate : (decide (p.state = Lifecycle.present) &&
      (p.description.isNone || p.service_offering.isNone || p.size.isNone
        || p.version.isNone)) = false := by
    rw [hst]
    rfl
  constructor
  · intro rec i hfound hid hcm
    have hsteps : (stepsM env p).run initSt =
        EStateM.Result.ok
          (some (if p.poll_async then env.deletePolled i else env.deleteResp i))
          { initSt with
            k8sCache := some rec
            changed := true
            trace := [Call.listClusters none (some p.name), Call.delete i] } := by
      rw [M.run_eq]
      simp only [stepsM, hgate, Bool.false_eq_true, if_false, hst, if_pos,
        absentK8s, getK8s, getItem, M.bind_apply, M.get_apply, M.pushCall_apply,
        M.pure_apply, M.modify_apply, hpid, hfound, hid, hcm]
      simp [M.pure_apply, M.bind_apply, M.get_apply, M.modify_apply, M.pushCall_apply,
        M.map_apply, initSt, hid]
    refine ⟨hsteps, ?_, ?_⟩
    · show (finalSt ((mainM env p).run {})).trace = _
      rw [M.run_eq]
      simp only [mainM, M.bind_apply]
      rw [M.run_eq] at hsteps
      have hinit : (initSt : St) = {} := rfl
      rw [hinit] at hsteps
      rw [hsteps]
      rw [finalStateCheck_trace]
    · show (finalSt ((mainM env p).run {})).changed = _
      rw [M.run_eq]
      simp only [mainM, M.bind_apply]
      rw [M.run_eq] at hsteps
      have hinit : (initSt : St) = {} := rfl
      rw [hinit] at hsteps
      rw [hsteps]
      unfold finalStateCheck
      cases hv : (if p.poll_async then env.deletePolled i else env.deleteResp i).state with
      | none => simp [hv, M.pure_apply, finalSt]
      | some s =>
        simp only [hv]
        by_cases he : (strLower s == "error") = true
        · simp [he, M.failJson_apply, finalSt]
        · simp only [Bool.not_eq_true] at he
          simp [he, M.pure_apply, finalSt]
  · intro hnone
    show (mainM env p).run {} = _
    rw [M.run_eq]
    simp only [mainM, stepsM, hgate, Bool.false_eq_true, if_false, hst, if_pos,
      absentK8s, getK8s, M.bind_apply, M.get_apply, M.pushCall_apply,
      M.pure_apply, M.modify_apply, hpid, hnone]
    simp [M.pure_apply, M.bind_apply, M.get_apply, M.pushCall_apply, M.map_apply,
      finalStateCheck, initSt]


theorem c8_absent_only_delete_witness :
    (stepsM (envOfRemote oneClusterRemote) absParams).run initSt =
      EStateM.Result.ok (some (jobValue "c1"))
        { initSt with
          k8sCache := some sampleRecord.toValue
          changed := true
          trace := [Call.listClusters none (some "k8s-cluster-01"), Call.delete "c1"] }
    ∧ (finalSt (runK8sModule (envOfRemote oneClusterRemote) absParams)).trace =
        [Call.listClusters none (some "k8s-cluster-01"), Call.delete "c1"]
    ∧ (finalSt (runK8sModule (envOfRemote oneClusterRemote) absParams)).changed = true
    ∧ runK8sModule (envOfRemote baseRemote) absParams =
        EStateM.Result.ok none
          { initSt with trace := [Call.listClusters none (some "k8s-cluster-01")] } := by
  obtain ⟨wfound, -⟩ := c8_absent_only_delete (envOfRemote oneClusterRemote) absParams rfl rfl
  obtain ⟨-, wnone⟩ := c8_absent_only_delete (envOfRemote baseRemote) absParams rfl rfl
  obtain ⟨h1, h2, h3⟩ := wfound sampleRecord.toValue "c1" rfl rfl rfl
  exact ⟨h1, h2, h3, wnone rfl⟩

theorem applyCall_read (r : Remote) (c : Call) (hc : c.isMutating = false) :
    applyCall r c = r := by
  cases c <;> simp [Call.isMutating] at hc ⊢ <;> rfl

theorem applyTrace_append (r : Remote) (t1 t2 : List Call) :
    applyTrace r (t1 ++ t2) = applyTrace (applyTrace r t1) t2 :=
  List.foldl_append _ _ _ _

theorem applyTrace_no_mutating (r : Remote) (t : List Call)
    (h : t.filter Call.isMutating = []) : applyTrace r t = r := by
  induction t generalizing r with
  | nil => rfl
  | cons c t ih =>
    rw [List.filter_cons] at h
    by_cases hc : c.isMutating = true
    · simp [hc] at h
    · simp only [Bool.not_eq_true] at hc
      simp only [hc, Bool.false_eq_true, if_false] at h
      show applyTrace (applyCall r c) t = r
      rw [applyCall_read r c hc]
      exact ih r h

theorem applyCall_fields (r : Remote) (c : Call) :
    (applyCall r c).versions = r.versions
    ∧ (applyCall r c).offerings = r.offerings
    ∧ (applyCall r c).configData = r.configData := by
  cases c <;> exact ⟨rfl, rfl, rfl⟩

theorem applyTrace_fields (r : Remote) (t : List Call) :
    (applyTrace r t).versions = r.versions
    ∧ (applyTrace r t).offerings = r.offerings
    ∧ (applyTrace r t).configData = r.configData := by
  induction t generalizing r with
  | nil => exact ⟨rfl, rfl, rfl⟩
  | cons c t ih =>
    show (applyTrace (applyCall r c) t).versions = _ ∧ _ ∧ _
    obtain ⟨h1, h2, h3⟩ := ih (applyCall r c)
    obtain ⟨g1, g2, g3⟩ := applyCall_fields r c
    exact ⟨h1.trans g1, h2.trans g2, h3.trans g3⟩

theorem finalStateCheck_changed (p : Params) (o : Option Value) (st : St) :
    (finalSt (finalStateCheck p o st)).changed = st.changed := by
  unfold finalStateCheck
  cases o with
  | none => rfl
  | some v =>
    cases hv : v.state with
    | none => simp [hv, M.pure_apply, finalSt]
    | some s =>
      simp only [hv]
      by_cases he : (strLower s == "error") = true
      · simp [he, M.failJson_apply, finalSt]
      · simp only [Bool.not_eq_true] at he
        simp [he, M.pure_apply, finalSt]

theorem getK8s_found_run (env : Env) (p : Params) (st : St) (v : Value)
    (hc : st.k8sCache = none) (hpid : p.paramId = none)
    (hfound : env.listClusters none (some p.name) = some v) :
    getK8s env p st = EStateM.Result.ok (some v)
      { st with
        k8sCache := some v
        trace := st.trace ++ [Call.listClusters none (some p.name)] } := by
  simp only [getK8s, M.bind_apply, M.get_apply, M.pushCall_apply, M.pure_apply,
    M.modify_apply, hc, hpid, hfound]

theorem k8sConfig_run_hasConfig (env : Env) (p : Params) (st : St) (v : Value) (cfg : String)
    (hc : st.k8sCache = some v) (hcfg : v.config = some cfg) :
    k8sConfig env p st = EStateM.Result.ok (some v) st := by
  simp only [k8sConfig, getK8s, M.bind_apply, M.get_apply, M.pure_apply, hc, hcfg]
  simp [hcfg, M.pure_apply]

theorem k8sConfig_run_noConfig (env : Env) (p : Params) (st : St) (v : Value) (i : String)
    (hc : st.k8sCache = some v) (hcfg : v.config = none) (hid : v.id = some i) :
    k8sConfig env p st =
      (match env.getConfig i with
       | some cfg =>
         EStateM.Result.ok (some { v with config := some cfg })
          { st with
            k8sCache := some { v with config := some cfg }
            trace := st.trace ++ [Call.getConfig i] }
       | none =>
         EStateM.Result.ok (some v)
          { st with trace := st.trace ++ [Call.getConfig i] }) := by
  simp only [k8sConfig, getK8s, getItem, M.bind_apply, M.get_apply, M.pure_apply,
    M.pushCall_apply, M.modify_apply, hc, hcfg, hid]
  cases hg : env.getConfig i with
  | some cfg =>
    simp [hcfg, hg, hid, M.pure_apply, M.bind_apply, M.pushCall_apply, M.modify_apply,
      M.map_apply, getItem]
  | none =>
    simp [hcfg, hg, hid, hc, M.pure_apply, M.bind_apply, M.pushCall_apply, M.modify_apply,
      M.map_apply, getItem]

theorem startK8s_noTrigger (env : Env) (p : Params) (st : St) (v : Value) (s : String)
    (hc : st.k8sCache = some v) (hs : v.state = some s)
    (hl : ["stopped", "stopping"].contains (strLower s) = false) :
    (startK8s env p).run st = EStateM.Result.ok (some v) st := by
  by_cases h1 : ["starting", "running"].contains (strLower s) = true
  · simp only [startK8s, getK8s, getItem, M.run_eq, M.bind_apply, M.get_apply,
      M.pure_apply, hc, hs, h1]
    simp [M.pure_apply]
  · simp only [Bool.not_eq_true] at h1
    simp only [startK8s, getK8s, getItem, M.run_eq, M.bind_apply, M.get_apply,
      M.pure_apply, hc, hs, h1, hl]
    simp [M.pure_apply]

theorem stopK8s_noTrigger (env : Env) (p : Params) (st : St) (v : Value) (s : String)
    (hc : st.k8sCache = some v) (hs : v.state = some s)
    (hl : ["starting", "running"].contains (strLower s) = false) :
    (stopK8s env p).run st = EStateM.Result.ok (some v) st := by
  by_cases h1 : ["stopping", "stopped"].contains (strLower s) = true
  · simp only [stopK8s, getK8s, getItem, M.run_eq, M.bind_apply, M.get_apply,
      M.pure_apply, hc, hs, h1]
    simp [M.pure_apply]
  · simp only [Bool.not_eq_true] at h1
    simp only [stopK8s, getK8s, getItem, M.run_eq, M.bind_apply, M.get_apply,
      M.pure_apply, hc, hs, h1, hl]
    simp [M.pure_apply]

theorem startK8s_trigger (env : Env) (p : Params) (st : St) (v : Value) (s i : String)
    (hc : st.k8sCache = some v) (hs : v.state = some s) (hid : v.id = some i)
    (hcm : p.check_mode = false)
    (hl : ["stopped", "stopping"].contains (strLower s) = true) :
    (startK8s env p).run st =
      EStateM.Result.ok (some (if p.poll_async then env.startPolled i else env.startResp i))
        { st with changed := true, trace := st.trace ++ [Call.start i] } := by
  have h1 : ["starting", "running"].contains (strLower s) = false := by
    have hd2 : strLower s = "stopped" ∨ strLower s = "stopping" := by simpa using hl
    rcases hd2 with e | e <;> rw [e] <;> decide
  simp only [startK8s, getK8s, getItem, M.run_eq, M.bind_apply, M.get_apply,
    M.pure_apply, M.modify_apply, M.pushCall_apply, M.map_apply, hc, hs, hid, hcm, h1, hl]
  simp [M.pure_apply, M.modify_apply, M.pushCall_apply, M.bind_apply, M.map_apply, hc]

theorem stopK8s_trigger (env : Env) (p : Params) (st : St) (v : Value) (s i : String)
    (hc : st.k8sCache = some v) (hs : v.state = some s) (hid : v.id = some i)
    (hcm : p.check_mode = false)
    (hl : ["starting", "running"].contains (strLower s) = true) :
    (stopK8s env p).run st =
      EStateM.Result.ok (some (if p.poll_async then env.stopPolled i else env.stopResp i))
        { st with changed := true, trace := st.trace ++ [Call.stop i] } := by
  have h1 : ["stopping", "stopped"].contains (strLower s) = false := by
    have hd2 : strLower s = "starting" ∨ strLower s = "running" := by simpa using hl
    rcases hd2 with e | e <;> rw [e] <;> decide
  simp only [stopK8s, getK8s, getItem, M.run_eq, M.bind_apply, M.get_apply,
    M.pure_apply, M.modify_apply, M.pushCall_apply, M.map_apply, hc, hs, hid, hcm, h1, hl]
  simp [M.pure_apply, M.modify_apply, M.pushCall_apply, M.bind_apply, M.map_apply, hc]

theorem matchesFilters_none_name (n : String) (c : Record) :
    matchesFilters none (some n) c = (c.name == n) := by
  simp [matchesFilters]

theorem findCluster_name_mem (r : Remote) (n : String) (rec : Record)
    (h : findCluster r none (some n) = some rec) :
    rec ∈ r.clusters ∧ rec.name = n := by
  unfold findCluster at h
  obtain ⟨ys, hys⟩ := List.head?_eq_some_iff.mp h
  have hmem : rec ∈ r.clusters.filter (matchesFilters none (some n)) := by
    rw [hys]
    exact List.mem_cons_self _ _
  rw [List.mem_filter] at hmem
  refine ⟨hmem.1, ?_⟩
  have := hmem.2
  rw [matchesFilters_none_name] at this
  exact eq_of_beq this

theorem record_name_unique (l : List Record) (rec c : Record)
    (hpw : l.Pairwise (fun a b => a.name ≠ b.name))
    (hrec : rec ∈ l) (hcmem : c ∈ l) (hname : c.name = rec.name) : c = rec := by
  by_contra hne
  have hsym : Symmetric (fun a b : Record => a.name ≠ b.name) := by
    intro a b hab e
    exact hab e.symm
  exact hpw.forall hsym hcmem hrec hne hname

theorem matchesFilters_id_none (i : String) (c : Record) :
    matchesFilters (some i) none c = (c.id == i) := by
  simp [matchesFilters]

theorem find_id_unique (l : List Record) (rec : Record)
    (hpw : l.Pairwise (fun a b => a.id ≠ b.id)) (hrec : rec ∈ l) :
    (l.filter (matchesFilters (some rec.id) none)).head? = some rec := by
  induction l with
  | nil => cases hrec
  | cons c t ih =>
    rw [List.pairwise_cons] at hpw
    rw [List.filter_cons]
    by_cases hceq : matchesFilters (some rec.id) none c = true
    · have hcid : c.id = rec.id := by
        rw [matchesFilters_id_none] at hceq
        exact eq_of_beq hceq
      rcases List.mem_cons.mp hrec with rfl | hmem
      · simp [hceq]
      · exact absurd hcid (hpw.1 rec hmem)
    · rcases List.mem_cons.mp hrec with rfl | hmem
      · refine absurd ?_ hceq
        rw [matchesFilters_id_none]
        exact beq_self_eq_true _
      · simp only [Bool.not_eq_true] at hceq
        simp only [hceq, Bool.false_eq_true, if_false]
        exact ih hpw.2 hmem

theorem findCluster_id_unique (r : Remote) (rec : Record)
    (hpw : r.clusters.Pairwise (fun a b => a.id ≠ b.id))
    (hrec : rec ∈ r.clusters) :
    findCluster r (some rec.id) none = some rec :=
  find_id_unique r.clusters rec hpw hrec

theorem findCluster_map (l : List Record) (g : Record → Record)
    (hg : ∀ c, (g c).name = c.name) (n : String) :
    ((l.map g).filter (matchesFilters none (some n))).head? =
      ((l.filter (matchesFilters none (some n))).head?).map g := by
  rw [List.filter_map]
  rw [List.head?_map]
  have hfun : List.filter (matchesFilters none (some n) ∘ g) l =
      List.filter (matchesFilters none (some n)) l := by
    apply List.filter_congr
    intro c hcl
    show matchesFilters none (some n) (g c) = matchesFilters none (some n) c
    rw [matchesFilters_none_name, matchesFilters_none_name, hg]
  rw [hfun]

theorem findCluster_after_delete (r : Remote) (rec : Record) (n : String)
    (hpw : r.clusters.Pairwise (fun a b => a.name ≠ b.name))
    (hfound : findCluster r none (some n) = some rec) :
    ((r.clusters.filter (fun c => c.id != rec.id)).filter
      (matchesFilters none (some n))).head? = none := by
  obtain ⟨hmem, hname⟩ := findCluster_name_mem r n rec hfound
  rw [List.head?_eq_none_iff]
  rw [List.eq_nil_iff_forall_not_mem]
  intro c hcmem
  rw [List.mem_filter, List.mem_filter] at hcmem
  obtain ⟨⟨hcl, hid⟩, hmm⟩ := hcmem
  rw [matchesFilters_none_name] at hmm
  have hceq : c = rec := record_name_unique r.clusters rec c hpw hmem hcl
    ((eq_of_beq hmm).trans hname.symm)
  subst hceq
  simp at hid

theorem findCluster_after_append (r : Remote) (created : Record) (n : String)
    (hnone : findCluster r none (some n) = none)
    (hname : created.name = n) :
    ((r.clusters ++ [created]).filter (matchesFilters none (some n))).head? =
      some created := by
  unfold findCluster at hnone
  rw [List.head?_eq_none_iff] at hnone
  rw [List.filter_append, hnone, List.nil_append]
  rw [List.filter_cons]
  simp [matchesFilters_none_name, hname]

/-- A full invocation against a converged cloud is a no-op: when the stored
record matches the resolved desired version, offering and size, and its state
does not trigger the lifecycle step, the run issues no mutating call and ends
with `changed = false`. -/
theorem runK8sModule_noop (p : Params) (r : Remote) (rec : Record) (vn so : String)
    (ve oe : CatalogEntry)
    (hcm : p.check_mode = false) (hpoll : p.poll_async = true) (hpid : p.paramId = none)
    (hst : p.state ≠ Lifecycle.absent)
    (hfound : findCluster r none (some p.name) = some rec)
    (hpv : p.version = some vn) (hfv : r.versions.find? (matchesRef vn) = some ve)
    (hps : p.service_offering = some so) (hfo : r.offerings.find? (matchesRef so) = some oe)
    (hkv : rec.kubernetesversionid = ve.id)
    (hso : rec.serviceofferingid = oe.id)
    (hsz : p.size = none ∨ p.size = some rec.size)
    (hact : if p.state = Lifecycle.disabled
      then ["starting", "running"].contains (strLower rec.state) = false
      else ["stopped", "stopping"].contains (strLower rec.state) = false) :
    mutatingCalls (runK8sModule (envOfRemote r) p) = []
    ∧ (finalSt (runK8sModule (envOfRemote r) p)).changed = false := by
  by_cases hgate : (decide (p.state = Lifecycle.present) &&
      (p.description.isNone || p.service_offering.isNone || p.size.isNone
        || p.version.isNone)) = true
  · constructor <;>
    · show _
      unfold runK8sModule mainM stepsM
      simp [hgate, M.run_eq, M.bind_apply, M.failJson_apply, mutatingCalls, finalSt]
  · simp only [Bool.not_eq_true] at hgate
    have g1 : hasChanged ⟨rec.id, ve.id, oe.id, p.size⟩ rec.toValue [UpdKey.kversionid]
        = false := by
      rw [hasChanged_version_key]
      simp [hkv]
    have g2 : hasChanged ⟨rec.id, ve.id, oe.id, p.size⟩ rec.toValue
        [UpdKey.sofferingid, UpdKey.size] = false := by
      rw [hasChanged_scale_keys]
      rcases hsz with h | h <;> simp [hso, h]
    have henv : (envOfRemote r).listClusters none (some p.name) = some rec.toValue := by
      show (findCluster r none (some p.name)).map Record.toValue = _
      rw [hfound]
      rfl
    have hstep1 := getK8s_found_run (envOfRemote r) p {} rec.toValue rfl hpid henv
    have hstep2 := updateK8s_run_characterization (envOfRemote r) p
      { k8sCache := some rec.toValue
        versionCache := none
        offeringCache := none
        changed := false
        resultVersion := none
        resultOffering := none
        trace := [Call.listClusters none (some p.name)] }
      rec vn so ve oe rfl rfl rfl hpv hfv hps hfo hcm hpoll
    rw [M.run_eq] at hstep2
    simp only [g1, g2, Bool.false_eq_true, if_false, Bool.or_false] at hstep2
    -- the value the module caches after the update step, possibly with the
    -- config attached
    have hid : (Record.toValue rec).id = some rec.id := rfl
    have hstate : (Record.toValue rec).state = some rec.state := rfl
    -- the state after lookup and a clean update step
    have hpresent : presentK8s (envOfRemote r) p {} =
        k8sConfig (envOfRemote r) p
          { initSt with
            k8sCache := some rec.toValue
            versionCache := some ve
            offeringCache := some oe
            resultVersion := some ve.name
            resultOffering := some oe.name
            trace := [Call.listClusters none (some p.name), Call.listVersions,
              Call.listOfferings] } := by
      simp only [presentK8s, M.bind_apply]
      rw [hstep1]
      simp only [ensureStep, List.nil_append]
      rw [hstep2]
      simp only [M.bind_apply, M.modify_apply]
      simp [List.append_assoc]
      rfl
    -- common tail: whatever the config fetch produced, neither the lifecycle
    -- step nor the final check mutates anything
    have htail : ∀ (v3 : Value) (stC : St), v3.state = some rec.state →
        stC.k8sCache = some v3 → stC.changed = false →
        stC.trace.filter Call.isMutating = [] →
        presentK8s (envOfRemote r) p {} = EStateM.Result.ok (some v3) stC →
        mutatingCalls (runK8sModule (envOfRemote r) p) = []
        ∧ (finalSt (runK8sModule (envOfRemote r) p)).changed = false := by
      intro v3 stC hv3s hc3 hch3 htr3 hpres
      have hsteps : (stepsM (envOfRemote r) p) {} =
          (if p.state = Lifecycle.disabled then stopK8s (envOfRemote r) p
           else startK8s (envOfRemote r) p) stC := by
        simp only [stepsM, hgate, Bool.false_eq_true, if_false, M.bind_apply,
          M.pure_apply, if_neg hst]
        rw [hpres]
      have hlife : (if p.state = Lifecycle.disabled then stopK8s (envOfRemote r) p
          else startK8s (envOfRemote r) p) stC = EStateM.Result.ok (some v3) stC := by
        by_cases hdis : p.state = Lifecycle.disabled
        · rw [if_pos hdis]
          rw [if_pos hdis] at hact
          have := stopK8s_noTrigger (envOfRemote r) p stC v3 rec.state hc3 hv3s hact
          rw [M.run_eq] at this
          exact this
        · rw [if_neg hdis]
          rw [if_neg hdis] at hact
          have := startK8s_noTrigger (envOfRemote r) p stC v3 rec.state hc3 hv3s hact
          rw [M.run_eq] at this
          exact this
      have hmain : (mainM (envOfRemote r) p).run {} =
          finalStateCheck p (some v3) stC := by
        rw [M.run_eq]
        simp only [mainM, M.bind_apply]
        rw [hsteps, hlife]
      constructor
      · show (finalSt ((mainM (envOfRemote r) p).run {})).trace.filter Call.isMutating = []
        rw [hmain, finalStateCheck_trace]
        exact htr3
      · show (finalSt ((mainM (envOfRemote r) p).run {})).changed = false
        rw [hmain, finalStateCheck_changed]
        exact hch3
    -- dispatch on whether the record already carries a config payload
    cases hcfg : rec.config with
    | some cfg =>
      have hcfgv : (Record.toValue rec).config = some cfg := by
        show rec.config = some cfg
        exact hcfg
      have hk := k8sConfig_run_hasConfig (envOfRemote r) p
        { initSt with
          k8sCache := some rec.toValue
          versionCache := some ve
          offeringCache := some oe
          resultVersion := some ve.name
          resultOffering := some oe.name
          trace := [Call.listClusters none (some p.name), Call.listVersions,
            Call.listOfferings] } rec.toValue cfg rfl hcfgv
      refine htail rec.toValue _ hstate ?_ ?_ ?_ (hpresent.trans hk) <;> rfl
    | none =>
      have hcfgv : (Record.toValue rec).config = none := by
        show rec.config = none
        exact hcfg
      have hk := k8sConfig_run_noConfig (envOfRemote r) p
        { initSt with
          k8sCache := some rec.toValue
          versionCache := some ve
          offeringCache := some oe
          resultVersion := some ve.name
          resultOffering := some oe.name
          trace := [Call.listClusters none (some p.name), Call.listVersions,
            Call.listOfferings] } rec.toValue rec.id rfl hcfgv hid
      cases hgc : (envOfRemote r).getConfig rec.id with
      | some cfg =>
        rw [hgc] at hk
        refine htail { rec.toValue with config := some cfg } _ hstate ?_ ?_ ?_
          (hpresent.trans hk) <;> rfl
      | none =>
        rw [hgc] at hk
        refine htail rec.toValue _ hstate ?_ ?_ ?_ (hpresent.trans hk) <;> rfl

theorem M.bind_error {α β : Type} (x : M α) (f : α → M β) (e : String) (s s2 : St)
    (h : x s = EStateM.Result.error e s2) :
    (x >>= f) s = EStateM.Result.error e s2 := by
  rw [M.bind_apply, h]

theorem M.bind_ok {α β : Type} (x : M α) (f : α → M β) (a : α) (s s2 : St)
    (h : x s = EStateM.Result.ok a s2) :
    (x >>= f) s = f a s2 := by
  rw [M.bind_apply, h]

/-- Read queries do not move the cloud: only the mutating calls of a trace
matter to `applyTrace`. -/
theorem applyTrace_filter (r : Remote) (t : List Call) :
    applyTrace r t = applyTrace r (t.filter Call.isMutating) := by
  induction t generalizing r with
  | nil => rfl
  | cons c t ih =>
    show applyTrace (applyCall r c) t = applyTrace r ((c :: t).filter Call.isMutating)
    rw [List.filter_cons]
    by_cases hc : c.isMutating = true
    · simp only [hc, if_true]
      show _ = applyTrace (applyCall r c) (t.filter Call.isMutating)
      exact ih (applyCall r c)
    · simp only [Bool.not_eq_true] at hc
      simp only [hc, Bool.false_eq_true, if_false]
      rw [applyCall_read r c hc]
      exact ih r

/-- A first run that issued no mutating call leaves the cloud unchanged, so
the second run is the very same computation. -/
theorem secondRun_of_no_mutation (p : Params) (r : Remote)
    (h : mutatingCalls (runK8sModule (envOfRemote r) p) = []) :
    secondRun p r = runK8sModule (envOfRemote r) p := by
  unfold secondRun remoteAfterRun
  rw [applyTrace_filter]
  unfold mutatingCalls at h
  rw [h]
  rfl

theorem c1_conclusion_of_harmless (p : Params) (r : Remote)
    (hmut : mutatingCalls (runK8sModule (envOfRemote r) p) = [])
    (hch : (finalSt (runK8sModule (envOfRemote r) p)).changed = false) :
    mutatingCalls (secondRun p r) = []
    ∧ (finalSt (secondRun p r)).changed = false := by
  rw [secondRun_of_no_mutation p r hmut]
  exact ⟨hmut, hch⟩

theorem envOfRemote_listClusters (r : Remote) (a b : Option String) :
    (envOfRemote r).listClusters a b = (findCluster r a b).map Record.toValue := rfl

theorem getVersion_fail (env : Env) (p : Params) (st : St)
    (hvc : st.versionCache = none)
    (hfail : p.version = none
      ∨ ∃ vn, p.version = some vn ∧ env.listVersions.find? (matchesRef vn) = none) :
    ∃ e, getVersion env p st =
      EStateM.Result.error e { st with trace := st.trace ++ [Call.listVersions] } := by
  by_cases hve : env.listVersions.isEmpty = true
  · refine ⟨versionsEmptyMsg, ?_⟩
    simp only [getVersion, M.bind_apply, M.get_apply, hvc, M.pushCall_apply, hve,
      if_true, M.failJson_apply]
  · simp only [Bool.not_eq_true] at hve
    rcases hfail with hv | ⟨vn, hvn, hfind⟩
    · refine ⟨"AttributeError: NoneType object has no attribute lower", ?_⟩
      simp only [getVersion, M.bind_apply, M.get_apply, hvc, M.pushCall_apply, hve,
        Bool.false_eq_true, if_false, hv, M.failJson_apply]
    · refine ⟨versionNotFoundMsg vn, ?_⟩
      simp only [getVersion, M.bind_apply, M.get_apply, hvc, M.pushCall_apply, hve,
        Bool.false_eq_true, if_false, hvn, hfind, M.failJson_apply]

theorem getVersion_ok (env : Env) (p : Params) (st : St) (vn : String) (ve : CatalogEntry)
    (hvc : st.versionCache = none) (hpv : p.version = some vn)
    (hfv : env.listVersions.find? (matchesRef vn) = some ve) :
    getVersion env p st = EStateM.Result.ok ve
      { st with
        versionCache := some ve
        resultVersion := some ve.name
        trace := st.trace ++ [Call.listVersions] } := by
  have hne : env.listVersions.isEmpty = false := by
    cases hl : env.listVersions with
    | nil => rw [hl] at hfv; simp at hfv
    | cons a l => rfl
  simp only [getVersion, M.bind_apply, M.get_apply, hvc, M.pushCall_apply, hne,
    Bool.false_eq_true, if_false, hpv, hfv, M.modify_apply, M.pure_apply]

theorem getServiceOffering_fail (env : Env) (p : Params) (st : St)
    (hoc : st.offeringCache = none)
    (hfail : p.service_offering = none
      ∨ ∃ so, p.service_offering = some so ∧ env.listOfferings.find? (matchesRef so) = none) :
    ∃ e, getServiceOffering env p st =
      EStateM.Result.error e { st with trace := st.trace ++ [Call.listOfferings] } := by
  by_cases hoe : env.listOfferings.isEmpty = true
  · refine ⟨offeringsEmptyMsg, ?_⟩
    simp only [getServiceOffering, M.bind_apply, M.get_apply, hoc, M.pushCall_apply, hoe,
      if_true, M.failJson_apply]
  · simp only [Bool.not_eq_true] at hoe
    rcases hfail with hv | ⟨so, hso, hfind⟩
    · refine ⟨"AttributeError: NoneType object has no attribute lower", ?_⟩
      simp only [getServiceOffering, M.bind_apply, M.get_apply, hoc, M.pushCall_apply, hoe,
        Bool.false_eq_true, if_false, hv, M.failJson_apply]
    · refine ⟨offeringNotFoundMsg so, ?_⟩
      simp only [getServiceOffering, M.bind_apply, M.get_apply, hoc, M.pushCall_apply, hoe,
        Bool.false_eq_true, if_false, hso, hfind, M.failJson_apply]

theorem getServiceOffering_ok (env : Env) (p : Params) (st : St) (so : String)
    (oe : CatalogEntry)
    (hoc : st.offeringCache = none) (hps : p.service_offering = some so)
    (hfo : env.listOfferings.find? (matchesRef so) = some oe) :
    getServiceOffering env p st = EStateM.Result.ok oe
      { st with
        offeringCache := some oe
        resultOffering := some oe.name
        trace := st.trace ++ [Call.listOfferings] } := by
  have hne : env.listOfferings.isEmpty = false := by
    cases hl : env.listOfferings with
    | nil => rw [hl] at hfo; simp at hfo
    | cons a l => rfl
  simp only [getServiceOffering, M.bind_apply, M.get_apply, hoc, M.pushCall_apply, hne,
    Bool.false_eq_true, if_false, hps, hfo, M.modify_apply, M.pure_apply]

theorem updateK8s_fail_propagate (env : Env) (p : Params) (st : St) (rec : Record)
    (e : String) (st2 : St)
    (hc : st.k8sCache = some rec.toValue)
    (h : (getVersion env p >>= fun _ => getServiceOffering env p) st
      = EStateM.Result.error e st2) :
    updateK8s env p st = EStateM.Result.error e st2 := by
  have hid : (Record.toValue rec).id = some rec.id := rfl
  rw [M.bind_apply] at h
  simp only [updateK8s, getK8s, getItem, M.bind_apply, M.get_apply, M.pure_apply, hc, hid]
  cases hv : getVersion env p st with
  | error e1 s1 =>
    simp only [hv] at h ⊢
    simp only [EStateM.Result.error.injEq] at h
    rw [h.1, h.2]
  | ok ve s1 =>
    simp only [hv] at h ⊢
    cases ho : getServiceOffering env p s1 with
    | error e2 s2 =>
      simp only [ho] at h ⊢
      simp only [EStateM.Result.error.injEq] at h
      rw [h.1, h.2]
    | ok oe s2 =>
      rw [ho] at h
      exact absurd h (by simp)

theorem createK8s_fail_propagate (env : Env) (p : Params) (st : St)
    (e : String) (st2 : St)
    (hgate : (p.description.isNone || p.service_offering.isNone || p.size.isNone
      || p.version.isNone) = false)
    (h : (getVersion env p >>= fun _ => getServiceOffering env p) st
      = EStateM.Result.error e st2) :
    createK8s env p st = EStateM.Result.error e st2 := by
  rw [M.bind_apply] at h
  simp only [createK8s, hgate, Bool.false_eq_true, if_false, M.bind_apply]
  cases hv : getVersion env p st with
  | error e1 s1 =>
    simp only [hv] at h ⊢
    simp only [EStateM.Result.error.injEq] at h
    rw [h.1, h.2]
  | ok ve s1 =>
    simp only [hv] at h ⊢
    cases ho : getServiceOffering env p s1 with
    | error e2 s2 =>
      simp only [ho] at h ⊢
      simp only [EStateM.Result.error.injEq] at h
      rw [h.1, h.2]
    | ok oe s2 =>
      rw [ho] at h
      exact absurd h (by simp)

theorem stepsM_error_of_present (env : Env) (p : Params) (e : String) (st2 : St)
    (hgate : (decide (p.state = Lifecycle.present) &&
      (p.description.isNone || p.service_offering.isNone || p.size.isNone
        || p.version.isNone)) = false)
    (hst : p.state ≠ Lifecycle.absent)
    (h : presentK8s env p initSt = EStateM.Result.error e st2) :
    stepsM env p initSt = EStateM.Result.error e st2 := by
  simp only [stepsM, hgate, Bool.false_eq_true, if_false, if_neg hst, M.bind_apply, h]

theorem mainM_error_of_stepsM (env : Env) (p : Params) (e : String) (st2 : St)
    (h : stepsM env p initSt = EStateM.Result.error e st2) :
    runK8sModule env p = EStateM.Result.error e st2 := by
  show (mainM env p).run {} = _
  rw [M.run_eq]
  simp only [mainM, M.bind_apply]
  have hinit : (initSt : St) = {} := rfl
  rw [hinit] at h
  rw [h]

theorem absent_none_run (env : Env) (p : Params)
    (hst : p.state = Lifecycle.absent) (hpid : p.paramId = none)
    (hnone : env.listClusters none (some p.name) = none) :
    runK8sModule env p =
      EStateM.Result.ok none
        { initSt with trace := [Call.listClusters none (some p.name)] } := by
  have hgate : (decide (p.state = Lifecycle.present) &&
      (p.description.isNone || p.service_offering.isNone || p.size.isNone
        || p.version.isNone)) = false := by
    rw [hst]
    rfl
  show (mainM env p).run {} = _
  rw [M.run_eq]
  simp only [mainM, stepsM, hgate, Bool.false_eq_true, if_false, hst, if_pos,
    absentK8s, getK8s, M.bind_apply, M.get_apply, M.pushCall_apply,
    M.pure_apply, M.modify_apply, hpid, hnone]
  simp [M.pure_apply, M.bind_apply, M.get_apply, M.pushCall_apply, M.map_apply,
    finalStateCheck, initSt]

theorem absent_found_trace (env : Env) (p : Params) (rec : Value) (i : String)
    (hst : p.state = Lifecycle.absent) (hpid : p.paramId = none)
    (hcm : p.check_mode = false)
    (hfound : env.listClusters none (some p.name) = some rec) (hid : rec.id = some i) :
    (finalSt (runK8sModule env p)).trace =
      [Call.listClusters none (some p.name), Call.delete i] := by
  have hgate : (decide (p.state = Lifecycle.present) &&
      (p.description.isNone || p.service_offering.isNone || p.size.isNone
        || p.version.isNone)) = false := by
    rw [hst]
    rfl
  have hsteps : (stepsM env p) {} =
      EStateM.Result.ok
        (some (if p.poll_async then env.deletePolled i else env.deleteResp i))
        { initSt with
          k8sCache := some rec
          changed := true
          trace := [Call.listClusters none (some p.name), Call.delete i] } := by
    simp only [stepsM, hgate, Bool.false_eq_true, if_false, hst, if_pos,
      absentK8s, getK8s, getItem, M.bind_apply, M.get_apply, M.pushCall_apply,
      M.pure_apply, M.modify_apply, hpid, hfound, hid, hcm]
    simp [M.pure_apply, M.bind_apply, M.get_apply, M.modify_apply, M.pushCall_apply,
      M.map_apply, initSt, hid]
  show (finalSt ((mainM env p).run {})).trace = _
  rw [M.run_eq]
  simp only [mainM, M.bind_apply]
  rw [hsteps]
  rw [finalStateCheck_trace]

theorem findCluster_fresh (r : Remote) (hfresh : ∀ c ∈ r.clusters, c.id ≠ r.nextId) :
    findCluster r (some r.nextId) none = none := by
  unfold findCluster
  rw [List.head?_eq_none_iff]
  rw [List.eq_nil_iff_forall_not_mem]
  intro c hcmem
  rw [List.mem_filter] at hcmem
  obtain ⟨hcl, hmm⟩ := hcmem
  rw [matchesFilters_id_none] at hmm
  exact hfresh c hcl (eq_of_beq hmm)

theorem findCluster_applyCall_upgrade (r : Remote) (cid vid n : String) (rec : Record)
    (h : findCluster r none (some n) = some rec) :
    findCluster (applyCall r (Call.upgrade cid vid)) none (some n) =
      some (if rec.id == cid then upgradedRecord vid rec else rec) := by
  show ((r.clusters.map fun c => if c.id == cid then upgradedRecord vid c else c).filter
      (matchesFilters none (some n))).head? = _
  rw [findCluster_map r.clusters _ (fun c => by
    cases h2 : c.id == cid <;> simp [upgradedRecord, h2]) n]
  rw [show (r.clusters.filter (matchesFilters none (some n))).head? = some rec from h]
  rfl

theorem findCluster_applyCall_scale (r : Remote) (cid oid n : String) (sz : Option Int)
    (rec : Record)
    (h : findCluster r none (some n) = some rec) :
    findCluster (applyCall r (Call.scale cid oid sz)) none (some n) =
      some (if rec.id == cid then scaledRecord oid sz rec else rec) := by
  show ((r.clusters.map fun c => if c.id == cid then scaledRecord oid sz c else c).filter
      (matchesFilters none (some n))).head? = _
  rw [findCluster_map r.clusters _ (fun c => by
    cases h2 : c.id == cid <;> simp [scaledRecord, h2]) n]
  rw [show (r.clusters.filter (matchesFilters none (some n))).head? = some rec from h]
  rfl

theorem findCluster_applyCall_start (r : Remote) (cid n : String) (rec : Record)
    (h : findCluster r none (some n) = some rec) :
    findCluster (applyCall r (Call.start cid)) none (some n) =
      some (if rec.id == cid then { rec with state := "Running" } else rec) := by
  show ((r.clusters.map fun c => if c.id == cid then { c with state := "Running" } else c).filter
      (matchesFilters none (some n))).head? = _
  rw [findCluster_map r.clusters _ (fun c => by
    cases h2 : c.id == cid <;> simp [h2]) n]
  rw [show (r.clusters.filter (matchesFilters none (some n))).head? = some rec from h]
  rfl

theorem findCluster_applyCall_stop (r : Remote) (cid n : String) (rec : Record)
    (h : findCluster r none (some n) = some rec) :
    findCluster (applyCall r (Call.stop cid)) none (some n) =
      some (if rec.id == cid then { rec with state := "Stopped" } else rec) := by
  show ((r.clusters.map fun c => if c.id == cid then { c with state := "Stopped" } else c).filter
      (matchesFilters none (some n))).head? = _
  rw [findCluster_map r.clusters _ (fun c => by
    cases h2 : c.id == cid <;> simp [h2]) n]
  rw [show (r.clusters.filter (matchesFilters none (some n))).head? = some rec from h]
  rfl

theorem getK8s_notfound_run (env : Env) (p : Params) (st : St)
    (hc : st.k8sCache = none) (hpid : p.paramId = none)
    (hnone : env.listClusters none (some p.name) = none) :
    getK8s env p st = EStateM.Result.ok none
      { st with trace := st.trace ++ [Call.listClusters none (some p.name)] } := by
  simp only [getK8s, M.bind_apply, M.get_apply, M.pushCall_apply, M.pure_apply,
    hc, hpid, hnone]

theorem found_resolution_fail_harmless (p : Params) (r : Remote) (rec : Record)
    (hpid : p.paramId = none)
    (hgate : (decide (p.state = Lifecycle.present) &&
      (p.description.isNone || p.service_offering.isNone || p.size.isNone
        || p.version.isNone)) = false)
    (hst : p.state ≠ Lifecycle.absent)
    (hfound : findCluster r none (some p.name) = some rec)
    (hfail : (p.version = none
        ∨ ∃ vn, p.version = some vn ∧ r.versions.find? (matchesRef vn) = none)
      ∨ ∃ vn ve, p.version = some vn ∧ r.versions.find? (matchesRef vn) = some ve
        ∧ (p.service_offering = none
          ∨ ∃ so, p.service_offering = some so
            ∧ r.offerings.find? (matchesRef so) = none)) :
    mutatingCalls (secondRun p r) = []
    ∧ (finalSt (secondRun p r)).changed = false := by
  have henv : (envOfRemote r).listClusters none (some p.name) = some rec.toValue := by
    rw [envOfRemote_listClusters, hfound]
    rfl
  have hstep1 := getK8s_found_run (envOfRemote r) p {} rec.toValue rfl hpid henv
  have key : ∃ e st2, presentK8s (envOfRemote r) p {} = EStateM.Result.error e st2
      ∧ st2.trace.filter Call.isMutating = [] ∧ st2.changed = false := by
    rcases hfail with hvf | ⟨vn, ve, hpv, hfv, hof⟩
    · obtain ⟨e, he⟩ := getVersion_fail (envOfRemote r) p
        { k8sCache := some rec.toValue
          versionCache := none
          offeringCache := none
          changed := false
          resultVersion := none
          resultOffering := none
          trace := [Call.listClusters none (some p.name)] } rfl hvf
      have hpair := M.bind_error (getVersion (envOfRemote r) p)
        (fun _ => getServiceOffering (envOfRemote r) p) e _ _ he
      have hupd := updateK8s_fail_propagate (envOfRemote r) p _ rec e _ rfl hpair
      refine ⟨e,
        { k8sCache := some rec.toValue
          versionCache := none
          offeringCache := none
          changed := false
          resultVersion := none
          resultOffering := none
          trace := [Call.listClusters none (some p.name), Call.listVersions] }, ?_, rfl, rfl⟩
      simp only [presentK8s, M.bind_apply]
      rw [hstep1]
      simp only [ensureStep, List.nil_append]
      rw [hupd]
      rfl
    · have hv := getVersion_ok (envOfRemote r) p
        { k8sCache := some rec.toValue
          versionCache := none
          offeringCache := none
          changed := false
          resultVersion := none
          resultOffering := none
          trace := [Call.listClusters none (some p.name)] } vn ve rfl hpv hfv
      obtain ⟨e, he⟩ := getServiceOffering_fail (envOfRemote r) p
        { k8sCache := some rec.toValue
          versionCache := some ve
          offeringCache := none
          changed := false
          resultVersion := some ve.name
          resultOffering := none
          trace := [Call.listClusters none (some p.name), Call.listVersions] } rfl hof
      have hpair : (getVersion (envOfRemote r) p >>=
          fun _ => getServiceOffering (envOfRemote r) p)
          { k8sCache := some rec.toValue
            versionCache := none
            offeringCache := none
            changed := false
            resultVersion := none
            resultOffering := none
            trace := [Call.listClusters none (some p.name)] } = EStateM.Result.error e
          { k8sCache := some rec.toValue
            versionCache := some ve
            offeringCache := none
            changed := false
            resultVersion := some ve.name
            resultOffering := none
            trace := [Call.listClusters none (some p.name), Call.listVersions,
              Call.listOfferings] } := by
        rw [M.bind_apply, hv]
        exact he
      have hupd := updateK8s_fail_propagate (envOfRemote r) p _ rec e _ rfl hpair
      refine ⟨e,
        { k8sCache := some rec.toValue
          versionCache := some ve
          offeringCache := none
          changed := false
          resultVersion := some ve.name
          resultOffering := none
          trace := [Call.listClusters none (some p.name), Call.listVersions,
            Call.listOfferings] }, ?_, rfl, rfl⟩
      simp only [presentK8s, M.bind_apply]
      rw [hstep1]
      simp only [ensureStep, List.nil_append]
      rw [hupd]
  obtain ⟨e, st2, hpres, hfil, hch⟩ := key
  have hrun := mainM_error_of_stepsM (envOfRemote r) p e st2
    (stepsM_error_of_present (envOfRemote r) p e st2 hgate hst hpres)
  apply c1_conclusion_of_harmless
  · show (finalSt (runK8sModule (envOfRemote r) p)).trace.filter Call.isMutating = []
    rw [hrun]
    exact hfil
  · rw [hrun]
    exact hch

theorem notfound_gate_fail_harmless (p : Params) (r : Remote)
    (hpid : p.paramId = none)
    (hgate : (decide (p.state = Lifecycle.present) &&
      (p.description.isNone || p.service_offering.isNone || p.size.isNone
        || p.version.isNone)) = false)
    (hst : p.state ≠ Lifecycle.absent)
    (hnone : findCluster r none (some p.name) = none)
    (hcg : (p.description.isNone || p.service_offering.isNone || p.size.isNone
      || p.version.isNone) = true) :
    mutatingCalls (secondRun p r) = []
    ∧ (finalSt (secondRun p r)).changed = false := by
  have henv : (envOfRemote r).listClusters none (some p.name) = none := by
    rw [envOfRemote_listClusters, hnone]
    rfl
  have hstep1 := getK8s_notfound_run (envOfRemote r) p {} rfl hpid henv
  have hpres : presentK8s (envOfRemote r) p {} =
      EStateM.Result.error
        "missing required arguments: description, service_offering, size, version"
        { k8sCache := none
          versionCache := none
          offeringCache := none
          changed := false
          resultVersion := none
          resultOffering := none
          trace := [Call.listClusters none (some p.name)] } := by
    simp only [presentK8s, M.bind_apply]
    rw [hstep1]
    simp only [ensureStep, List.nil_append, createK8s, hcg, if_true, M.failJson_apply]
  have hrun := mainM_error_of_stepsM (envOfRemote r) p _ _
    (stepsM_error_of_present (envOfRemote r) p _ _ hgate hst hpres)
  apply c1_conclusion_of_harmless
  · show (finalSt (runK8sModule (envOfRemote r) p)).trace.filter Call.isMutating = []
    rw [hrun]
    rfl
  · rw [hrun]
    rfl

theorem notfound_resolution_fail_harmless (p : Params) (r : Remote)
    (hpid : p.paramId = none)
    (hgate : (decide (p.state = Lifecycle.present) &&
      (p.description.isNone || p.service_offering.isNone || p.size.isNone
        || p.version.isNone)) = false)
    (hst : p.state ≠ Lifecycle.absent)
    (hnone : findCluster r none (some p.name) = none)
    (hcg : (p.description.isNone || p.service_offering.isNone || p.size.isNone
      || p.version.isNone) = false)
    (hfail : (p.version = none
        ∨ ∃ vn, p.version = some vn ∧ r.versions.find? (matchesRef vn) = none)
      ∨ ∃ vn ve, p.version = some vn ∧ r.versions.find? (matchesRef vn) = some ve
        ∧ (p.service_offering = none
          ∨ ∃ so, p.service_offering = some so
            ∧ r.offerings.find? (matchesRef so) = none)) :
    mutatingCalls (secondRun p r) = []
    ∧ (finalSt (secondRun p r)).changed = false := by
  have henv : (envOfRemote r).listClusters none (some p.name) = none := by
    rw [envOfRemote_listClusters, hnone]
    rfl
  have hstep1 := getK8s_notfound_run (envOfRemote r) p {} rfl hpid henv
  have key : ∃ e st2, presentK8s (envOfRemote r) p {} = EStateM.Result.error e st2
      ∧ st2.trace.filter Call.isMutating = [] ∧ st2.changed = false := by
    rcases hfail with hvf | ⟨vn, ve, hpv, hfv, hof⟩
    · obtain ⟨e, he⟩ := getVersion_fail (envOfRemote r) p
        { k8sCache := none
          versionCache := none
          offeringCache := none
          changed := false
          resultVersion := none
          resultOffering := none
          trace := [Call.listClusters none (some p.name)] } rfl hvf
      have hpair := M.bind_error (getVersion (envOfRemote r) p)
        (fun _ => getServiceOffering (envOfRemote r) p) e _ _ he
      have hcre := createK8s_fail_propagate (envOfRemote r) p _ e _ hcg hpair
      refine ⟨e,
        { k8sCache := none
          versionCache := none
          offeringCache := none
          changed := false
          resultVersion := none
          resultOffering := none
          trace := [Call.listClusters none (some p.name), Call.listVersions] }, ?_, rfl, rfl⟩
      simp only [presentK8s, M.bind_apply]
      rw [hstep1]
      simp only [ensureStep, List.nil_append]
      rw [hcre]
      rfl
    · have hv := getVersion_ok (envOfRemote r) p
        { k8sCache := none
          versionCache := none
          offeringCache := none
          changed := false
          resultVersion := none
          resultOffering := none
          trace := [Call.listClusters none (some p.name)] } vn ve rfl hpv hfv
      obtain ⟨e, he⟩ := getServiceOffering_fail (envOfRemote r) p
        { k8sCache := none
          versionCache := some ve
          offeringCache := none
          changed := false
          resultVersion := some ve.name
          resultOffering := none
          trace := [Call.listClusters none (some p.name), Call.listVersions] } rfl hof
      have hpair : (getVersion (envOfRemote r) p >>=
          fun _ => getServiceOffering (envOfRemote r) p)
          { k8sCache := none
            versionCache := none
            offeringCache := none
            changed := false
            resultVersion := none
            resultOffering := none
            trace := [Call.listClusters none (some p.name)] } = EStateM.Result.error e
          { k8sCache := none
            versionCache := some ve
            offeringCache := none
            changed := false
            resultVersion := some ve.name
            resultOffering := none
            trace := [Call.listClusters none (some p.name), Call.listVersions,
              Call.listOfferings] } := by
        rw [M.bind_apply, hv]
        exact he
      have hcre := createK8s_fail_propagate (envOfRemote r) p _ e _ hcg hpair
      refine ⟨e,
        { k8sCache := none
          versionCache := some ve
          offeringCache := none
          changed := false
          resultVersion := some ve.name
          resultOffering := none
          trace := [Call.listClusters none (some p.name), Call.listVersions,
            Call.listOfferings] }, ?_, rfl, rfl⟩
      simp only [presentK8s, M.bind_apply]
      rw [hstep1]
      simp only [ensureStep, List.nil_append]
      rw [hcre]
  obtain ⟨e, st2, hpres, hfil, hch⟩ := key
  have hrun := mainM_error_of_stepsM (envOfRemote r) p e st2
    (stepsM_error_of_present (envOfRemote r) p e st2 hgate hst hpres)
  apply c1_conclusion_of_harmless
  · show (finalSt (runK8sModule (envOfRemote r) p)).trace.filter Call.isMutating = []
    rw [hrun]
    exact hfil
  · rw [hrun]
    exact hch

/-- The full trace of an invocation that created its cluster: lookup, the two
catalog reads, the create, one config fetch, and — for lifecycle `disabled` —
the stop of the freshly created (running) cluster. -/
theorem create_run_trace (p : Params) (r : Remote) (d so vn : String) (n : Int)
    (ve oe : CatalogEntry)
    (hcm : p.check_mode = false) (hpoll : p.poll_async = true) (hpid : p.paramId = none)
    (hst : p.state ≠ Lifecycle.absent)
    (hgate : (decide (p.state = Lifecycle.present) &&
      (p.description.isNone || p.service_offering.isNone || p.size.isNone
        || p.version.isNone)) = false)
    (hd : p.description = some d) (hps : p.service_offering = some so)
    (hsz : p.size = some n) (hpv : p.version = some vn)
    (hnone : findCluster r none (some p.name) = none)
    (hfv : r.versions.find? (matchesRef vn) = some ve)
    (hfo : r.offerings.find? (matchesRef so) = some oe) :
    (finalSt (runK8sModule (envOfRemote r) p)).trace =
      [Call.listClusters none (some p.name), Call.listVersions, Call.listOfferings,
        Call.create (createArgsFor (envOfRemote r) p ve oe), Call.getConfig r.nextId]
      ++ (if p.state = Lifecycle.disabled then [Call.stop r.nextId] else []) := by
  have henv : (envOfRemote r).listClusters none (some p.name) = none := by
    rw [envOfRemote_listClusters, hnone]
    rfl
  have hstep1 := getK8s_notfound_run (envOfRemote r) p {} rfl hpid henv
  have hstep2 := createK8s_run_characterization (envOfRemote r) p
    { k8sCache := none
      versionCache := none
      offeringCache := none
      changed := false
      resultVersion := none
      resultOffering := none
      trace := [Call.listClusters none (some p.name)] } d so vn n ve oe
    hd hps hsz hpv rfl rfl hfv hfo
  rw [M.run_eq] at hstep2
  simp only [hcm, Bool.false_eq_true, if_false, hpoll, if_true] at hstep2
  have hcp : (envOfRemote r).createPolled (createArgsFor (envOfRemote r) p ve oe) =
      (createdRecord r (createArgsFor (envOfRemote r) p ve oe)).toValue := rfl
  rw [hcp] at hstep2
  have hpresent : presentK8s (envOfRemote r) p {} =
      k8sConfig (envOfRemote r) p
        { k8sCache := some (createdRecord r (createArgsFor (envOfRemote r) p ve oe)).toValue
          versionCache := some ve
          offeringCache := some oe
          changed := true
          resultVersion := some ve.name
          resultOffering := some oe.name
          trace := [Call.listClusters none (some p.name), Call.listVersions,
            Call.listOfferings,
            Call.create (createArgsFor (envOfRemote r) p ve oe)] } := by
    simp only [presentK8s, M.bind_apply]
    rw [hstep1]
    simp only [ensureStep, List.nil_append]
    rw [hstep2]
    simp only [M.bind_apply, M.modify_apply]
    simp [List.append_assoc]
  have hstate : (createdRecord r (createArgsFor (envOfRemote r) p ve oe)).toValue.state
      = some "Running" := rfl
  have hid3 : (createdRecord r (createArgsFor (envOfRemote r) p ve oe)).toValue.id
      = some r.nextId := rfl
  have htail : ∀ (v3 : Value) (stC : St), v3.state = some "Running" →
      v3.id = some r.nextId →
      stC.k8sCache = some v3 →
      stC.trace = [Call.listClusters none (some p.name), Call.listVersions,
        Call.listOfferings, Call.create (createArgsFor (envOfRemote r) p ve oe),
        Call.getConfig r.nextId] →
      presentK8s (envOfRemote r) p {} = EStateM.Result.ok (some v3) stC →
      (finalSt (runK8sModule (envOfRemote r) p)).trace =
        [Call.listClusters none (some p.name), Call.listVersions, Call.listOfferings,
          Call.create (createArgsFor (envOfRemote r) p ve oe), Call.getConfig r.nextId]
        ++ (if p.state = Lifecycle.disabled then [Call.stop r.nextId] else []) := by
    intro v3 stC hv3s hv3i hc3 htr3 hpres
    have hsteps : (stepsM (envOfRemote r) p) {} =
        (if p.state = Lifecycle.disabled then stopK8s (envOfRemote r) p
         else startK8s (envOfRemote r) p) stC := by
      simp only [stepsM, hgate, Bool.false_eq_true, if_false, M.bind_apply,
        M.pure_apply, if_neg hst]
      rw [hpres]
    by_cases hdis : p.state = Lifecycle.disabled
    · rw [if_pos hdis] at hsteps
      have hstop := stopK8s_trigger (envOfRemote r) p stC v3 "Running" r.nextId
        hc3 hv3s hv3i hcm (by decide)
      rw [M.run_eq] at hstop
      have hmain : (mainM (envOfRemote r) p).run {} =
          finalStateCheck p
            (some (if p.poll_async then (envOfRemote r).stopPolled r.nextId
              else (envOfRemote r).stopResp r.nextId))
            { stC with changed := true, trace := stC.trace ++ [Call.stop r.nextId] } := by
        rw [M.run_eq]
        simp only [mainM, M.bind_apply]
        rw [hsteps, hstop]
      show (finalSt ((mainM (envOfRemote r) p).run {})).trace = _
      rw [hmain, finalStateCheck_trace]
      rw [htr3]
      simp [hdis]
    · rw [if_neg hdis] at hsteps
      have hstart := startK8s_noTrigger (envOfRemote r) p stC v3 "Running"
        hc3 hv3s (by decide)
      rw [M.run_eq] at hstart
      have hmain : (mainM (envOfRemote r) p).run {} =
          finalStateCheck p (some v3) stC := by
        rw [M.run_eq]
        simp only [mainM, M.bind_apply]
        rw [hsteps, hstart]
      show (finalSt ((mainM (envOfRemote r) p).run {})).trace = _
      rw [hmain, finalStateCheck_trace]
      rw [htr3]
      simp [hdis]
  have hk := k8sConfig_run_noConfig (envOfRemote r) p
    { k8sCache := some (createdRecord r (createArgsFor (envOfRemote r) p ve oe)).toValue
      versionCache := some ve
      offeringCache := some oe
      changed := true
      resultVersion := some ve.name
      resultOffering := some oe.name
      trace := [Call.listClusters none (some p.name), Call.listVersions,
        Call.listOfferings,
        Call.create (createArgsFor (envOfRemote r) p ve oe)] }
    (createdRecord r (createArgsFor (envOfRemote r) p ve oe)).toValue r.nextId
    rfl rfl hid3
  cases hgc : (envOfRemote r).getConfig r.nextId with
  | some cfg =>
    rw [hgc] at hk
    refine htail { (createdRecord r (createArgsFor (envOfRemote r) p ve oe)).toValue
      with config := some cfg } _ hstate hid3 ?_ ?_ (hpresent.trans hk) <;> rfl
  | none =>
    rw [hgc] at hk
    refine htail (createdRecord r (createArgsFor (envOfRemote r) p ve oe)).toValue _
      hstate hid3 ?_ ?_ (hpresent.trans hk) <;> rfl

/-- The mutating calls and the `changed` flag of a full invocation that found
its cluster and resolved both references, as functions of the three divergence
guards (version `b1`, offering/size `b2`, lifecycle trigger `bt`). -/
theorem found_run_characterization (p : Params) (r : Remote) (rec : Record)
    (vn so : String) (ve oe : CatalogEntry) (b1 b2 bt : Bool)
    (hcm : p.check_mode = false) (hpoll : p.poll_async = true) (hpid : p.paramId = none)
    (hst : p.state ≠ Lifecycle.absent)
    (hgate : (decide (p.state = Lifecycle.present) &&
      (p.description.isNone || p.service_offering.isNone || p.size.isNone
        || p.version.isNone)) = false)
    (hfound : findCluster r none (some p.name) = some rec)
    (hidu : findCluster r (some rec.id) none = some rec)
    (hpv : p.version = some vn) (hfv : r.versions.find? (matchesRef vn) = some ve)
    (hps : p.service_offering = some so) (hfo : r.offerings.find? (matchesRef so) = some oe)
    (hb1 : b1 = (rec.kubernetesversionid != ve.id))
    (hb2 : b2 = ((rec.serviceofferingid != oe.id) ||
      (match p.size with
       | some m => m != rec.size
       | none => false)))
    (hbt : bt = (if p.state = Lifecycle.disabled
      then (["starting", "running"]).contains (strLower rec.state)
      else (["stopped", "stopping"]).contains (strLower rec.state))) :
    (finalSt (runK8sModule (envOfRemote r) p)).trace.filter Call.isMutating =
      ((if b1 then [Call.upgrade rec.id ve.id] else [])
        ++ (if b2 then [Call.scale rec.id oe.id p.size] else [])
        ++ (if bt then [if p.state = Lifecycle.disabled
            then Call.stop rec.id else Call.start rec.id] else []))
    ∧ (finalSt (runK8sModule (envOfRemote r) p)).changed = (b1 || b2 || bt) := by
  have henv : (envOfRemote r).listClusters none (some p.name) = some rec.toValue := by
    rw [envOfRemote_listClusters, hfound]
    rfl
  have hstep1 := getK8s_found_run (envOfRemote r) p {} rec.toValue rfl hpid henv
  have hstep2 := updateK8s_run_characterization (envOfRemote r) p
    { k8sCache := some rec.toValue
      versionCache := none
      offeringCache := none
      changed := false
      resultVersion := none
      resultOffering := none
      trace := [Call.listClusters none (some p.name)] }
    rec vn so ve oe rfl rfl rfl hpv hfv hps hfo hcm hpoll
  rw [M.run_eq] at hstep2
  have hup : (envOfRemote r).upgradePolled rec.id ve.id
      = (upgradedRecord ve.id rec).toValue := by
    show (match findCluster r (some rec.id) none with
      | some c => (upgradedRecord ve.id c).toValue
      | none => jobValue rec.id) = _
    rw [hidu]
  have hsc : (envOfRemote r).scalePolled rec.id oe.id p.size
      = (scaledRecord oe.id p.size rec).toValue := by
    show (match findCluster r (some rec.id) none with
      | some c => (scaledRecord oe.id p.size c).toValue
      | none => jobValue rec.id) = _
    rw [hidu]
  have htail : ∀ (v3 : Value) (stC : St) (muts : List Call) (cb : Bool),
      presentK8s (envOfRemote r) p {} = EStateM.Result.ok (some v3) stC →
      v3.state = some rec.state → v3.id = some rec.id →
      stC.k8sCache = some v3 → stC.changed = cb →
      stC.trace.filter Call.isMutating = muts →
      (finalSt (runK8sModule (envOfRemote r) p)).trace.filter Call.isMutating =
        muts ++ (if bt then [if p.state = Lifecycle.disabled
            then Call.stop rec.id else Call.start rec.id] else [])
      ∧ (finalSt (runK8sModule (envOfRemote r) p)).changed = (cb || bt) := by
    intro v3 stC muts cb hpres hv3s hv3i hc3 hch3 htr3
    have hsteps : (stepsM (envOfRemote r) p) {} =
        (if p.state = Lifecycle.disabled then stopK8s (envOfRemote r) p
         else startK8s (envOfRemote r) p) stC := by
      simp only [stepsM, hgate, Bool.false_eq_true, if_false, M.bind_apply,
        M.pure_apply, if_neg hst]
      rw [hpres]
    by_cases hdis : p.state = Lifecycle.disabled
    · rw [if_pos hdis] at hsteps
      rw [if_pos hdis] at hbt
      by_cases htg : (["starting", "running"]).contains (strLower rec.state) = true
      · have hstop := stopK8s_trigger (envOfRemote r) p stC v3 rec.state rec.id
          hc3 hv3s hv3i hcm htg
        rw [M.run_eq] at hstop
        have hmain : (mainM (envOfRemote r) p).run {} =
            finalStateCheck p
              (some (if p.poll_async then (envOfRemote r).stopPolled rec.id
                else (envOfRemote r).stopResp rec.id))
              { stC with changed := true, trace := stC.trace ++ [Call.stop rec.id] } := by
          rw [M.run_eq]
          simp only [mainM, M.bind_apply]
          rw [hsteps, hstop]
        constructor
        · show (finalSt ((mainM (envOfRemote r) p).run {})).trace.filter
            Call.isMutating = _
          rw [hmain, finalStateCheck_trace]
          rw [List.filter_append, htr3, hbt, htg]
          simp [hdis, Call.isMutating]
        · show (finalSt ((mainM (envOfRemote r) p).run {})).changed = _
          rw [hmain, finalStateCheck_changed, hbt, htg]
          simp
      · simp only [Bool.not_eq_true] at htg
        have hstop := stopK8s_noTrigger (envOfRemote r) p stC v3 rec.state hc3 hv3s htg
        rw [M.run_eq] at hstop
        have hmain : (mainM (envOfRemote r) p).run {} =
            finalStateCheck p (some v3) stC := by
          rw [M.run_eq]
          simp only [mainM, M.bind_apply]
          rw [hsteps, hstop]
        constructor
        · show (finalSt ((mainM (envOfRemote r) p).run {})).trace.filter
            Call.isMutating = _
          rw [hmain, finalStateCheck_trace, htr3, hbt, htg]
          simp
        · show (finalSt ((mainM (envOfRemote r) p).run {})).changed = _
          rw [hmain, finalStateCheck_changed, hch3, hbt, htg]
          simp
    · rw [if_neg hdis] at hsteps
      rw [if_neg hdis] at hbt
      by_cases htg : (["stopped", "stopping"]).contains (strLower rec.state) = true
      · have hstart := startK8s_trigger (envOfRemote r) p stC v3 rec.state rec.id
          hc3 hv3s hv3i hcm htg
        rw [M.run_eq] at hstart
        have hmain : (mainM (envOfRemote r) p).run {} =
            finalStateCheck p
              (some (if p.poll_async then (envOfRemote r).startPolled rec.id
                else (envOfRemote r).startResp rec.id))
              { stC with changed := true, trace := stC.trace ++ [Call.start rec.id] } := by
          rw [M.run_eq]
          simp only [mainM, M.bind_apply]
          rw [hsteps, hstart]
        constructor
        · show (finalSt ((mainM (envOfRemote r) p).run {})).trace.filter
            Call.isMutating = _
          rw [hmain, finalStateCheck_trace]
          rw [List.filter_append, htr3, hbt, htg]
          simp [hdis, Call.isMutating]
        · show (finalSt ((mainM (envOfRemote r) p).run {})).changed = _
          rw [hmain, finalStateCheck_changed, hbt, htg]
          simp
      · simp only [Bool.not_eq_true] at htg
        have hstart := startK8s_noTrigger (envOfRemote r) p stC v3 rec.state hc3 hv3s htg
        rw [M.run_eq] at hstart
        have hmain : (mainM (envOfRemote r) p).run {} =
            finalStateCheck p (some v3) stC := by
          rw [M.run_eq]
          simp only [mainM, M.bind_apply]
          rw [hsteps, hstart]
        constructor
        · show (finalSt ((mainM (envOfRemote r) p).run {})).trace.filter
            Call.isMutating = _
          rw [hmain, finalStateCheck_trace, htr3, hbt, htg]
          simp
        · show (finalSt ((mainM (envOfRemote r) p).run {})).changed = _
          rw [hmain, finalStateCheck_changed, hch3, hbt, htg]
          simp
  cases b1 with
  | false =>
    have hg1f : hasChanged ⟨rec.id, ve.id, oe.id, p.size⟩ rec.toValue
        [UpdKey.kversionid] = false := by
      rw [hasChanged_version_key]
      exact hb1.symm
    have hg2r : hasChanged ⟨rec.id, ve.id, oe.id, p.size⟩ rec.toValue
        [UpdKey.sofferingid, UpdKey.size] = b2 := by
      rw [hasChanged_scale_keys]
      exact hb2.symm
    cases b2 with
    | false =>
      simp only [hg1f, hg2r, Bool.false_eq_true, if_false, Bool.or_false] at hstep2
      have hpresent : presentK8s (envOfRemote r) p {} =
          k8sConfig (envOfRemote r) p
            { k8sCache := some rec.toValue
              versionCache := some ve
              offeringCache := some oe
              changed := false
              resultVersion := some ve.name
              resultOffering := some oe.name
              trace := [Call.listClusters none (some p.name), Call.listVersions,
                Call.listOfferings] } := by
        simp only [presentK8s, M.bind_apply]
        rw [hstep1]
        simp only [ensureStep, List.nil_append]
        rw [hstep2]
        simp only [M.bind_apply, M.modify_apply]
        simp [List.append_assoc]
      cases hcfg : rec.config with
      | some cfg =>
        have hk := k8sConfig_run_hasConfig (envOfRemote r) p
          { k8sCache := some rec.toValue
            versionCache := some ve
            offeringCache := some oe
            changed := false
            resultVersion := some ve.name
            resultOffering := some oe.name
            trace := [Call.listClusters none (some p.name), Call.listVersions,
              Call.listOfferings] } rec.toValue cfg rfl hcfg
        obtain ⟨ht, hcc⟩ := htail _ _ _ _ (hpresent.trans hk) rfl rfl rfl rfl rfl
        exact ⟨ht.trans (by simp [Call.isMutating]), hcc.trans (by simp)⟩
      | none =>
        have hk := k8sConfig_run_noConfig (envOfRemote r) p
          { k8sCache := some rec.toValue
            versionCache := some ve
            offeringCache := some oe
            changed := false
            resultVersion := some ve.name
            resultOffering := some oe.name
            trace := [Call.listClusters none (some p.name), Call.listVersions,
              Call.listOfferings] } rec.toValue rec.id rfl hcfg rfl
        cases hgc : (envOfRemote r).getConfig rec.id with
        | some cfg =>
          rw [hgc] at hk
          obtain ⟨ht, hcc⟩ := htail _ _ _ _ (hpresent.trans hk) rfl rfl rfl rfl rfl
          exact ⟨ht.trans (by simp [Call.isMutating]), hcc.trans (by simp)⟩
        | none =>
          rw [hgc] at hk
          obtain ⟨ht, hcc⟩ := htail _ _ _ _ (hpresent.trans hk) rfl rfl rfl rfl rfl
          exact ⟨ht.trans (by simp [Call.isMutating]), hcc.trans (by simp)⟩
    | true =>
      simp only [hg1f, hg2r, Bool.false_eq_true, if_false, if_true, hsc,
        Bool.or_false, Bool.or_true] at hstep2
      have hpresent : presentK8s (envOfRemote r) p {} =
          k8sConfig (envOfRemote r) p
            { k8sCache := some (scaledRecord oe.id p.size rec).toValue
              versionCache := some ve
              offeringCache := some oe
              changed := true
              resultVersion := some ve.name
              resultOffering := some oe.name
              trace := [Call.listClusters none (some p.name), Call.listVersions,
                Call.listOfferings, Call.scale rec.id oe.id p.size] } := by
        simp only [presentK8s, M.bind_apply]
        rw [hstep1]
        simp only [ensureStep, List.nil_append]
        rw [hstep2]
        simp only [M.bind_apply, M.modify_apply]
        simp [List.append_assoc]
      cases hcfg : rec.config with
      | some cfg =>
        have hk := k8sConfig_run_hasConfig (envOfRemote r) p
          { k8sCache := some (scaledRecord oe.id p.size rec).toValue
            versionCache := some ve
            offeringCache := some oe
            changed := true
            resultVersion := some ve.name
            resultOffering := some oe.name
            trace := [Call.listClusters none (some p.name), Call.listVersions,
              Call.listOfferings, Call.scale rec.id oe.id p.size] }
          (scaledRecord oe.id p.size rec).toValue cfg rfl hcfg
        obtain ⟨ht, hcc⟩ := htail _ _ _ _ (hpresent.trans hk) rfl rfl rfl rfl rfl
        exact ⟨ht.trans (by simp [Call.isMutating]), hcc.trans (by simp)⟩
      | none =>
        have hk := k8sConfig_run_noConfig (envOfRemote r) p
          { k8sCache := some (scaledRecord oe.id p.size rec).toValue
            versionCache := some ve
            offeringCache := some oe
            changed := true
            resultVersion := some ve.name
            resultOffering := some oe.name
            trace := [Call.listClusters none (some p.name), Call.listVersions,
              Call.listOfferings, Call.scale rec.id oe.id p.size] }
          (scaledRecord oe.id p.size rec).toValue rec.id rfl hcfg rfl
        cases hgc : (envOfRemote r).getConfig rec.id with
        | some cfg =>
          rw [hgc] at hk
          obtain ⟨ht, hcc⟩ := htail _ _ _ _ (hpresent.trans hk) rfl rfl rfl rfl rfl
          exact ⟨ht.trans (by simp [Call.isMutating]), hcc.trans (by simp)⟩
        | none =>
          rw [hgc] at hk
          obtain ⟨ht, hcc⟩ := htail _ _ _ _ (hpresent.trans hk) rfl rfl rfl rfl rfl
          exact ⟨ht.trans (by simp [Call.isMutating]), hcc.trans (by simp)⟩
  | true =>
    have hg1t : hasChanged ⟨rec.id, ve.id, oe.id, p.size⟩ rec.toValue
        [UpdKey.kversionid] = true := by
      rw [hasChanged_version_key]
      exact hb1.symm
    have hg2u : hasChanged ⟨rec.id, ve.id, oe.id, p.size⟩
        (upgradedRecord ve.id rec).toValue [UpdKey.sofferingid, UpdKey.size] = b2 := by
      rw [hasChanged_scale_keys]
      simp only [upgradedRecord]
      exact hb2.symm
    cases b2 with
    | false =>
      simp only [hg1t, hg2u, if_true, hup, Bool.false_eq_true, if_false,
        Bool.or_false, Bool.or_true] at hstep2
      have hpresent : presentK8s (envOfRemote r) p {} =
          k8sConfig (envOfRemote r) p
            { k8sCache := some (upgradedRecord ve.id rec).toValue
              versionCache := some ve
              offeringCache := some oe
              changed := true
              resultVersion := some ve.name
              resultOffering := some oe.name
              trace := [Call.listClusters none (some p.name), Call.listVersions,
                Call.listOfferings, Call.upgrade rec.id ve.id] } := by
        simp only [presentK8s, M.bind_apply]
        rw [hstep1]
        simp only [ensureStep, List.nil_append]
        rw [hstep2]
        simp only [M.bind_apply, M.modify_apply]
        simp [List.append_assoc]
      cases hcfg : rec.config with
      | some cfg =>
        have hk := k8sConfig_run_hasConfig (envOfRemote r) p
          { k8sCache := some (upgradedRecord ve.id rec).toValue
            versionCache := some ve
            offeringCache := some oe
            changed := true
            resultVersion := some ve.name
            resultOffering := some oe.name
            trace := [Call.listClusters none (some p.name), Call.listVersions,
              Call.listOfferings, Call.upgrade rec.id ve.id] }
          (upgradedRecord ve.id rec).toValue cfg rfl hcfg
        obtain ⟨ht, hcc⟩ := htail _ _ _ _ (hpresent.trans hk) rfl rfl rfl rfl rfl
        exact ⟨ht.trans (by simp [Call.isMutating]), hcc.trans (by simp)⟩
      | none =>
        have hk := k8sConfig_run_noConfig (envOfRemote r) p
          { k8sCache := some (upgradedRecord ve.id rec).toValue
            versionCache := some ve
            offeringCache := some oe
            changed := true
            resultVersion := some ve.name
            resultOffering := some oe.name
            trace := [Call.listClusters none (some p.name), Call.listVersions,
              Call.listOfferings, Call.upgrade rec.id ve.id] }
          (upgradedRecord ve.id rec).toValue rec.id rfl hcfg rfl
        cases hgc : (envOfRemote r).getConfig rec.id with
        | some cfg =>
          rw [hgc] at hk
          obtain ⟨ht, hcc⟩ := htail _ _ _ _ (hpresent.trans hk) rfl rfl rfl rfl rfl
          exact ⟨ht.trans (by simp [Call.isMutating]), hcc.trans (by simp)⟩
        | none =>
          rw [hgc] at hk
          obtain ⟨ht, hcc⟩ := htail _ _ _ _ (hpresent.trans hk) rfl rfl rfl rfl rfl
          exact ⟨ht.trans (by simp [Call.isMutating]), hcc.trans (by simp)⟩
    | true =>
      simp only [hg1t, hg2u, if_true, hup, hsc, Bool.or_true] at hstep2
      have hpresent : presentK8s (envOfRemote r) p {} =
          k8sConfig (envOfRemote r) p
            { k8sCache := some (scaledRecord oe.id p.size rec).toValue
              versionCache := some ve
              offeringCache := some oe
              changed := true
              resultVersion := some ve.name
              resultOffering := some oe.name
              trace := [Call.listClusters none (some p.name), Call.listVersions,
                Call.listOfferings, Call.upgrade rec.id ve.id,
                Call.scale rec.id oe.id p.size] } := by
        simp only [presentK8s, M.bind_apply]
        rw [hstep1]
        simp only [ensureStep, List.nil_append]
        rw [hstep2]
        simp only [M.bind_apply, M.modify_apply]
        simp [List.append_assoc]
      cases hcfg : rec.config with
      | some cfg =>
        have hk := k8sConfig_run_hasConfig (envOfRemote r) p
          { k8sCache := some (scaledRecord oe.id p.size rec).toValue
            versionCache := some ve
            offeringCache := some oe
            changed := true
            resultVersion := some ve.name
            resultOffering := some oe.name
            trace := [Call.listClusters none (some p.name), Call.listVersions,
              Call.listOfferings, Call.upgrade rec.id ve.id,
              Call.scale rec.id oe.id p.size] }
          (scaledRecord oe.id p.size rec).toValue cfg rfl hcfg
        obtain ⟨ht, hcc⟩ := htail _ _ _ _ (hpresent.trans hk) rfl rfl rfl rfl rfl
        exact ⟨ht.trans (by simp [Call.isMutating]), hcc.trans (by simp)⟩
      | none =>
        have hk := k8sConfig_run_noConfig (envOfRemote r) p
          { k8sCache := some (scaledRecord oe.id p.size rec).toValue
            versionCache := some ve
            offeringCache := some oe
            changed := true
            resultVersion := some ve.name
            resultOffering := some oe.name
            trace := [Call.listClusters none (some p.name), Call.listVersions,
              Call.listOfferings, Call.upgrade rec.id ve.id,
              Call.scale rec.id oe.id p.size] }
          (scaledRecord oe.id p.size rec).toValue rec.id rfl hcfg rfl
        cases hgc : (envOfRemote r).getConfig rec.id with
        | some cfg =>
          rw [hgc] at hk
          obtain ⟨ht, hcc⟩ := htail _ _ _ _ (hpresent.trans hk) rfl rfl rfl rfl rfl
          exact ⟨ht.trans (by simp [Call.isMutating]), hcc.trans (by simp)⟩
        | none =>
          rw [hgc] at hk
          obtain ⟨ht, hcc⟩ := htail _ _ _ _ (hpresent.trans hk) rfl rfl rfl rfl rfl
          exact ⟨ht.trans (by simp [Call.isMutating]), hcc.trans (by simp)⟩

theorem eq_of_bne_false {α : Type} [BEq α] [LawfulBEq α] {a b : α}
    (h : (a != b) = false) : a = b := by
  rw [bne] at h
  exact eq_of_beq (by simpa using h)

/-- Bridge to the converged-cloud no-op: if the first run's mutating calls
produce a cloud whose stored record matches the desired spec, the second run
is harmless. -/
theorem c1_found_second (p : Params) (r : Remote) (recF : Record) (vn so : String)
    (ve oe : CatalogEntry) (t : List Call)
    (hcm : p.check_mode = false) (hpoll : p.poll_async = true) (hpid : p.paramId = none)
    (hst : p.state ≠ Lifecycle.absent)
    (hfil : (finalSt (runK8sModule (envOfRemote r) p)).trace.filter Call.isMutating = t)
    (hfc : findCluster (applyTrace r t) none (some p.name) = some recF)
    (hpv : p.version = some vn) (hfv : r.versions.find? (matchesRef vn) = some ve)
    (hps : p.service_offering = some so) (hfo : r.offerings.find? (matchesRef so) = some oe)
    (hkv : recF.kubernetesversionid = ve.id)
    (hso : recF.serviceofferingid = oe.id)
    (hsz : p.size = none ∨ p.size = some recF.size)
    (hact : if p.state = Lifecycle.disabled
      then (["starting", "running"]).contains (strLower recF.state) = false
      else (["stopped", "stopping"]).contains (strLower recF.state) = false) :
    mutatingCalls (secondRun p r) = []
    ∧ (finalSt (secondRun p r)).changed = false := by
  have hr2 : remoteAfterRun p r = applyTrace r t := by
    unfold remoteAfterRun
    rw [applyTrace_filter, hfil]
  have hfv2 : (applyTrace r t).versions.find? (matchesRef vn) = some ve := by
    rw [(applyTrace_fields r t).1]
    exact hfv
  have hfo2 : (applyTrace r t).offerings.find? (matchesRef so) = some oe := by
    rw [(applyTrace_fields r t).2.1]
    exact hfo
  unfold secondRun
  rw [hr2]
  exact runK8sModule_noop p (applyTrace r t) recF vn so ve oe hcm hpoll hpid hst
    hfc hpv hfv2 hps hfo2 hkv hso hsz hact

theorem or_false_left {a b : Bool} (h : (a || b) = false) : a = false := by
  cases a
  · rfl
  · simp at h

theorem or_false_right {a b : Bool} (h : (a || b) = false) : b = false := by
  cases b
  · rfl
  · simp at h

/-- C1 (amended): the reconciler is idempotent when check mode is off and
polling is on.  For every desired spec with `check_mode = false`,
`poll_async = true` and no `id` parameter (the argument spec declares none),
and every cloud whose cluster names and ids are pairwise distinct, running the
module twice in succession — the second run against the cloud state the first
run's completed calls produced, with no external drift — issues zero mutating
calls (no create, upgrade, scale, start, stop or delete) on the second run and
reports `changed = false`. -/
theorem c1_reconciler_idempotent (p : Params) (r : Remote)
    (hcm : p.check_mode = false) (hpoll : p.poll_async = true) (hpid : p.paramId = none)
    (hpwn : r.clusters.Pairwise (fun a b => a.name ≠ b.name))
    (hpwi : r.clusters.Pairwise (fun a b => a.id ≠ b.id)) :
    mutatingCalls (secondRun p r) = []
    ∧ (finalSt (secondRun p r)).changed = false := by
  by_cases hgate : (decide (p.state = Lifecycle.present) &&
      (p.description.isNone || p.service_offering.isNone || p.size.isNone
        || p.version.isNone)) = true
  · have hrun : runK8sModule (envOfRemote r) p =
        EStateM.Result.error "missing required arguments for state=present" {} := by
      show (mainM (envOfRemote r) p).run {} = _
      rw [M.run_eq]
      simp only [mainM, stepsM, M.bind_apply, hgate, if_true, M.failJson_apply]
    apply c1_conclusion_of_harmless
    · show (finalSt (runK8sModule (envOfRemote r) p)).trace.filter Call.isMutating = []
      rw [hrun]
      rfl
    · rw [hrun]
      rfl
  · simp only [Bool.not_eq_true] at hgate
    by_cases habs : p.state = Lifecycle.absent
    · cases hfound : findCluster r none (some p.name) with
      | none =>
        have hrun := absent_none_run (envOfRemote r) p habs hpid
          (by rw [envOfRemote_listClusters, hfound]; rfl)
        apply c1_conclusion_of_harmless
        · show (finalSt (runK8sModule (envOfRemote r) p)).trace.filter Call.isMutating = []
          rw [hrun]
          rfl
        · rw [hrun]
          rfl
      | some rec =>
        have h1 := absent_found_trace (envOfRemote r) p rec.toValue rec.id habs hpid hcm
          (by rw [envOfRemote_listClusters, hfound]; rfl) rfl
        have hr2 : remoteAfterRun p r =
            { r with clusters := r.clusters.filter (fun c => c.id != rec.id) } := by
          unfold remoteAfterRun
          rw [h1]
          rfl
        have hnone2 : (envOfRemote (remoteAfterRun p r)).listClusters none (some p.name)
            = none := by
          rw [envOfRemote_listClusters]
          rw [hr2]
          rw [show findCluster { r with
              clusters := r.clusters.filter (fun c => c.id != rec.id) } none (some p.name)
            = none from findCluster_after_delete r rec p.name hpwn hfound]
          rfl
        have hrun2 := absent_none_run (envOfRemote (remoteAfterRun p r)) p habs hpid hnone2
        constructor
        · show mutatingCalls (runK8sModule (envOfRemote (remoteAfterRun p r)) p) = []
          rw [hrun2]
          rfl
        · show (finalSt (runK8sModule (envOfRemote (remoteAfterRun p r)) p)).changed = false
          rw [hrun2]
          rfl
    · cases hfound : findCluster r none (some p.name) with
      | none =>
        by_cases hcg : (p.description.isNone || p.service_offering.isNone
            || p.size.isNone || p.version.isNone) = true
        · exact notfound_gate_fail_harmless p r hpid hgate habs hfound hcg
        · simp only [Bool.not_eq_true] at hcg
          obtain ⟨d, hd⟩ : ∃ d, p.description = some d := by
            cases hdd : p.description with
            | none => rw [hdd] at hcg; simp at hcg
            | some d => exact ⟨d, rfl⟩
          obtain ⟨so, hpss⟩ : ∃ so, p.service_offering = some so := by
            cases hdd : p.service_offering with
            | none => rw [hdd] at hcg; simp at hcg
            | some so => exact ⟨so, rfl⟩
          obtain ⟨n, hszn⟩ : ∃ n, p.size = some n := by
            cases hdd : p.size with
            | none => rw [hdd] at hcg; simp at hcg
            | some n => exact ⟨n, rfl⟩
          obtain ⟨vn, hpvv⟩ : ∃ vn, p.version = some vn := by
            cases hdd : p.version with
            | none => rw [hdd] at hcg; simp at hcg
            | some vn => exact ⟨vn, rfl⟩
          cases hfv : r.versions.find? (matchesRef vn) with
          | none =>
            exact notfound_resolution_fail_harmless p r hpid hgate habs hfound hcg
              (Or.inl (Or.inr ⟨vn, hpvv, hfv⟩))
          | some ve =>
            cases hfo : r.offerings.find? (matchesRef so) with
            | none =>
              exact notfound_resolution_fail_harmless p r hpid hgate habs hfound hcg
                (Or.inr ⟨vn, ve, hpvv, hfv, Or.inr ⟨so, hpss, hfo⟩⟩)
            | some oe =>
              have htrace := create_run_trace p r d so vn n ve oe hcm hpoll hpid habs
                hgate hd hpss hszn hpvv hfound hfv hfo
              have hap : findCluster (applyCall r
                  (Call.create (createArgsFor (envOfRemote r) p ve oe))) none (some p.name)
                  = some (createdRecord r (createArgsFor (envOfRemote r) p ve oe)) := by
                show ((r.clusters ++
                  [createdRecord r (createArgsFor (envOfRemote r) p ve oe)]).filter
                  (matchesFilters none (some p.name))).head? = _
                exact findCluster_after_append r _ p.name hfound rfl
              by_cases hdis : p.state = Lifecycle.disabled
              · refine c1_found_second p r
                  ({ createdRecord r (createArgsFor (envOfRemote r) p ve oe) with
                    state := "Stopped" })
                  vn so ve oe
                  [Call.create (createArgsFor (envOfRemote r) p ve oe), Call.stop r.nextId]
                  hcm hpoll hpid habs ?_ ?_ hpvv hfv hpss hfo rfl rfl ?_ ?_
                · rw [htrace]
                  simp [hdis, Call.isMutating]
                · show findCluster (applyCall (applyCall r
                      (Call.create (createArgsFor (envOfRemote r) p ve oe)))
                      (Call.stop r.nextId)) none (some p.name) = _
                  rw [findCluster_applyCall_stop _ r.nextId p.name _ hap]
                  simp [createdRecord]
                · right
                  rw [hszn]
                  simp [createdRecord, createArgsFor, hszn]
                · rw [if_pos hdis]
                  show (["starting", "running"]).contains (strLower "Stopped") = false
                  decide
              · refine c1_found_second p r
                  (createdRecord r (createArgsFor (envOfRemote r) p ve oe))
                  vn so ve oe
                  [Call.create (createArgsFor (envOfRemote r) p ve oe)]
                  hcm hpoll hpid habs ?_ ?_ hpvv hfv hpss hfo rfl rfl ?_ ?_
                · rw [htrace]
                  simp [hdis, Call.isMutating]
                · exact hap
                · right
                  rw [hszn]
                  simp [createdRecord, createArgsFor, hszn]
                · rw [if_neg hdis]
                  show (["stopped", "stopping"]).contains (strLower "Running") = false
                  decide
      | some rec =>
        have hmem := findCluster_name_mem r p.name rec hfound
        have hidu := findCluster_id_unique r rec hpwi hmem.1
        cases hpvv : p.version with
        | none =>
          exact found_resolution_fail_harmless p r rec hpid hgate habs hfound
            (Or.inl (Or.inl hpvv))
        | some vn =>
          cases hfv : r.versions.find? (matchesRef vn) with
          | none =>
            exact found_resolution_fail_harmless p r rec hpid hgate habs hfound
              (Or.inl (Or.inr ⟨vn, hpvv, hfv⟩))
          | some ve =>
            cases hpss : p.service_offering with
            | none =>
              exact found_resolution_fail_harmless p r rec hpid hgate habs hfound
                (Or.inr ⟨vn, ve, hpvv, hfv, Or.inl hpss⟩)
            | some so =>
              cases hfo : r.offerings.find? (matchesRef so) with
              | none =>
                exact found_resolution_fail_harmless p r rec hpid hgate habs hfound
                  (Or.inr ⟨vn, ve, hpvv, hfv, Or.inr ⟨so, hpss, hfo⟩⟩)
              | some oe =>
                obtain ⟨hfil0, -⟩ := found_run_characterization p r rec vn so ve oe
                  (rec.kubernetesversionid != ve.id)
                  ((rec.serviceofferingid != oe.id) ||
                    (match p.size with
                     | some m => m != rec.size
                     | none => false))
                  (if p.state = Lifecycle.disabled
                    then (["starting", "running"]).contains (strLower rec.state)
                    else (["stopped", "stopping"]).contains (strLower rec.state))
                  hcm hpoll hpid habs hgate hfound hidu hpvv hfv hpss hfo rfl rfl rfl
                have hsecond : ∀ (recB : Record) (tmut : List Call),
                    (finalSt (runK8sModule (envOfRemote r) p)).trace.filter
                        Call.isMutating =
                      tmut ++ (if (if p.state = Lifecycle.disabled
                        then (["starting", "running"]).contains (strLower rec.state)
                        else (["stopped", "stopping"]).contains (strLower rec.state))
                        then [if p.state = Lifecycle.disabled
                          then Call.stop rec.id else Call.start rec.id] else []) →
                    findCluster (applyTrace r tmut) none (some p.name) = some recB →
                    recB.kubernetesversionid = ve.id →
                    recB.serviceofferingid = oe.id →
                    (p.size = none ∨ p.size = some recB.size) →
                    recB.state = rec.state →
                    recB.id = rec.id →
                    mutatingCalls (secondRun p r) = []
                    ∧ (finalSt (secondRun p r)).changed = false := by
                  intro recB tmut hfilB hfcB hkvB hsoB hszB hstB hidB
                  by_cases hdis : p.state = Lifecycle.disabled
                  · simp only [hdis, if_true] at hfilB
                    by_cases htg : (["starting", "running"]).contains (strLower rec.state)
                        = true
                    · simp only [htg, if_true] at hfilB
                      refine c1_found_second p r ({ recB with state := "Stopped" })
                        vn so ve oe (tmut ++ [Call.stop rec.id])
                        hcm hpoll hpid habs hfilB ?_ hpvv hfv hpss hfo hkvB hsoB hszB ?_
                      · rw [applyTrace_append]
                        show findCluster (applyCall (applyTrace r tmut)
                          (Call.stop rec.id)) none (some p.name) = _
                        rw [findCluster_applyCall_stop _ rec.id p.name recB hfcB]
                        rw [hidB]
                        simp
                      · rw [if_pos hdis]
                        show (["starting", "running"]).contains (strLower "Stopped") = false
                        decide
                    · simp only [Bool.not_eq_true] at htg
                      simp only [htg, Bool.false_eq_true, if_false,
                        List.append_nil] at hfilB
                      refine c1_found_second p r recB vn so ve oe tmut
                        hcm hpoll hpid habs hfilB hfcB hpvv hfv hpss hfo hkvB hsoB hszB ?_
                      rw [if_pos hdis, hstB]
                      exact htg
                  · simp only [hdis, if_false] at hfilB
                    by_cases htg : (["stopped", "stopping"]).contains (strLower rec.state)
                        = true
                    · simp only [htg, if_true] at hfilB
                      refine c1_found_second p r ({ recB with state := "Running" })
                        vn so ve oe (tmut ++ [Call.start rec.id])
                        hcm hpoll hpid habs hfilB ?_ hpvv hfv hpss hfo hkvB hsoB hszB ?_
                      · rw [applyTrace_append]
                        show findCluster (applyCall (applyTrace r tmut)
                          (Call.start rec.id)) none (some p.name) = _
                        rw [findCluster_applyCall_start _ rec.id p.name recB hfcB]
                        rw [hidB]
                        simp
                      · rw [if_neg hdis]
                        show (["stopped", "stopping"]).contains (strLower "Running") = false
                        decide
                    · simp only [Bool.not_eq_true] at htg
                      simp only [htg, Bool.false_eq_true, if_false,
                        List.append_nil] at hfilB
                      refine c1_found_second p r recB vn so ve oe tmut
                        hcm hpoll hpid habs hfilB hfcB hpvv hfv hpss hfo hkvB hsoB hszB ?_
                      rw [if_neg hdis, hstB]
                      exact htg
                by_cases hb1v : (rec.kubernetesversionid != ve.id) = true
                · by_cases hb2v : ((rec.serviceofferingid != oe.id) ||
                      (match p.size with
                       | some m => m != rec.size
                       | none => false)) = true
                  · refine hsecond (scaledRecord oe.id p.size (upgradedRecord ve.id rec))
                      [Call.upgrade rec.id ve.id, Call.scale rec.id oe.id p.size]
                      ?_ ?_ rfl rfl ?_ rfl rfl
                    · rw [hfil0]
                      simp [hb1v, hb2v]
                    · have hstep : findCluster (applyCall r (Call.upgrade rec.id ve.id))
                          none (some p.name) = some (upgradedRecord ve.id rec) := by
                        rw [findCluster_applyCall_upgrade r rec.id ve.id p.name rec hfound]
                        simp
                      show findCluster (applyCall (applyCall r
                          (Call.upgrade rec.id ve.id))
                          (Call.scale rec.id oe.id p.size)) none (some p.name) = _
                      rw [findCluster_applyCall_scale _ rec.id oe.id p.name p.size _ hstep]
                      simp [upgradedRecord]
                    · rcases hpz : p.size with _ | m
                      · exact Or.inl rfl
                      · right
                        simp [scaledRecord]
                  · simp only [Bool.not_eq_true] at hb2v
                    have hsoeq : rec.serviceofferingid = oe.id :=
                      eq_of_bne_false (or_false_left hb2v)
                    refine hsecond (upgradedRecord ve.id rec)
                      [Call.upgrade rec.id ve.id]
                      ?_ ?_ rfl hsoeq ?_ rfl rfl
                    · rw [hfil0]
                      simp [hb1v, hb2v]
                    · show findCluster (applyCall r
                        (Call.upgrade rec.id ve.id)) none (some p.name) = _
                      rw [findCluster_applyCall_upgrade r rec.id ve.id p.name rec hfound]
                      simp
                    · have hszf := or_false_right hb2v
                      rcases hpz : p.size with _ | m
                      · exact Or.inl rfl
                      · right
                        rw [hpz] at hszf
                        have := eq_of_bne_false hszf
                        rw [this]
                        rfl
                · simp only [Bool.not_eq_true] at hb1v
                  have hkveq : rec.kubernetesversionid = ve.id := eq_of_bne_false hb1v
                  by_cases hb2v : ((rec.serviceofferingid != oe.id) ||
                      (match p.size with
                       | some m => m != rec.size
                       | none => false)) = true
                  · refine hsecond (scaledRecord oe.id p.size rec)
                      [Call.scale rec.id oe.id p.size]
                      ?_ ?_ hkveq rfl ?_ rfl rfl
                    · rw [hfil0]
                      simp [hb1v, hb2v]
                    · show findCluster (applyCall r
                        (Call.scale rec.id oe.id p.size)) none (some p.name) = _
                      rw [findCluster_applyCall_scale r rec.id oe.id p.name p.size rec
                        hfound]
                      simp
                    · rcases hpz : p.size with _ | m
                      · exact Or.inl rfl
                      · right
                        simp [scaledRecord]
                  · simp only [Bool.not_eq_true] at hb2v
                    have hsoeq : rec.serviceofferingid = oe.id :=
                      eq_of_bne_false (or_false_left hb2v)
                    refine hsecond rec [] ?_ hfound hkveq hsoeq ?_ rfl rfl
                    · rw [hfil0]
                      simp [hb1v, hb2v]
                    · have hszf := or_false_right hb2v
                      rcases hpz : p.size with _ | m
                      · exact Or.inl rfl
                      · right
                        rw [hpz] at hszf
                        have := eq_of_bne_false hszf
                        rw [this]

/-- C1 counterexample to the unrestricted claim: (a) in check mode the second
of two identical runs still reports `changed = true` (the check-mode create
sets the flag without mutating, and so does the second run); (b) with polling
disabled and both the version and the offering diverging, the first run issues
only the upgrade — its scale guard diffs against the field-less job handle —
then dies on the missing `state` key, and the second run issues a scale call:
the second run is not free of mutating calls. -/
theorem c1_reconciler_idempotent_cex :
    (finalSt (secondRun chkParams baseRemote)).changed = true
    ∧ mutatingCalls (secondRun pollOffParams oneClusterRemote)
        = [Call.scale "c1" "oid2" (some 4)] := by
  constructor
  · rfl
  · rfl

/-- C1 witness: a cluster matching `baseParams` exactly; the second run
issues nothing and reports no change. -/
theorem c1_reconciler_idempotent_witness :
    mutatingCalls (secondRun baseParams oneClusterRemote) = []
    ∧ (finalSt (secondRun baseParams oneClusterRemote)).changed = false :=
  c1_reconciler_idempotent baseParams oneClusterRemote rfl rfl rfl
    (by rw [show oneClusterRemote.clusters = [sampleRecord] from rfl]; simp)
    (by rw [show oneClusterRemote.clusters = [sampleRecord] from rfl]; simp)
